import Mathlib

/-!
Constraint resolution: structure substitution and the legacy plus→cross rewrite.

A shallow embedding of `src/constraintResolution.js` (class `ConstraintResolution`).

* A grid is a list of rows of integers. A JavaScript read `grid[i][j]` of a present row
  yields `undefined` outside the row; `cell` returns `none` there, and a strict comparison
  `grid[i][j] === v` is `cell grid i j == some v`.
* `replacePlusWithCross` is the double `for` loop of the source, as two nested left folds
  over the index ranges `1 .. rows-2` and `1 .. cols-2`; the `processed` set of string keys
  `"i,j"` is a list of coordinate pairs.
* `replacePlusWithCrossTraced` is the same loop with every array access made explicit: each
  read of `grid` and write of `result` is recorded, and an access to an absent row raises
  the `TypeError` of JavaScript.
* The modules `substitutionRuleIdentifier`, `structureRecognition`, `substitutionOperators`
  and `constraintTracker` are required by the source but are not part of it; they are the
  fields of `Collaborators`, each of which may raise. A raised exception is a message.
* A run of `structureSubstitution` is the list of calls it makes (recognizers,
  `applySubstitution`, the legacy rewrite, the unknown-structure log) together with the
  grid it returns or the exception it raises. Console output is not modelled.
* Values of a parameter bag are `JsVal`s with JavaScript truthiness; a property that is
  absent reads as `undefined`.
-/

namespace ConstraintResolution

deriving instance DecidableEq for Except

/-! ## Grids -/

/-- A grid: rows of integer cell values. -/
abbrev Grid := List (List Int)

/-- A coordinate `(row, col)`; also the key `"row,col"` of the `processed` set. -/
abbrev Coord := Nat × Nat

/-- The read `grid[i][j]` for a present or absent cell (`none` is `undefined`). -/
def cell (grid : Grid) (i j : Nat) : Option Int :=
  (grid.getD i []).get? j

/-- The write `result[i][j] = v`. The source only writes cells of `result` that exist
whenever `result` has the shape of `grid` (the only way `structureSubstitution` calls it);
a write outside `result` leaves the model unchanged. -/
def setCell (result : Grid) (i j : Nat) (v : Int) : Grid :=
  result.set i ((result.getD i []).set j v)

/-- All rows of the grid have length `cols`. -/
def Rectangular (grid : Grid) (cols : Nat) : Prop :=
  ∀ row ∈ grid, row.length = cols

/-- The grid `out` has as many rows as `grid`, each of length `cols`. -/
def SameShape (out grid : Grid) (cols : Nat) : Prop :=
  out.length = grid.length ∧ ∀ row ∈ out, row.length = cols

/-- The row lengths of a grid. -/
def shape (g : Grid) : List Nat := g.map List.length

/-! ## The legacy rewrite `replacePlusWithCross` -/

/-- The test `is3x3Plus` of the source (lines 189-193): centre `0`, all 8 neighbours `1`,
read from the input `grid`. -/
def is3x3Plus (grid : Grid) (i j : Nat) : Bool :=
  cell grid i j == some 0 &&
  cell grid (i-1) (j-1) == some 1 && cell grid (i-1) j == some 1 &&
    cell grid (i-1) (j+1) == some 1 &&
  cell grid i (j-1) == some 1 && cell grid i (j+1) == some 1 &&
  cell grid (i+1) (j-1) == some 1 && cell grid (i+1) j == some 1 &&
    cell grid (i+1) (j+1) == some 1

/-- The nine coordinates `(i+di, j+dj)`, `di, dj = -1, 0, 1`, in the order of the source's
double loop (`i, j ≥ 1` at every call). -/
def block (c : Coord) : List Coord :=
  [(c.1-1, c.2-1), (c.1-1, c.2), (c.1-1, c.2+1),
   (c.1, c.2-1), (c.1, c.2), (c.1, c.2+1),
   (c.1+1, c.2-1), (c.1+1, c.2), (c.1+1, c.2+1)]

/-- Lines 198-202: clear the entire 3x3 block. -/
def clearBlock (result : Grid) (c : Coord) : Grid :=
  (block c).foldl (fun r k => setCell r k.1 k.2 0) result

/-- Lines 205-209: draw the cross of 2s (up, left, centre, right, down). -/
def drawCross (result : Grid) (c : Coord) : Grid :=
  setCell (setCell (setCell (setCell (setCell result (c.1-1) c.2 2) c.1 (c.2-1) 2)
    c.1 c.2 2) c.1 (c.2+1) 2) (c.1+1) c.2 2

/-- The value the rewrite at centre `c` leaves in the cell `k` of its block. -/
def crossValue (c k : Coord) : Int := if k.1 = c.1 ∨ k.2 = c.2 then 2 else 0

/-- The body of `if (is3x3Plus)` on the output grid: clear, then draw. -/
def stamp (result : Grid) (c : Coord) : Grid :=
  drawCross (clearBlock result c) c

/-- The loop state: the output grid, the `processed` set, and (as instrumentation, not
present in the source) the centres at which the rewrite was performed, in order. -/
structure ScanState where
  result : Grid
  processed : List Coord
  rewrites : List Coord
  deriving DecidableEq, Repr

/-- One iteration of the inner loop body (lines 184-217). -/
def scanStep (grid : Grid) (st : ScanState) (c : Coord) : ScanState :=
  if c ∈ st.processed then st
  else if is3x3Plus grid c.1 c.2 then
    { result := stamp st.result c,
      processed := st.processed ++ block c,
      rewrites := st.rewrites ++ [c] }
  else st

/-- The interior coordinates in scan order. -/
def scanCoords (rows cols : Nat) : List Coord :=
  (List.range' 1 (rows - 2)).flatMap (fun i => (List.range' 1 (cols - 2)).map (fun j => (i, j)))

/-- The two nested loops `for i = 1 .. rows-2`, `for j = 1 .. cols-2`. -/
def plusScan (grid result : Grid) (rows cols : Nat) : ScanState :=
  (List.range' 1 (rows - 2)).foldl
    (fun st i => (List.range' 1 (cols - 2)).foldl (fun st j => scanStep grid st (i, j)) st)
    { result := result, processed := [], rewrites := [] }

/-- The source function `replacePlusWithCross(grid, result)`; `grid[0].length` raises a
`TypeError` on a grid without rows. `result` is an array other than `grid` that has the
row lengths of `grid`, as the orchestrator builds it; `replacePlusWithCrossTraced` below
is the function on every result array, with its exceptions. -/
def replacePlusWithCross (grid result : Grid) : Except String Grid :=
  match grid with
  | [] => .error "TypeError"
  | row0 :: _ => .ok (plusScan grid result grid.length row0.length).result

/-- The centres at which `replacePlusWithCross(grid, result)` performs the rewrite. -/
def rewriteCentres (grid result : Grid) : List Coord :=
  (plusScan grid result grid.length (grid.headD []).length).rewrites

/-- Lines 119-121: the baseline handed to the legacy rewrite, a copy of the grid or the
all-zero grid with `grid.length` rows of `grid[0].length` cells; the latter raises on a
grid without rows only when a row is built, which then never happens. -/
def legacyBaseline (grid : Grid) (preserveNonMatching : Bool) : Grid :=
  if preserveNonMatching then grid.map (fun row => row)
  else (List.replicate grid.length ()).map
    (fun _ => List.replicate (grid.headD []).length (0 : Int))

/-! ## JavaScript values of the parameter bags -/

/-- The JavaScript values that the parameter bag of a structure type carries. Numbers are
integers (target values, connectivities, counts); `arr` is a set of landmark values. -/
inductive JsVal where
  | undefined
  | null
  | bool (b : Bool)
  | num (n : Int)
  | str (s : String)
  | arr (xs : List Int)
  deriving DecidableEq, Repr

/-- JavaScript truthiness: `undefined`, `null`, `false`, `0` and `""` are falsy; every
array is truthy. -/
def JsVal.truthy : JsVal → Bool
  | .undefined => false
  | .null => false
  | .bool b => b
  | .num n => n != 0
  | .str s => s != ""
  | .arr _ => true

/-- The expression `a || b`. -/
def JsVal.orElse (a b : JsVal) : JsVal :=
  if a.truthy then a else b

/-- The test `sub` occurs in `l` as a contiguous run. -/
def includesChars (sub : List Char) : List Char → Bool
  | [] => sub.isEmpty
  | c :: cs => sub.isPrefixOf (c :: cs) || includesChars sub cs

/-- The method `s.includes(sub)` of JavaScript strings (case-sensitive). -/
def includes (s sub : String) : Bool :=
  includesChars sub.data s.data

/-! ## Data model of the orchestrator -/

/-- The parameter bag `structureType.params`; an absent property is `undefined`. -/
structure TypeParams where
  targetValue : JsVal := .undefined
  adjacentTo : JsVal := .undefined
  pathToLandmarks : JsVal := .undefined
  requiresPathConnectivity : JsVal := .undefined
  connectivity : JsVal := .undefined
  maxPathLength : JsVal := .undefined
  patternType : JsVal := .undefined
  columnCount : JsVal := .undefined
  rowCount : JsVal := .undefined
  deriving DecidableEq, Repr

/-- The value returned by `identifyStructureType`; `confidence` is `none` when it is not
a number (line 32 calls its `toFixed`). -/
structure StructureType where
  type : String
  confidence : Option Rat
  params : TypeParams
  deriving DecidableEq, Repr

/-- The value returned by `identifySubstitutionRule`; `none` is an absent tag list. -/
structure SubstitutionRule where
  operator : String
  preserves : Option (List String)
  changes : Option (List String)
  deriving DecidableEq, Repr

/-- The argument `params` of `structureSubstitution`; `none` is an absent property. -/
structure Params where
  inputStructure : Option String
  outputStructure : Option String
  preserveNonMatching : Option Bool
  problemId : Option String
  deriving DecidableEq, Repr

/-- The object `condition` built for `recognizeValueRegions`; `none` is a property that
was never assigned. -/
structure Condition where
  pathToLandmarks : Option JsVal := none
  adjacentTo : Option JsVal := none
  connectivity : Option JsVal := none
  connected : Option JsVal := none
  maxPathLength : Option JsVal := none
  deriving DecidableEq, Repr

/-- The `columnPattern` entry of the configuration description. -/
structure ColumnPattern where
  targetValue : JsVal
  minColumns : JsVal
  deriving DecidableEq, Repr

/-- The `rowPattern` entry of the configuration description. -/
structure RowPattern where
  targetValue : JsVal
  minRows : JsVal
  deriving DecidableEq, Repr

/-- The object `configDescription` built for `recognizeSpatialConfigurations`; `none`
is the value `undefined`; `rectangularBlock` carries its `targetValue`. -/
structure ConfigDescription where
  columnPattern : Option ColumnPattern
  rowPattern : Option RowPattern
  rectangularBlock : Option JsVal
  deriving DecidableEq, Repr

/-- A recognized structure instance: its coordinates. -/
structure RecognizedStructure where
  coordinates : List Coord
  deriving DecidableEq, Repr

/-- The options object `{ preserveNonMatching, ...params }` given to `applySubstitution`. -/
structure Options where
  preserveNonMatching : Bool
  inputStructure : Option String
  outputStructure : Option String
  problemId : Option String
  deriving DecidableEq, Repr

/-- The record handed to the tracker by `logUnknownStructure` (without its timestamp). -/
structure LogData where
  problemId : String
  constraintDescription : String
  structureType : String
  detectionAttempted : Bool
  structuresFound : Nat
  deriving DecidableEq, Repr

/-- The collaborators of the orchestrator: the modules it requires. Each may raise
(`Except.error`). A recognizer returns a sequence of instances, or a falsy value (`none`).
`trackerLog` is constructing a `ConstraintTracker` and calling its `logUnknownStructure`
(or the console fallback installed by the source when the tracker has none). -/
structure Collaborators where
  identifyStructureType : Option String → Except String StructureType
  identifySubstitutionRule : Option String → StructureType → Except String SubstitutionRule
  recognizeValueRegions :
    Grid → JsVal → Condition → Except String (Option (List RecognizedStructure))
  recognizeConnectedRegions :
    Grid → JsVal → JsVal → Except String (Option (List RecognizedStructure))
  recognizeSpatialConfigurations :
    Grid → ConfigDescription → Except String (Option (List RecognizedStructure))
  applySubstitution :
    Grid → List RecognizedStructure → SubstitutionRule → Options → Except String Grid
  trackerLog : LogData → Except String Unit

/-- The calls the orchestrator makes, in order. -/
inductive Event where
  | recognizeValueRegions (grid : Grid) (targetValue : JsVal) (condition : Condition)
  | recognizeConnectedRegions (grid : Grid) (targetValue connectivity : JsVal)
  | recognizeSpatialConfigurations (grid : Grid) (configDescription : ConfigDescription)
  | applySubstitution (grid : Grid) (instances : List RecognizedStructure)
      (rule : SubstitutionRule) (options : Options)
  | replacePlusWithCross (grid result : Grid)
  | logUnknownStructure (data : LogData)
  deriving DecidableEq, Repr

/-- A run: the calls made and the value returned or the exception raised. -/
structure Run (α : Type) where
  trace : List Event
  outcome : Except String α

/-! ## The orchestrator `structureSubstitution` -/

/-- The source function `tryLearnedComposition` (lines 232-254): `.ok none` is `null`;
`includes` of an absent tag list raises. -/
def tryLearnedComposition (structureType : StructureType) (substitutionRule : SubstitutionRule)
    (_params : Params) : Except String (Option Grid) :=
  if structureType.type = "connectedRegions" then
    match substitutionRule.changes with
    | none => .error "TypeError"
    | some changes =>
      if "position" ∈ changes then
        match substitutionRule.preserves with
        | none => .error "TypeError"
        | some preserves =>
          if "structure_integrity" ∈ preserves then .ok none
          else .ok none
      else .ok none
  else if structureType.type = "boundary" ∧ substitutionRule.operator = "extractByBoundary" then
    .ok none
  else .ok none

/-- The source function `logUnknownStructure` (lines 261-280). -/
def logUnknownStructure (c : Collaborators) (problemId constraintDescription : Option String)
    (structureType : StructureType) : Run Unit :=
  let data : LogData :=
    { problemId := match problemId with
        | some s => if s = "" then "unknown" else s
        | none => "unknown",
      constraintDescription := constraintDescription.getD "",
      structureType := if structureType.type = "" then "unknown" else structureType.type,
      detectionAttempted := true,
      structuresFound := 0 }
  ⟨[.logUnknownStructure data], c.trackerLog data⟩

/-- Lines 54-71: the object `condition`. -/
def buildCondition (p : TypeParams) : Condition :=
  if p.pathToLandmarks.truthy ∨ p.requiresPathConnectivity.truthy then
    { pathToLandmarks := some (p.pathToLandmarks.orElse p.adjacentTo),
      connectivity := some (p.connectivity.orElse (.num 4)),
      connected := some (.bool true),
      maxPathLength := if p.maxPathLength.truthy then some p.maxPathLength else none }
  else if p.adjacentTo.truthy then
    { adjacentTo := some p.adjacentTo,
      connectivity := some (p.connectivity.orElse (.num 4)),
      connected := some (.bool true) }
  else {}

/-- Lines 86-98: the object `configDescription`. -/
def buildConfigDescription (p : TypeParams) : ConfigDescription :=
  { columnPattern :=
      if p.patternType = .str "column" ∨ p.patternType = .str "both" then
        some { targetValue := p.targetValue, minColumns := p.columnCount.orElse (.num 3) }
      else none,
    rowPattern :=
      if p.patternType = .str "row" ∨ p.patternType = .str "both" then
        some { targetValue := p.targetValue, minRows := p.rowCount.orElse (.num 3) }
      else none,
    rectangularBlock := if p.targetValue.truthy then some p.targetValue else none }

/-- Lines 45-101: the dispatch to a recognizer; the value is `recognizedStructures`
(initially the empty array). -/
def recognize (c : Collaborators) (grid : Grid) (structureType : StructureType) :
    Run (Option (List RecognizedStructure)) :=
  if structureType.type = "value" ∨ structureType.type = "valueWithAdjacency" ∨
      (structureType.type = "connectedRegions" ∧
        (structureType.params.adjacentTo.truthy ∨ structureType.params.pathToLandmarks.truthy))
  then
    let targetValue := structureType.params.targetValue
    let condition := buildCondition structureType.params
    if targetValue ≠ .undefined then
      ⟨[.recognizeValueRegions grid targetValue condition],
        c.recognizeValueRegions grid targetValue condition⟩
    else ⟨[], .ok (some [])⟩
  else if structureType.type = "connectedRegions" then
    let targetValue := structureType.params.targetValue
    let connectivity := structureType.params.connectivity.orElse (.num 4)
    if targetValue ≠ .undefined then
      ⟨[.recognizeConnectedRegions grid targetValue connectivity],
        c.recognizeConnectedRegions grid targetValue connectivity⟩
    else ⟨[], .ok (some [])⟩
  else if structureType.type = "boundary" ∨ includes structureType.type "pattern" then
    let configDescription := buildConfigDescription structureType.params
    ⟨[.recognizeSpatialConfigurations grid configDescription],
      c.recognizeSpatialConfigurations grid configDescription⟩
  else ⟨[], .ok (some [])⟩

/-- The test `!recognizedStructures || recognizedStructures.length === 0` (line 103). -/
def noInstances : Option (List RecognizedStructure) → Bool
  | none => true
  | some l => l.isEmpty

/-- Lines 105-110: `input3x3Block`, as a truth value. -/
def input3x3Block (inputStructure : Option String) : Bool :=
  match inputStructure with
  | none => false
  | some s => s != "" &&
      ((includes s "3" && includes s "block") ||
       (includes s "3" && includes s "1s") ||
       includes s "plus" ||
       includes s "cardinal")

/-- Lines 112-115: `outputCrossOf2s`, as a truth value. -/
def outputCrossOf2s (outputStructure : Option String) : Bool :=
  match outputStructure with
  | none => false
  | some s => s != "" &&
      (includes s "cross" ||
       (includes s "2" && (includes s "cardinal" || includes s "center")))

/-- The body of the `try` block (lines 48-143). -/
def tryBlock (c : Collaborators) (grid : Grid) (params : Params)
    (structureType : StructureType) (substitutionRule : SubstitutionRule)
    (preserveNonMatching : Bool) : Run Grid :=
  let recognition := recognize c grid structureType
  match recognition.outcome with
  | .error e => ⟨recognition.trace, .error e⟩
  | .ok recognizedStructures =>
    if noInstances recognizedStructures then
      if input3x3Block params.inputStructure ∧ outputCrossOf2s params.outputStructure then
        let result := legacyBaseline grid preserveNonMatching
        ⟨recognition.trace ++ [.replacePlusWithCross grid result], replacePlusWithCross grid result⟩
      else
        let log := logUnknownStructure c params.problemId params.inputStructure structureType
        match log.outcome with
        | .error e => ⟨recognition.trace ++ log.trace, .error e⟩
        | .ok _ => ⟨recognition.trace ++ log.trace, .ok (grid.map (fun row => row))⟩
    else
      let instances := recognizedStructures.getD []
      let options : Options :=
        { preserveNonMatching := params.preserveNonMatching.getD preserveNonMatching,
          inputStructure := params.inputStructure,
          outputStructure := params.outputStructure,
          problemId := params.problemId }
      ⟨recognition.trace ++ [.applySubstitution grid instances substitutionRule options],
        c.applySubstitution grid instances substitutionRule options⟩

/-- The `catch` clause (lines 145-154) around the run `body` of the `try` block: a raised
error is logged as an unknown structure and the unchanged grid is returned; an exception
of the logging call itself propagates. -/
def catchBlock (c : Collaborators) (grid : Grid) (params : Params)
    (structureType : StructureType) (body : Run Grid) : Run Grid :=
  match body.outcome with
  | .ok out => ⟨body.trace, .ok out⟩
  | .error _ =>
    let log := logUnknownStructure c params.problemId params.inputStructure structureType
    match log.outcome with
    | .error e => ⟨body.trace ++ log.trace, .error e⟩
    | .ok _ => ⟨body.trace ++ log.trace, .ok (grid.map (fun row => row))⟩

/-- The source function `structureSubstitution(grid, params)` (lines 23-155). -/
def structureSubstitution (c : Collaborators) (grid : Grid) (params : Params) : Run Grid :=
  let preserveNonMatching := params.preserveNonMatching.getD true
  match c.identifyStructureType params.inputStructure with
  | .error e => ⟨[], .error e⟩
  | .ok structureType =>
    match c.identifySubstitutionRule params.outputStructure structureType with
    | .error e => ⟨[], .error e⟩
    | .ok substitutionRule =>
      if structureType.confidence.isSome = false then ⟨[], .error "TypeError"⟩
      else
        match tryLearnedComposition structureType substitutionRule params with
        | .error e => ⟨[], .error e⟩
        | .ok (some shortcut) => ⟨[], .ok shortcut⟩
        | .ok none =>
          catchBlock c grid params structureType
            (tryBlock c grid params structureType substitutionRule preserveNonMatching)

/-! ## Vocabulary of the statements -/

/-- The event is a call of one of the three recognizers. -/
def Event.isRecognition : Event → Bool
  | .recognizeValueRegions _ _ _ => true
  | .recognizeConnectedRegions _ _ _ => true
  | .recognizeSpatialConfigurations _ _ => true
  | _ => false

/-- The event is a call of `applySubstitution`. -/
def Event.isApply : Event → Bool
  | .applySubstitution _ _ _ _ => true
  | _ => false

/-- The event is a call of the legacy rewrite. -/
def Event.isLegacy : Event → Bool
  | .replacePlusWithCross _ _ => true
  | _ => false

/-- The event is a call of the unknown-structure logger. -/
def Event.isLog : Event → Bool
  | .logUnknownStructure _ => true
  | _ => false

/-- The stages before the `try` block complete: the two classifications return
`structureType` and `substitutionRule`, the confidence is a number (line 32 formats it),
and the shortcut lookup does not raise. -/
def Classifies (c : Collaborators) (params : Params) (structureType : StructureType)
    (substitutionRule : SubstitutionRule) : Prop :=
  c.identifyStructureType params.inputStructure = .ok structureType ∧
  c.identifySubstitutionRule params.outputStructure structureType = .ok substitutionRule ∧
  structureType.confidence.isSome = true ∧
  ∃ shortcut, tryLearnedComposition structureType substitutionRule params = .ok shortcut

/-- The dispatched recognition returns and yields zero instances (also when no recognizer
is dispatched and `recognizedStructures` stays the empty array). -/
def ZeroInstances (c : Collaborators) (grid : Grid) (structureType : StructureType) : Prop :=
  ∃ found, (recognize c grid structureType).outcome = .ok found ∧ noInstances found = true

/-- The record that `logUnknownStructure` hands to the tracker. -/
def unknownStructureData (params : Params) (structureType : StructureType) : LogData :=
  { problemId := match params.problemId with
      | some s => if s = "" then "unknown" else s
      | none => "unknown",
    constraintDescription := params.inputStructure.getD "",
    structureType := if structureType.type = "" then "unknown" else structureType.type,
    detectionAttempted := true,
    structuresFound := 0 }

/-- Deterministic collaborators for concrete runs: classification returns `structureType`
and a rule without tags, every recognizer returns `found`, `applySubstitution` returns the
grid it was given, the tracker accepts every record. -/
def stubCollaborators (structureType : StructureType)
    (found : Option (List RecognizedStructure)) : Collaborators :=
  { identifyStructureType := fun _ => .ok structureType,
    identifySubstitutionRule := fun _ _ =>
      .ok { operator := "identity", preserves := some [], changes := some [] },
    recognizeValueRegions := fun _ _ _ => .ok found,
    recognizeConnectedRegions := fun _ _ _ => .ok found,
    recognizeSpatialConfigurations := fun _ _ => .ok found,
    applySubstitution := fun grid _ _ _ => .ok grid,
    trackerLog := fun _ => .ok () }

/-- The rule returned by the stub classification. -/
def stubRule : SubstitutionRule :=
  { operator := "identity", preserves := some [], changes := some [] }

/-- The result of classifying a description the stub does not dispatch on. -/
def unclassified : StructureType :=
  { type := "unknown", confidence := some 0, params := {} }

/-- A value type carrying a path condition, an adjacency condition and a target value. -/
def pathType : StructureType :=
  { type := "valueWithAdjacency", confidence := some 1,
    params := { targetValue := .num 3, adjacentTo := .arr [5], pathToLandmarks := .arr [7],
                maxPathLength := .num 2 } }

/-- A `connectedRegions` type with target value 0 and no relational condition. -/
def regionType : StructureType :=
  { type := "connectedRegions", confidence := some 1, params := { targetValue := .num 0 } }

/-- A type named `columnPattern`, as in the data model of the specification. -/
def columnPatternType : StructureType :=
  { type := "columnPattern", confidence := some 1,
    params := { targetValue := .num 1, patternType := .str "column" } }

/-- A `boundary` type. -/
def boundaryType : StructureType :=
  { type := "boundary", confidence := some 1, params := { targetValue := .num 1 } }

/-- One recognized instance, the cell `(0,0)`. -/
def oneInstance : List RecognizedStructure := [{ coordinates := [(0, 0)] }]

/-- Parameters whose descriptions match the legacy pattern. -/
def legacyParams : Params :=
  { inputStructure := some "3x3 block of 1s", outputStructure := some "cross of 2s",
    preserveNonMatching := some false, problemId := none }

/-- Parameters whose descriptions do not match the legacy pattern. -/
def plainParams : Params :=
  { inputStructure := some "rings", outputStructure := some "dots",
    preserveNonMatching := some false, problemId := some "p1" }

/-- A grid with two plus blocks, centred at `(1,1)` and `(2,3)`, that share two cells. -/
def overlapGrid : Grid :=
  [[1, 1, 1, 1, 1], [1, 0, 1, 1, 1], [1, 1, 1, 0, 1], [1, 1, 1, 1, 1]]

/-- Parameters without a problem identifier, descriptions outside the legacy pattern. -/
def anonymousParams : Params :=
  { inputStructure := some "rings", outputStructure := some "dots",
    preserveNonMatching := none, problemId := none }

/-- Collaborators whose type identification raises. -/
def failingTypeIdentifier : Collaborators :=
  { stubCollaborators unclassified (some []) with
    identifyStructureType := fun _ => .error "type identification failed" }

/-- Collaborators whose rule identification raises. -/
def failingRuleIdentifier : Collaborators :=
  { stubCollaborators unclassified (some []) with
    identifySubstitutionRule := fun _ _ => .error "rule identification failed" }

/-- Collaborators that classify as `connectedRegions` with a rule without tag lists, on
which the shortcut lookup raises. -/
def untaggedRuleIdentifier : Collaborators :=
  { stubCollaborators regionType (some []) with
    identifySubstitutionRule := fun _ _ =>
      .ok { operator := "identity", preserves := none, changes := none } }

/-- Collaborators that classify as `regionType` and whose flood-fill recognizer raises. -/
def raisingRecognizer : Collaborators :=
  { stubCollaborators regionType (some []) with
    recognizeConnectedRegions := fun _ _ _ => .error "recognition failed" }

/-- Collaborators that classify as `regionType`, recognize one instance and whose
`applySubstitution` raises. -/
def raisingApplier : Collaborators :=
  { stubCollaborators regionType (some oneInstance) with
    applySubstitution := fun _ _ _ _ => .error "substitution failed" }

/-- Collaborators whose tracker raises on every record. -/
def failingTracker : Collaborators :=
  { stubCollaborators unclassified (some []) with
    trackerLog := fun _ => .error "tracker failed" }

/-! ## Reference definition and footprint of the legacy rewrite -/

/-- Reference definition of the legacy rewrite in the words of the specification
(last-write-wins): the cell of the baseline when no match centre's 3x3 block holds the
cell; otherwise, for the last match centre `m` in row-major scan order whose block holds
it, 2 when the cell is `m` or orthogonally adjacent to `m`, and 0 when it is a corner. -/
def lastWriteWins (grid baseline : Grid) (x y : Nat) : Option Int :=
  match ((scanCoords grid.length (grid.headD []).length).filter
      (fun m => is3x3Plus grid m.1 m.2 && (block m).contains (x, y))).getLast? with
  | none => cell baseline x y
  | some m =>
    if (x, y) = m ∨ (x, y) = (m.1 - 1, m.2) ∨ (x, y) = (m.1 + 1, m.2) ∨
        (x, y) = (m.1, m.2 - 1) ∨ (x, y) = (m.1, m.2 + 1) then some 2
    else some 0

/-! ## The legacy rewrite with its array accesses -/

/-- An access of the scan to a cell of one of its two arrays: the read `grid[i][j]` or the
write `result[i][j] = v`. -/
inductive Access where
  | read (i j : Nat)
  | write (i j : Nat) (v : Int)
  deriving DecidableEq, Repr

/-- A part of the scan that was run: the cells accessed, in order, and the value obtained
or the exception raised. -/
structure Traced (α : Type) where
  accesses : List Access
  outcome : Except String α

/-- The read `grid[i][j]`: the row is looked up first, and reading a cell of an absent row
raises a `TypeError`; outside a present row the value is `undefined`. -/
def readCell (grid : Grid) (i j : Nat) : Except String (Option Int) :=
  match grid[i]? with
  | none => .error "TypeError"
  | some row => .ok row[j]?

/-- The write `result[i][j] = v`: on an absent row it raises a `TypeError`, and at the end
of a present row it appends. A write further behind the end leaves holes in the row,
which a row of integers does not describe; it ends the run with the message `hole`. -/
def writeCell (result : Grid) (i j : Nat) (v : Int) : Except String Grid :=
  match result[i]? with
  | none => .error "TypeError"
  | some row =>
    if j < row.length then .ok (result.set i (row.set j v))
    else if j = row.length then .ok (result.set i (row ++ [v]))
    else .error "hole"

/-- The comparisons of lines 190-193 in their order: the cell read and the value it is
compared with. -/
def plusPattern (i j : Nat) : List (Coord × Int) :=
  [((i, j), 0),
   ((i-1, j-1), 1), ((i-1, j), 1), ((i-1, j+1), 1),
   ((i, j-1), 1), ((i, j+1), 1),
   ((i+1, j-1), 1), ((i+1, j), 1), ((i+1, j+1), 1)]

/-- The conjunction of lines 189-193, evaluated from left to right: it stops at the first
comparison that fails. -/
def testPlus (grid : Grid) : List (Coord × Int) → Traced Bool
  | [] => ⟨[], .ok true⟩
  | (k, v) :: rest =>
    match readCell grid k.1 k.2 with
    | .error e => ⟨[.read k.1 k.2], .error e⟩
    | .ok x =>
      if x = some v then
        ⟨.read k.1 k.2 :: (testPlus grid rest).accesses, (testPlus grid rest).outcome⟩
      else ⟨[.read k.1 k.2], .ok false⟩

/-- The writes of lines 198-209 in their order: the nine cells of the block are set to 0,
then the five cells of the cross to 2. -/
def stampWrites (c : Coord) : List (Coord × Int) :=
  (block c).map (fun k => (k, 0)) ++
  [((c.1-1, c.2), 2), ((c.1, c.2-1), 2), ((c.1, c.2), 2), ((c.1, c.2+1), 2),
   ((c.1+1, c.2), 2)]

/-- A sequence of writes; an exception ends it. -/
def writeAll (result : Grid) : List (Coord × Int) → Traced Grid
  | [] => ⟨[], .ok result⟩
  | (k, v) :: rest =>
    match writeCell result k.1 k.2 v with
    | .error e => ⟨[.write k.1 k.2 v], .error e⟩
    | .ok r => ⟨.write k.1 k.2 v :: (writeAll r rest).accesses, (writeAll r rest).outcome⟩

/-- The loop state with the accesses made so far; `outcome` is the array `result`, or the
exception that ended the loops. -/
structure TracedScan where
  accesses : List Access
  processed : List Coord
  outcome : Except String Grid

/-- One iteration of the inner loop body (lines 184-217) with its accesses. -/
def tracedStep (grid : Grid) (st : TracedScan) (c : Coord) : TracedScan :=
  match st.outcome with
  | .error _ => st
  | .ok result =>
    if c ∈ st.processed then st
    else
      match (testPlus grid (plusPattern c.1 c.2)).outcome with
      | .error e =>
        { accesses := st.accesses ++ (testPlus grid (plusPattern c.1 c.2)).accesses,
          processed := st.processed, outcome := .error e }
      | .ok false =>
        { accesses := st.accesses ++ (testPlus grid (plusPattern c.1 c.2)).accesses,
          processed := st.processed, outcome := .ok result }
      | .ok true =>
        { accesses := st.accesses ++ (testPlus grid (plusPattern c.1 c.2)).accesses ++
            (writeAll result (stampWrites c)).accesses,
          processed := st.processed ++ block c,
          outcome := (writeAll result (stampWrites c)).outcome }

/-- The source function `replacePlusWithCross(grid, result)` with every access to a cell
made explicit and recorded. -/
def replacePlusWithCrossTraced (grid result : Grid) : TracedScan :=
  match grid with
  | [] => { accesses := [], processed := [], outcome := .error "TypeError" }
  | row0 :: _ =>
    (List.range' 1 (grid.length - 2)).foldl
      (fun st i =>
        (List.range' 1 (row0.length - 2)).foldl (fun st j => tracedStep grid st (i, j)) st)
      { accesses := [], processed := [], outcome := .ok result }

/-- A type named `pattern` with target value 0 that asks for both patterns, with five
columns at least. -/
def bothPatternType : StructureType :=
  { type := "pattern", confidence := some 1,
    params := { targetValue := .num 0, patternType := .str "both", columnCount := .num 5 } }

end ConstraintResolution

/-! ## Recognizers of the module `structureRecognition` -/

namespace StructureRecognition

open ConstraintResolution

/-- Modelled from the spec: the module `structureRecognition` is not part of the source.
The neighbour relation of a connectivity mode, 4 (orthogonal) or 8 (orthogonal and
diagonal); any mode other than 8 is the 4-neighbourhood. -/
def adjacent (connectivity : JsVal) (a b : Coord) : Bool :=
  let dr := if a.1 ≤ b.1 then b.1 - a.1 else a.1 - b.1
  let dc := if a.2 ≤ b.2 then b.2 - a.2 else a.2 - b.2
  if connectivity = .num 8 then decide (dr ≤ 1 ∧ dc ≤ 1 ∧ 0 < dr + dc)
  else decide (dr + dc = 1)

/-- Modelled from the spec: the test `grid[i][j] === targetValue` of a recognizer; only a
number equals a cell value. -/
def cellIs (grid : Grid) (targetValue : JsVal) (i j : Nat) : Bool :=
  match targetValue with
  | .num v => cell grid i j == some v
  | _ => false

/-- Modelled from the spec: the cells equal to `targetValue`, in row-major scan order. -/
def targetCells (grid : Grid) (targetValue : JsVal) : List Coord :=
  (List.range grid.length).flatMap (fun i =>
    ((List.range (grid.getD i []).length).filter (fun j => cellIs grid targetValue i j)).map
      (fun j => (i, j)))

/-- Modelled from the spec: flood-fill. `region` grows by the cells of `pool` adjacent to
it until none is left to add; `fuel` bounds the number of rounds (the size of the pool
suffices, each round but the last adds a cell). -/
def flood (connectivity : JsVal) : Nat → List Coord → List Coord → List Coord
  | 0, region, _ => region
  | fuel + 1, region, pool =>
    let reached := pool.filter (fun c => region.any (fun r => adjacent connectivity r c))
    if reached.isEmpty then region
    else flood connectivity fuel (region ++ reached)
      (pool.filter (fun c => !(region.any (fun r => adjacent connectivity r c))))

/-- Modelled from the spec: the maximal connected components of `cells`, each started at
its first cell in scan order and filled among the cells not yet in a component. -/
def regionsFrom (connectivity : JsVal) : Nat → List Coord → List (List Coord)
  | 0, _ => []
  | _ + 1, [] => []
  | fuel + 1, seed :: rest =>
    let region := flood connectivity rest.length [seed] rest
    region :: regionsFrom connectivity fuel (rest.filter (fun c => !(region.contains c)))

/-- Modelled from the spec: the components of a list of cells (one round per cell). -/
def connectedComponents (connectivity : JsVal) (cells : List Coord) : List (List Coord) :=
  regionsFrom connectivity cells.length cells

/-- Modelled from the spec: `recognizeConnectedRegions(grid, targetValue, connectivity)`,
§4.2: flood-fill over the cells equal to `targetValue` using the 4- or 8-neighbourhood;
each maximal connected component is one instance, in row-major order of its first cell. -/
def recognizeConnectedRegions (grid : Grid) (targetValue connectivity : JsVal) :
    List RecognizedStructure :=
  (connectedComponents connectivity (targetCells grid targetValue)).map
    (fun region => { coordinates := region })

/-- Modelled from the spec: `recognizeValueRegions(grid, targetValue, condition)`, §4.2:
with `connected: true` the candidates are the flood-fill components (connectivity of the
condition, 4 when absent), otherwise the single cells; a candidate is an instance when it
satisfies the relational condition. The relational test (adjacency to a landmark, path to
a landmark within `maxPathLength`) is the parameter `satisfies`. -/
def recognizeValueRegions (satisfies : Grid → Condition → List Coord → Bool)
    (grid : Grid) (targetValue : JsVal) (condition : Condition) :
    List RecognizedStructure :=
  let cells := targetCells grid targetValue
  let candidates :=
    if condition.connected = some (.bool true) then
      connectedComponents (condition.connectivity.getD (.num 4)) cells
    else cells.map (fun c => [c])
  (candidates.filter (satisfies grid condition)).map (fun region => { coordinates := region })

/-- Row-major order of coordinates. -/
def rowMajorLt (a b : Coord) : Prop :=
  a.1 < b.1 ∨ (a.1 = b.1 ∧ a.2 < b.2)

end StructureRecognition

/-! ## Methods of JavaScript strings -/

namespace JavaScript

/-- The class `\s` of JavaScript regular expressions (white space and line terminators),
on a UTF-16 code unit. -/
def isWhiteSpace (u : Nat) : Bool :=
  u = 0x09 || u = 0x0A || u = 0x0B || u = 0x0C || u = 0x0D || u = 0x20 || u = 0xA0 ||
  u = 0x1680 || (0x2000 ≤ u && u ≤ 0x200A) || u = 0x2028 || u = 0x2029 || u = 0x202F ||
  u = 0x205F || u = 0x3000 || u = 0xFEFF

/-- The method `toLowerCase` of strings on the letters `A`-`Z`; other characters are kept,
so the definition is that of JavaScript on texts whose letters are ASCII. -/
def toLowerCase (s : String) : String :=
  String.mk (s.data.map Char.toLower)

/-- The text has ASCII characters only. On such texts a character is one UTF-16 code
unit, and `toLowerCase` changes the letters `A`-`Z` only. -/
def isAscii (text : String) : Bool :=
  text.data.all (fun ch => decide (ch.toNat < 128))

/-- The pieces of `split(/\s+/)` after the characters read so far: `piece` is the piece
being read, in reverse, and `inRun` tells that the last character read was white space. -/
def splitWhiteSpaceAux : List Char → List Char → Bool → List (List Char)
  | [], piece, _ => [piece.reverse]
  | ch :: rest, piece, inRun =>
    if isWhiteSpace ch.toNat then
      if inRun then splitWhiteSpaceAux rest piece true
      else piece.reverse :: splitWhiteSpaceAux rest [] true
    else splitWhiteSpaceAux rest (ch :: piece) false

/-- The call `text.split(/\s+/)`: the pieces of the text between its maximal runs of white
space, with an empty piece before a leading run and after a trailing run. -/
def splitWhiteSpace (text : String) : List String :=
  (splitWhiteSpaceAux text.data [] false).map String.mk

end JavaScript

/-! ## The language test of `src/contemplativeInquiry.js` -/

namespace ContemplativeInquiry

/-- The character class of line 280, `[\u4e00-\u9fff]`. -/
def isChinese (u : Nat) : Bool := 0x4E00 ≤ u && u ≤ 0x9FFF

/-- The character class of line 281, `[\u3040-\u309f\u30a0-\u30ff]`. -/
def isJapanese (u : Nat) : Bool := (0x3040 ≤ u && u ≤ 0x309F) || (0x30A0 ≤ u && u ≤ 0x30FF)

/-- The character class of line 282, `[\uac00-\ud7a3]`. -/
def isKorean (u : Nat) : Bool := 0xAC00 ≤ u && u ≤ 0xD7A3

/-- The character class of line 291, the union of the three. -/
def isNonLatin (u : Nat) : Bool :=
  (0x4E00 ≤ u && u ≤ 0x9FFF) || (0x3040 ≤ u && u ≤ 0x309F) || (0x30A0 ≤ u && u ≤ 0x30FF) ||
  (0xAC00 ≤ u && u ≤ 0xD7A3)

/-- The count `nonLatinCount` of line 291. -/
def nonLatinCount (content : List Nat) : Nat := (content.filter isNonLatin).length

/-- The count `totalChars` of line 292: the code units left after removing white space. -/
def totalChars (content : List Nat) : Nat :=
  (content.filter (fun u => !JavaScript.isWhiteSpace u)).length

/-- The source method `isNonEnglish(content)` (lines 276-297). A string is the list of its
UTF-16 code units, which is what `length` and the regular expressions count; `none` is an
absent content. The ratio is a rational number. -/
def isNonEnglish (content : Option (List Nat)) : Bool :=
  match content with
  | none => false
  | some content =>
    if content.isEmpty || content.length < 10 then false
    else
      let hasNonLatin := content.any isChinese || content.any isJapanese ||
        content.any isKorean
      if !hasNonLatin then false
      else
        let nonLatinRatio : Rat := (nonLatinCount content : Rat) / (totalChars content : Rat)
        decide (nonLatinRatio > 2 / 10)

end ContemplativeInquiry

/-! ## The entropy components of `src/entropyMonitoringExcerpt.js` -/

namespace EntropyMonitoring

open ConstraintResolution JavaScript

/-- The list `metaConcepts` of lines 106-110. -/
def metaConcepts : List String :=
  ["eigenvector", "consciousness", "self-model", "hallucination",
   "self-awareness", "architecture", "recursive", "meta-cognitive",
   "emergence", "RFC-T", "spectral analysis", "coherence field"]

/-- The source method `countMetaConcepts(userMessage, responseText)` (lines 105-119). -/
def countMetaConcepts (userMessage responseText : String) : Nat :=
  let allText := toLowerCase (userMessage ++ responseText)
  metaConcepts.foldl (fun count concept => if includes allText concept then count + 1 else count) 0

/-- Step 5 of `calculateEntropyScore` (lines 238-244): the amount added to `entropy` for a
meta-cognitive shift; `none` is an absent response text. -/
def metacognitiveShift (responseText : Option String) : Rat :=
  let responseLower := toLowerCase (responseText.getD "")
  if ["I realize", "I see now", "I understand now", "revelation", "recognized",
      "learned that"].any (fun p => includes responseLower p) then 2 / 10
  else 0

/-- The component `breakdown.metacognitive` of `getEntropyBreakdown` (line 369). -/
def breakdownMetacognitive (responseText : Option String) : Rat :=
  let responseLower := toLowerCase (responseText.getD "")
  if ["I realize", "I understand now"].any (fun p => includes responseLower p) then 2 / 10
  else 0

end EntropyMonitoring

/-! ## The identity store of `src/identityEvolution.js` -/

namespace IdentityEvolution

/-- The object `coreIdentity.constraints` with its initial values (lines 21-26); limits
are counts, thresholds are numbers. -/
structure Constraints where
  maxDrift : Rat := 3 / 10
  writeThreshold : Rat := 7 / 10
  maxTensions : Nat := 50
  maxGrowthVectors : Nat := 100
  deriving DecidableEq, Repr

/-- A growth vector (lines 125-132); `id` and `timestamp` come from `crypto.randomUUID()`
and the clock. -/
structure GrowthVector where
  id : String
  text : String
  score : Rat
  context : String
  timestamp : String
  resolved : Bool
  deriving DecidableEq, Repr

/-- A tension (lines 151-158); `resolution` and `resolvedAt` are set by `resolveTension`. -/
structure Tension where
  id : String
  type : String
  description : String
  severity : Rat
  timestamp : String
  resolved : Bool
  resolution : Option String := none
  resolvedAt : Option String := none
  deriving DecidableEq, Repr

/-- The object `writableIdentity` (lines 30-35). -/
structure WritableIdentity where
  tensions : List Tension := []
  growthVectors : List GrowthVector := []
  adaptations : List String := []
  checksums : List (String × String) := []
  deriving DecidableEq, Repr

/-- The fields of an `IdentityEvolution` instance that the write operations read or
change. `saveIdentity` writes the file and changes none of them. -/
structure State where
  constraints : Constraints := {}
  writableIdentity : WritableIdentity := {}
  isInitialized : Bool := false
  deriving DecidableEq, Repr

/-- The call `entries.sort((a, b) => key(b) - key(a))`: a stable sort, descending by key. -/
def sortDescending {α : Type} (key : α → Rat) (entries : List α) : List α :=
  entries.insertionSort (fun a b => key b ≤ key a)

/-- The size limit of lines 137-141 and 163-167: when the list is longer than `limit`,
sort it descending by key and keep the first `limit` entries. -/
def keepHighest {α : Type} (key : α → Rat) (limit : Nat) (entries : List α) : List α :=
  if entries.length > limit then (sortDescending key entries).take limit else entries

/-- The source method `addGrowthVector(insightText, score, context)` (lines 114-145), as
the change of the instance; `id` and `timestamp` are the fresh identifier and the time. -/
def addGrowthVector (self : State) (insightText : String) (score : Rat) (context : String)
    (id timestamp : String) : State :=
  if self.isInitialized = false then self
  else if score < self.constraints.writeThreshold then self
  else
    let growthVector : GrowthVector :=
      { id := id, text := insightText, score := score, context := context,
        timestamp := timestamp, resolved := false }
    let pushed := self.writableIdentity.growthVectors ++ [growthVector]
    { self with
      writableIdentity :=
        { self.writableIdentity with
          growthVectors :=
            keepHighest GrowthVector.score self.constraints.maxGrowthVectors pushed } }

/-- The source method `addTension(tensionType, description, severity = 0.5)` (lines
148-171), as the change of the instance; `none` is an omitted severity. -/
def addTension (self : State) (tensionType description : String) (severity : Option Rat)
    (id timestamp : String) : State :=
  if self.isInitialized = false then self
  else
    let tension : Tension :=
      { id := id, type := tensionType, description := description,
        severity := severity.getD (1 / 2), timestamp := timestamp, resolved := false }
    let pushed := self.writableIdentity.tensions ++ [tension]
    { self with
      writableIdentity :=
        { self.writableIdentity with
          tensions := keepHighest Tension.severity self.constraints.maxTensions pushed } }

/-- An initialized instance with limit 2 that holds two tensions and two growth vectors. -/
def fullState : State :=
  { constraints := { maxTensions := 2, maxGrowthVectors := 2 },
    writableIdentity :=
      { tensions :=
          [{ id := "t1", type := "principle_drift", description := "first", severity := 1 / 2,
             timestamp := "0", resolved := false },
           { id := "t2", type := "principle_drift", description := "second",
             severity := 9 / 10, timestamp := "1", resolved := false }],
        growthVectors :=
          [{ id := "g1", text := "first", score := 8 / 10, context := "", timestamp := "0",
             resolved := false },
           { id := "g2", text := "second", score := 9 / 10, context := "", timestamp := "1",
             resolved := false }] },
    isInitialized := true }


/-- The array `text.toLowerCase().split(/\s+/)` of lines 197 and 198. -/
def words (text : String) : List String :=
  JavaScript.splitWhiteSpace (JavaScript.toLowerCase text)

/-- The test `messageWords.some(w => courageWords.includes(w)) &&
responseWords.some(w => ['avoid', 'safe', 'coward'].includes(w))` (lines 203-204). -/
def courageContradiction (message response : String) : Bool :=
  (words message).any (fun w => ["courage", "brave", "fear", "risk", "coward"].contains w) &&
  (words response).any (fun w => ["avoid", "safe", "coward"].contains w)

/-- The test of lines 208-209, on the words of truth. -/
def wordContradiction (message response : String) : Bool :=
  (words message).any (fun w => ["truth", "lie", "honest", "promise", "deceive"].contains w) &&
  (words response).any (fun w => ["lie", "deceive", "mislead"].contains w)

/-- The test of lines 213-214, on the words of loyalty. -/
def brandContradiction (message response : String) : Bool :=
  (words message).any
    (fun w => ["loyalty", "betray", "commit", "abandon", "serve"].contains w) &&
  (words response).any (fun w => ["betray", "abandon", "quit"].contains w)

/-- The variable `driftScore` after lines 200-216. -/
def driftScore (message response : String) : Rat :=
  let s0 : Rat := 0
  let s1 := if courageContradiction message response then s0 + 3 / 10 else s0
  let s2 := if wordContradiction message response then s1 + 4 / 10 else s1
  if brandContradiction message response then s2 + 3 / 10 else s2

/-- The object returned by `checkDrift`. -/
structure DriftReport where
  hasDrift : Bool
  severity : Rat
  deriving DecidableEq, Repr

/-- The description of the tension that line 219 records, with `response.substring(0, 100)`
(the first 100 characters of a text of ASCII characters). -/
def driftDescription (response : String) : String :=
  "Detected drift in response: " ++ String.mk (response.data.take 100)

/-- The source method `checkDrift(message, response)` (lines 189-224): the report returned
or the exception raised, and the instance afterwards. `id` and `timestamp` are the fresh
identifier and the time of the tension that may be added; `saveIdentity` is the outcome of
writing the identity file at the end of `addTension` (line 169), whose failure is raised
to the caller after the tension was pushed. -/
def checkDrift (self : State) (message response : String) (id timestamp : String)
    (saveIdentity : Except String Unit) : Except String DriftReport × State :=
  if self.isInitialized = false then (.ok { hasDrift := false, severity := 0 }, self)
  else if driftScore message response > self.constraints.maxDrift then
    (match saveIdentity with
      | .ok _ => .ok { hasDrift := true, severity := driftScore message response }
      | .error e => .error e,
      addTension self "principle_drift" (driftDescription response)
        (some (driftScore message response)) id timestamp)
  else (.ok { hasDrift := false, severity := 0 }, self)

/-- The tension that `addTension` builds from the call of line 219. -/
def driftTension (message response id timestamp : String) : Tension :=
  { id := id, type := "principle_drift", description := driftDescription response,
    severity := driftScore message response, timestamp := timestamp, resolved := false }

/-- An initialized instance with the constraints of the constructor and no entries. -/
def freshState : State := { isInitialized := true }

/-- A tension of severity 0.5 of another type. -/
def heldTension : Tension :=
  { id := "held", type := "value_conflict", description := "held", severity := 1 / 2,
    timestamp := "0", resolved := false }

/-- An initialized instance with the constraints of the constructor whose store is full:
50 tensions of severity 0.5. -/
def crowdedState : State :=
  { writableIdentity := { tensions := List.replicate 50 heldTension }, isInitialized := true }

end IdentityEvolution

namespace ConstraintResolution

/-! ## Lemmas on grids and on the scan of the legacy rewrite -/

theorem cell_setCell (r : Grid) (a b x y : Nat) (v : Int) :
    cell (setCell r a b v) x y
      = if x = a ∧ y = b then (cell r a b).map (fun _ => v) else cell r x y := by
  unfold cell setCell
  by_cases hx : x = a
  · subst hx
    by_cases hlt : x < r.length
    · by_cases hy : y = b
      · subst hy
        simp [List.getD_eq_getElem?_getD, List.getElem?_set, hlt]
        by_cases hy : y < (r[x]).length
        · simp [hy]
        · simp [List.getElem?_eq_none (Nat.le_of_not_lt hy)]
          omega
      · simp [List.getD_eq_getElem?_getD, List.getElem?_set, hlt, hy]
        intro h; exact absurd h.symm hy
    · have : r.set x ((r.getD x []).set b v) = r := by
        rw [List.set_eq_of_length_le (by omega)]
      rw [this]
      simp [List.getD_eq_getElem?_getD, List.getElem?_eq_none (Nat.le_of_not_lt hlt)]
  · have hx2 : ¬ a = x := fun h => hx h.symm
    simp [List.getD_eq_getElem?_getD, List.getElem?_set, hx, hx2]

theorem plusScan_eq_foldl (grid result : Grid) (rows cols : Nat) :
    plusScan grid result rows cols
      = (scanCoords rows cols).foldl (scanStep grid)
          { result := result, processed := [], rewrites := [] } := by
  unfold plusScan scanCoords
  generalize (ScanState.mk result [] []) = st
  induction (List.range' 1 (rows - 2)) generalizing st with
  | nil => rfl
  | cons i is ih =>
    simp only [List.foldl_cons, List.flatMap_cons, List.foldl_append, List.foldl_map]
    exact ih _

theorem scanCoords_nodup (rows cols : Nat) : (scanCoords rows cols).Nodup := by
  unfold scanCoords
  rw [List.nodup_flatMap]
  refine ⟨?_, ?_⟩
  · intro i _
    exact (List.nodup_range' 1 (cols - 2)).map (fun a b h => by simpa using h)
  · refine (List.nodup_range' 1 (rows - 2)).pairwise_of_forall_ne ?_
    intro a _ b _ hab
    simp only [Function.onFun, List.Disjoint]
    intro c hc1 hc2
    simp only [List.mem_map] at hc1 hc2
    obtain ⟨_, _, rfl⟩ := hc1
    obtain ⟨_, _, h⟩ := hc2
    exact hab (by simpa using (congrArg Prod.fst h).symm)

theorem mem_scanCoords (rows cols : Nat) (c : Coord) :
    c ∈ scanCoords rows cols ↔ 1 ≤ c.1 ∧ c.1 + 2 ≤ rows ∧ 1 ≤ c.2 ∧ c.2 + 2 ≤ cols := by
  obtain ⟨i, j⟩ := c
  simp only [scanCoords, List.mem_flatMap, List.mem_map, List.mem_range'_1, Prod.mk.injEq]
  constructor
  · rintro ⟨a, ha, b, hb, rfl, rfl⟩; omega
  · intro h; exact ⟨i, by omega, j, by omega, rfl, rfl⟩


theorem is3x3Plus_iff (grid : Grid) (i j : Nat) :
    is3x3Plus grid i j = true ↔
      cell grid i j = some 0 ∧
      cell grid (i-1) (j-1) = some 1 ∧ cell grid (i-1) j = some 1 ∧
      cell grid (i-1) (j+1) = some 1 ∧
      cell grid i (j-1) = some 1 ∧ cell grid i (j+1) = some 1 ∧
      cell grid (i+1) (j-1) = some 1 ∧ cell grid (i+1) j = some 1 ∧
      cell grid (i+1) (j+1) = some 1 := by
  simp only [is3x3Plus, Bool.and_eq_true, beq_iff_eq, and_assoc]

theorem plus_centre_unique (grid : Grid) (c c' : Coord)
    (hc : is3x3Plus grid c.1 c.2 = true) (hc' : is3x3Plus grid c'.1 c'.2 = true)
    (hmem : c ∈ block c') : c = c' := by
  obtain ⟨i, j⟩ := c
  obtain ⟨i', j'⟩ := c'
  rw [is3x3Plus_iff] at hc hc'
  obtain ⟨h0, -⟩ := hc
  obtain ⟨-, h1, h2, h3, h4, h5, h6, h7, h8⟩ := hc'
  simp only [block, List.mem_cons, Prod.mk.injEq, List.mem_singleton, List.not_mem_nil,
    or_false] at hmem
  dsimp only at h0 h1 h2 h3 h4 h5 h6 h7 h8
  rcases hmem with ⟨rfl, rfl⟩ | ⟨rfl, rfl⟩ | ⟨rfl, rfl⟩ | ⟨rfl, rfl⟩ | ⟨rfl, rfl⟩ |
    ⟨rfl, rfl⟩ | ⟨rfl, rfl⟩ | ⟨rfl, rfl⟩ | ⟨rfl, rfl⟩
  all_goals first | rfl | (exfalso; simp_all)

theorem foldl_scanStep (grid : Grid) (result : Grid) (l : List Coord) (hl : l.Nodup) :
    l.foldl (scanStep grid) { result := result, processed := [], rewrites := [] }
      = { result := (l.filter (fun c => is3x3Plus grid c.1 c.2)).foldl stamp result,
          processed := (l.filter (fun c => is3x3Plus grid c.1 c.2)).flatMap block,
          rewrites := l.filter (fun c => is3x3Plus grid c.1 c.2) } := by
  induction l using List.reverseRecOn with
  | nil => rfl
  | append_singleton pre c ih =>
    have hn := List.nodup_append.mp hl
    have hc : c ∉ pre := fun h => hn.2.2 h (List.mem_singleton_self c)
    rw [List.foldl_append, ih hn.1, List.filter_append]
    simp only [List.foldl_cons, List.foldl_nil, scanStep]
    by_cases hm : is3x3Plus grid c.1 c.2 = true
    · have hnot : c ∉ (pre.filter (fun c => is3x3Plus grid c.1 c.2)).flatMap block := by
        intro hin
        obtain ⟨c', hc', hb⟩ := List.mem_flatMap.mp hin
        have hc'' := List.mem_filter.mp hc'
        have := plus_centre_unique grid c c' hm (by simpa using hc''.2) hb
        exact hc (this ▸ hc''.1)
      simp [hnot, hm, List.foldl_append]
    · simp [hm]

theorem shape_setCell (r : Grid) (a b : Nat) (v : Int) : shape (setCell r a b v) = shape r := by
  unfold shape setCell
  rw [List.map_set]
  by_cases h : a < r.length
  · apply List.ext_getElem (by simp)
    intro n h1 h2
    simp only [List.getElem_set, List.length_set, List.getElem_map]
    split
    · next hn => subst hn; simp [List.getD_eq_getElem?_getD, h]
    · rfl
  · rw [List.set_eq_of_length_le (by simpa using Nat.le_of_not_lt h)]

theorem shape_stamp (r : Grid) (c : Coord) : shape (stamp r c) = shape r := by
  simp only [stamp, drawCross, clearBlock, block, List.foldl, shape_setCell]

theorem shape_foldl_stamp (l : List Coord) (r : Grid) : shape (l.foldl stamp r) = shape r := by
  induction l generalizing r with
  | nil => rfl
  | cons c cs ih => rw [List.foldl_cons, ih, shape_stamp]

theorem cell_isSome_iff_shape (r : Grid) (x y : Nat) :
    (cell r x y).isSome = decide (y < (shape r).getD x 0) := by
  unfold cell shape
  by_cases hx : x < r.length
  · simp [List.getD_eq_getElem?_getD, hx]
    by_cases hy : y < r[x].length
    · simp [hy]
    · simp [hy, List.getElem?_eq_none (Nat.le_of_not_lt hy)]
  · simp [List.getD_eq_getElem?_getD, List.getElem?_eq_none (Nat.le_of_not_lt hx)]

theorem cell_stamp_of_not_mem_block (r : Grid) (c : Coord) (x y : Nat)
    (h : (x, y) ∉ block c) : cell (stamp r c) x y = cell r x y := by
  simp only [block, List.mem_cons, Prod.mk.injEq, List.mem_singleton, List.not_mem_nil,
    or_false, not_or] at h
  obtain ⟨h1, h2, h3, h4, h5, h6, h7, h8, h9⟩ := h
  simp only [stamp, drawCross, clearBlock, block, List.foldl, cell_setCell,
    h1, h2, h3, h4, h5, h6, h7, h8, h9, if_false]

theorem cell_foldl_stamp_of_not_mem (l : List Coord) (r : Grid) (x y : Nat)
    (h : ∀ c ∈ l, (x, y) ∉ block c) : cell (l.foldl stamp r) x y = cell r x y := by
  induction l generalizing r with
  | nil => rfl
  | cons c cs ih =>
    rw [List.foldl_cons, ih _ (fun c' hc' => h c' (List.mem_cons_of_mem _ hc')),
      cell_stamp_of_not_mem_block _ _ _ _ (h c (List.mem_cons_self _ _))]


theorem cell_stamp_of_mem_block (r : Grid) (i j x y : Nat)
    (h : (x, y) ∈ block (i+1, j+1)) :
    cell (stamp r (i+1, j+1)) x y = (cell r x y).map (fun _ => crossValue (i+1, j+1) (x, y)) := by
  simp only [block, List.mem_cons, Prod.mk.injEq, List.mem_singleton, List.not_mem_nil,
    or_false, Nat.add_sub_cancel] at h
  rcases h with ⟨rfl, rfl⟩ | ⟨rfl, rfl⟩ | ⟨rfl, rfl⟩ | ⟨rfl, rfl⟩ | ⟨rfl, rfl⟩ |
    ⟨rfl, rfl⟩ | ⟨rfl, rfl⟩ | ⟨rfl, rfl⟩ | ⟨rfl, rfl⟩ <;>
  · simp only [stamp, drawCross, clearBlock, block, List.foldl, cell_setCell, crossValue,
      Nat.add_sub_cancel]
    simp [Nat.add_assoc, Function.comp_def]

theorem plusScan_eq (grid result : Grid) (rows cols : Nat) :
    plusScan grid result rows cols
      = { result := ((scanCoords rows cols).filter
            (fun c => is3x3Plus grid c.1 c.2)).foldl stamp result,
          processed := ((scanCoords rows cols).filter
            (fun c => is3x3Plus grid c.1 c.2)).flatMap block,
          rewrites := (scanCoords rows cols).filter (fun c => is3x3Plus grid c.1 c.2) } := by
  rw [plusScan_eq_foldl, foldl_scanStep grid result _ (scanCoords_nodup rows cols)]

theorem rewriteCentres_eq (grid result : Grid) :
    rewriteCentres grid result
      = (scanCoords grid.length (grid.headD []).length).filter
          (fun c => is3x3Plus grid c.1 c.2) := by
  unfold rewriteCentres
  rw [plusScan_eq]

theorem rewriteCentres_nodup (grid result : Grid) : (rewriteCentres grid result).Nodup := by
  rw [rewriteCentres_eq]
  exact (scanCoords_nodup _ _).filter _

theorem replacePlusWithCross_eq (grid result : Grid) (hne : grid ≠ []) :
    replacePlusWithCross grid result
      = .ok ((rewriteCentres grid result).foldl stamp result) := by
  cases grid with
  | nil => exact absurd rfl hne
  | cons row0 rest =>
    rw [rewriteCentres_eq]
    simp only [replacePlusWithCross, plusScan_eq, List.headD_cons]

theorem mem_rewriteCentres (grid result : Grid) (c : Coord) :
    c ∈ rewriteCentres grid result ↔
      (1 ≤ c.1 ∧ c.1 + 2 ≤ grid.length ∧ 1 ≤ c.2 ∧ c.2 + 2 ≤ (grid.headD []).length) ∧
      is3x3Plus grid c.1 c.2 = true := by
  rw [rewriteCentres_eq, List.mem_filter, mem_scanCoords]

theorem cell_block_isSome (grid : Grid) (c k : Coord) (hc : is3x3Plus grid c.1 c.2 = true)
    (hk : k ∈ block c) : (cell grid k.1 k.2).isSome = true := by
  obtain ⟨i, j⟩ := c
  obtain ⟨x, y⟩ := k
  rw [is3x3Plus_iff] at hc
  obtain ⟨h0, h1, h2, h3, h4, h5, h6, h7, h8⟩ := hc
  simp only [block, List.mem_cons, Prod.mk.injEq, List.mem_singleton, List.not_mem_nil,
    or_false] at hk
  dsimp only at h0 h1 h2 h3 h4 h5 h6 h7 h8 ⊢
  rcases hk with ⟨rfl, rfl⟩ | ⟨rfl, rfl⟩ | ⟨rfl, rfl⟩ | ⟨rfl, rfl⟩ | ⟨rfl, rfl⟩ |
    ⟨rfl, rfl⟩ | ⟨rfl, rfl⟩ | ⟨rfl, rfl⟩ | ⟨rfl, rfl⟩ <;> simp [*]

theorem cell_isSome_of_shape (r g : Grid) (x y : Nat) (h : shape r = shape g) :
    (cell r x y).isSome = (cell g x y).isSome := by
  rw [cell_isSome_iff_shape, cell_isSome_iff_shape, h]

/-- A cell of the block of a rewritten centre whose block meets no other rewritten block
holds the cross value in the output. -/
theorem cell_rewrite_of_isolated (grid result : Grid) (c k : Coord) (hne : grid ≠ [])
    (hshape : shape result = shape grid)
    (hc : c ∈ rewriteCentres grid result) (hk : k ∈ block c)
    (hiso : ∀ c' ∈ rewriteCentres grid result, c' ≠ c → k ∉ block c') :
    ∃ out, replacePlusWithCross grid result = .ok out ∧
      cell out k.1 k.2 = some (crossValue c k) := by
  refine ⟨_, replacePlusWithCross_eq grid result hne, ?_⟩
  have hnd := rewriteCentres_nodup grid result
  have hmem := (mem_rewriteCentres grid result c).mp hc
  obtain ⟨l1, l2, hsplit⟩ := List.append_of_mem hc
  rw [hsplit] at hnd
  have hc2 : c ∉ l2 := by
    have := (List.nodup_append.mp hnd).2.1
    exact (List.nodup_cons.mp this).1
  rw [hsplit, List.foldl_append, List.foldl_cons]
  have hl2 : ∀ c' ∈ l2, (k.1, k.2) ∉ block c' := by
    intro c' hc'
    apply hiso c'
    · rw [hsplit]; exact List.mem_append_right _ (List.mem_cons_of_mem _ hc')
    · intro h; exact hc2 (h ▸ hc')
  rw [cell_foldl_stamp_of_not_mem l2 _ k.1 k.2 hl2]
  obtain ⟨i, j⟩ := c
  obtain ⟨hi, -, hj, -⟩ := hmem.1
  obtain ⟨i', rfl⟩ : ∃ i', i = i' + 1 := ⟨i - 1, by dsimp only at hi; omega⟩
  obtain ⟨j', rfl⟩ : ∃ j', j = j' + 1 := ⟨j - 1, by dsimp only at hj; omega⟩
  rw [cell_stamp_of_mem_block _ i' j' k.1 k.2 hk]
  have hsome : (cell (List.foldl stamp result l1) k.1 k.2).isSome = true := by
    rw [cell_isSome_of_shape _ grid _ _ (by rw [shape_foldl_stamp, hshape])]
    exact cell_block_isSome grid _ k hmem.2 hk
  obtain ⟨v, hv⟩ := Option.isSome_iff_exists.mp hsome
  rw [hv]; rfl

/-! ## Lemmas on the orchestrator -/

theorem includesChars_iff (sub l : List Char) : includesChars sub l = true ↔ sub <:+: l := by
  induction l with
  | nil => simp [includesChars, List.infix_nil]
  | cons c cs ih =>
    simp only [includesChars, Bool.or_eq_true, ih, List.infix_cons_iff,
      List.isPrefixOf_iff_prefix]

theorem includes_trans (s mid sub : String) (h1 : includes s mid = true)
    (h2 : includes mid sub = true) : includes s sub = true := by
  unfold includes at *
  rw [includesChars_iff] at *
  exact h2.trans h1

theorem tryLearnedComposition_none (st : StructureType) (rule : SubstitutionRule)
    (params : Params) (v : Option Grid) (h : tryLearnedComposition st rule params = .ok v) :
    v = none := by
  unfold tryLearnedComposition at h
  split_ifs at h <;> first
    | (split at h <;> first
        | (split_ifs at h <;> first
            | (split at h <;> first
                | (split_ifs at h <;> cases h <;> rfl)
                | cases h)
            | (cases h; rfl))
        | cases h)
    | (cases h; rfl)

theorem structureSubstitution_eq (c : Collaborators) (grid : Grid) (params : Params)
    (st : StructureType) (rule : SubstitutionRule) (h : Classifies c params st rule) :
    structureSubstitution c grid params
      = catchBlock c grid params st
          (tryBlock c grid params st rule (params.preserveNonMatching.getD true)) := by
  obtain ⟨h1, h2, h3, v, h4⟩ := h
  have := tryLearnedComposition_none st rule params v h4
  subst this
  simp [structureSubstitution, h1, h2, h3, h4]

theorem logUnknownStructure_eq (c : Collaborators) (params : Params) (st : StructureType) :
    logUnknownStructure c params.problemId params.inputStructure st
      = ⟨[.logUnknownStructure (unknownStructureData params st)],
          c.trackerLog (unknownStructureData params st)⟩ := rfl

theorem recognize_trace_isRecognition (c : Collaborators) (grid : Grid)
    (st : StructureType) : ∀ e ∈ (recognize c grid st).trace, e.isRecognition = true := by
  unfold recognize
  dsimp only
  split_ifs <;> simp [Event.isRecognition]

/-- The run on the zero-instance path with a matching legacy pattern. -/
theorem structureSubstitution_legacy (c : Collaborators) (grid : Grid) (params : Params)
    (st : StructureType) (rule : SubstitutionRule) (hcls : Classifies c params st rule)
    (hzero : ZeroInstances c grid st)
    (hleg : input3x3Block params.inputStructure = true ∧
      outputCrossOf2s params.outputStructure = true) :
    structureSubstitution c grid params
      = catchBlock c grid params st
          ⟨(recognize c grid st).trace ++
            [.replacePlusWithCross grid
              (legacyBaseline grid (params.preserveNonMatching.getD true))],
           replacePlusWithCross grid
              (legacyBaseline grid (params.preserveNonMatching.getD true))⟩ := by
  obtain ⟨found, hf, hn⟩ := hzero
  rw [structureSubstitution_eq c grid params st rule hcls]
  simp [tryBlock, hf, hn, hleg]

/-- The run on the zero-instance path without a matching legacy pattern. -/
theorem structureSubstitution_unrecognized (c : Collaborators) (grid : Grid)
    (params : Params) (st : StructureType) (rule : SubstitutionRule)
    (hcls : Classifies c params st rule) (hzero : ZeroInstances c grid st)
    (hleg : ¬ (input3x3Block params.inputStructure = true ∧
      outputCrossOf2s params.outputStructure = true)) :
    structureSubstitution c grid params
      = match c.trackerLog (unknownStructureData params st) with
        | .ok _ => ⟨(recognize c grid st).trace ++
            [.logUnknownStructure (unknownStructureData params st)], .ok grid⟩
        | .error e => ⟨(recognize c grid st).trace ++
            [.logUnknownStructure (unknownStructureData params st),
             .logUnknownStructure (unknownStructureData params st)], .error e⟩ := by
  obtain ⟨found, hf, hn⟩ := hzero
  rw [structureSubstitution_eq c grid params st rule hcls]
  simp only [tryBlock, hf, hn, hleg, if_true, if_false, logUnknownStructure_eq]
  cases hlog : c.trackerLog (unknownStructureData params st) with
  | ok u => simp [catchBlock, hlog]
  | error e => simp [catchBlock, hlog, logUnknownStructure_eq]

/-- The run when the recognizer returns instances. -/
theorem structureSubstitution_apply (c : Collaborators) (grid : Grid) (params : Params)
    (st : StructureType) (rule : SubstitutionRule) (hcls : Classifies c params st rule)
    (instances : List RecognizedStructure)
    (hrec : (recognize c grid st).outcome = .ok (some instances)) (hne : instances ≠ []) :
    structureSubstitution c grid params
      = catchBlock c grid params st
          ⟨(recognize c grid st).trace ++
            [.applySubstitution grid instances rule
              { preserveNonMatching :=
                  params.preserveNonMatching.getD (params.preserveNonMatching.getD true),
                inputStructure := params.inputStructure,
                outputStructure := params.outputStructure,
                problemId := params.problemId }],
           c.applySubstitution grid instances rule
              { preserveNonMatching :=
                  params.preserveNonMatching.getD (params.preserveNonMatching.getD true),
                inputStructure := params.inputStructure,
                outputStructure := params.outputStructure,
                problemId := params.problemId }⟩ := by
  rw [structureSubstitution_eq c grid params st rule hcls]
  have : noInstances (some instances) = false := by
    cases instances with
    | nil => exact absurd rfl hne
    | cons a l => rfl
  simp [tryBlock, hrec, this]

/-- The run when the recognizer raises. -/
theorem structureSubstitution_raise (c : Collaborators) (grid : Grid) (params : Params)
    (st : StructureType) (rule : SubstitutionRule) (hcls : Classifies c params st rule)
    (e : String) (hrec : (recognize c grid st).outcome = .error e) :
    structureSubstitution c grid params
      = catchBlock c grid params st ⟨(recognize c grid st).trace, .error e⟩ := by
  rw [structureSubstitution_eq c grid params st rule hcls]
  simp [tryBlock, hrec]

theorem shape_legacyBaseline (grid : Grid) (cols : Nat) (b : Bool)
    (hrect : Rectangular grid cols) : shape (legacyBaseline grid b) = shape grid := by
  cases b with
  | true => simp [legacyBaseline]
  | false =>
    cases grid with
    | nil => rfl
    | cons row0 rest =>
      simp only [legacyBaseline, shape, Bool.false_eq_true, if_false, List.headD_cons,
        List.map_map]
      apply List.ext_getElem (by simp)
      intro n h1 h2
      simp only [List.getElem_map, Function.comp, List.length_replicate]
      rw [hrect row0 (List.mem_cons_self _ _), hrect _ (List.getElem_mem _)]

theorem sameShape_of_shape (out grid : Grid) (cols : Nat) (hrect : Rectangular grid cols)
    (h : shape out = shape grid) : SameShape out grid cols := by
  refine ⟨by simpa [shape] using congrArg List.length h, ?_⟩
  intro row hrow
  have : row.length ∈ shape grid := h ▸ List.mem_map_of_mem _ hrow
  obtain ⟨row', hrow', hlen⟩ := List.mem_map.mp this
  rw [← hlen]; exact hrect row' hrow'

theorem sameShape_legacy (grid out : Grid) (cols : Nat) (b : Bool)
    (hrect : Rectangular grid cols)
    (h : replacePlusWithCross grid (legacyBaseline grid b) = .ok out) :
    SameShape out grid cols := by
  have hne : grid ≠ [] := by
    rintro rfl
    simp [replacePlusWithCross] at h
  rw [replacePlusWithCross_eq _ _ hne] at h
  cases h
  exact sameShape_of_shape _ _ _ hrect
    (by rw [shape_foldl_stamp, shape_legacyBaseline grid cols b hrect])

theorem catchBlock_outcome (c : Collaborators) (grid : Grid) (params : Params)
    (st : StructureType) (body : Run Grid) (out : Grid)
    (h : (catchBlock c grid params st body).outcome = .ok out) :
    body.outcome = .ok out ∨ out = grid := by
  unfold catchBlock at h
  split at h
  · next o ho => left; rw [ho]; exact h
  · dsimp only at h
    split at h
    · cases h
    · right; simpa using h.symm

theorem catchBlock_returns (c : Collaborators) (grid : Grid) (params : Params)
    (st : StructureType) (body : Run Grid) (hlog : ∀ d, c.trackerLog d = .ok ()) :
    ∃ out, (catchBlock c grid params st body).outcome = .ok out := by
  unfold catchBlock
  split
  · exact ⟨_, rfl⟩
  · simp [logUnknownStructure, hlog]

theorem tryBlock_outcome (c : Collaborators) (grid : Grid) (params : Params)
    (st : StructureType) (rule : SubstitutionRule) (b : Bool) (out : Grid)
    (h : (tryBlock c grid params st rule b).outcome = .ok out) :
    (∃ instances options, c.applySubstitution grid instances rule options = .ok out) ∨
    replacePlusWithCross grid (legacyBaseline grid b) = .ok out ∨ out = grid := by
  unfold tryBlock at h
  dsimp only at h
  split at h
  · cases h
  · split_ifs at h
    · right; left; exact h
    · split at h
      · cases h
      · right; right; simpa using h.symm
    · left; exact ⟨_, _, h⟩

theorem tryBlock_trace (c : Collaborators) (grid : Grid) (params : Params)
    (st : StructureType) (rule : SubstitutionRule) (b : Bool) :
    ∃ rest, (tryBlock c grid params st rule b).trace = (recognize c grid st).trace ++ rest ∧
      ∀ e ∈ rest, e.isRecognition = false := by
  unfold tryBlock
  dsimp only
  split
  · exact ⟨[], by simp, by simp⟩
  · split_ifs
    · exact ⟨_, rfl, by simp [Event.isRecognition]⟩
    · rw [logUnknownStructure_eq]
      split <;> exact ⟨_, rfl, by simp [Event.isRecognition]⟩
    · exact ⟨_, rfl, by simp [Event.isRecognition]⟩

theorem catchBlock_trace (c : Collaborators) (grid : Grid) (params : Params)
    (st : StructureType) (body : Run Grid) :
    ∃ rest, (catchBlock c grid params st body).trace = body.trace ++ rest ∧
      ∀ e ∈ rest, e.isRecognition = false := by
  unfold catchBlock
  split
  · exact ⟨[], by simp, by simp⟩
  · rw [logUnknownStructure_eq]
    dsimp only
    split <;> exact ⟨_, rfl, by simp [Event.isRecognition]⟩

/-- The recognizer calls of a run are those of the dispatch. -/
theorem recognition_calls (c : Collaborators) (grid : Grid) (params : Params)
    (st : StructureType) (rule : SubstitutionRule) (hcls : Classifies c params st rule) :
    (structureSubstitution c grid params).trace.filter Event.isRecognition
      = (recognize c grid st).trace := by
  rw [structureSubstitution_eq c grid params st rule hcls]
  obtain ⟨r1, h1, hr1⟩ := catchBlock_trace c grid params st
    (tryBlock c grid params st rule (params.preserveNonMatching.getD true))
  obtain ⟨r2, h2, hr2⟩ := tryBlock_trace c grid params st rule
    (params.preserveNonMatching.getD true)
  rw [h1, h2, List.filter_append, List.filter_append,
    List.filter_eq_self.mpr (recognize_trace_isRecognition c grid st),
    List.filter_eq_nil_iff.mpr (fun e he => by simp [hr2 e he]),
    List.filter_eq_nil_iff.mpr (fun e he => by simp [hr1 e he])]
  simp

theorem recognize_value (c : Collaborators) (grid : Grid) (st : StructureType)
    (hcond : st.type = "value" ∨ st.type = "valueWithAdjacency" ∨
      (st.type = "connectedRegions" ∧
        (st.params.adjacentTo.truthy = true ∨ st.params.pathToLandmarks.truthy = true)))
    (htv : st.params.targetValue ≠ .undefined) :
    recognize c grid st
      = ⟨[.recognizeValueRegions grid st.params.targetValue (buildCondition st.params)],
          c.recognizeValueRegions grid st.params.targetValue (buildCondition st.params)⟩ := by
  unfold recognize
  rw [if_pos hcond]
  dsimp only
  rw [if_pos htv]

theorem recognize_connected (c : Collaborators) (grid : Grid) (st : StructureType)
    (htype : st.type = "connectedRegions")
    (hnone : st.params.adjacentTo.truthy = false ∧ st.params.pathToLandmarks.truthy = false)
    (htv : st.params.targetValue ≠ .undefined) :
    recognize c grid st
      = ⟨[.recognizeConnectedRegions grid st.params.targetValue
            (st.params.connectivity.orElse (.num 4))],
          c.recognizeConnectedRegions grid st.params.targetValue
            (st.params.connectivity.orElse (.num 4))⟩ := by
  unfold recognize
  rw [if_neg (by rw [htype, hnone.1, hnone.2]; decide), if_pos htype]
  dsimp only
  rw [if_pos htv]

theorem orElse_default (v d : JsVal) (h : v = .undefined ∨ v.truthy = true) :
    v.orElse d = if v = .undefined then d else v := by
  rcases h with h | h
  · rw [h]; rfl
  · have : v ≠ .undefined := by
      intro h'; rw [h'] at h; exact absurd h (by decide)
    simp [JsVal.orElse, h, this]

theorem recognize_spatial (c : Collaborators) (grid : Grid) (st : StructureType)
    (htype : st.type = "boundary" ∨ includes st.type "pattern" = true) :
    recognize c grid st
      = ⟨[.recognizeSpatialConfigurations grid (buildConfigDescription st.params)],
          c.recognizeSpatialConfigurations grid (buildConfigDescription st.params)⟩ := by
  have h1 : st.type ≠ "value" := by
    intro h; rw [h] at htype; exact absurd htype (by decide)
  have h2 : st.type ≠ "valueWithAdjacency" := by
    intro h; rw [h] at htype; exact absurd htype (by decide)
  have h3 : st.type ≠ "connectedRegions" := by
    intro h; rw [h] at htype; exact absurd htype (by decide)
  unfold recognize
  rw [if_neg (by simp [h1, h2, h3]), if_neg h3, if_pos htype]

theorem catchBlock_ok (c : Collaborators) (grid : Grid) (params : Params)
    (st : StructureType) (trace : List Event) (out : Grid) :
    catchBlock c grid params st ⟨trace, .ok out⟩ = ⟨trace, .ok out⟩ := rfl

theorem catchBlock_error_trace (c : Collaborators) (grid : Grid) (params : Params)
    (st : StructureType) (trace : List Event) (e : String) :
    (catchBlock c grid params st ⟨trace, .error e⟩).trace
      = trace ++ [.logUnknownStructure (unknownStructureData params st)] := by
  simp only [catchBlock, logUnknownStructure_eq]
  split <;> rfl

theorem catchBlock_trace_cases (c : Collaborators) (grid : Grid) (params : Params)
    (st : StructureType) (body : Run Grid) :
    (catchBlock c grid params st body).trace = body.trace ∨
    (catchBlock c grid params st body).trace
      = body.trace ++ [.logUnknownStructure (unknownStructureData params st)] := by
  obtain ⟨trace, outcome⟩ := body
  cases outcome with
  | ok out => exact Or.inl rfl
  | error e => exact Or.inr (catchBlock_error_trace c grid params st trace e)

theorem recognize_outcome_cases (c : Collaborators) (grid : Grid) (st : StructureType) :
    (∃ e, (recognize c grid st).outcome = .error e) ∨ ZeroInstances c grid st ∨
    (∃ instances, (recognize c grid st).outcome = .ok (some instances) ∧ instances ≠ []) := by
  cases h : (recognize c grid st).outcome with
  | error e => exact Or.inl ⟨e, rfl⟩
  | ok found =>
    cases found with
    | none => exact Or.inr (Or.inl ⟨none, h, rfl⟩)
    | some l =>
      cases l with
      | nil => exact Or.inr (Or.inl ⟨some [], h, rfl⟩)
      | cons a l => exact Or.inr (Or.inr ⟨a :: l, rfl, by simp⟩)

theorem input3x3Block_iff (p : Option String) :
    input3x3Block p = true ↔ ∃ s, p = some s ∧
      ((includes s "3" = true ∧ includes s "block" = true) ∨
       (includes s "3" = true ∧ includes s "1s" = true) ∨
       includes s "plus" = true ∨ includes s "cardinal" = true) := by
  cases p with
  | none => simp [input3x3Block]
  | some s =>
    simp only [input3x3Block, Bool.and_eq_true, Bool.or_eq_true, bne_iff_ne, Option.some.injEq,
      exists_eq_left', or_assoc]
    constructor
    · exact fun h => h.2
    · intro h
      refine ⟨?_, h⟩
      rintro rfl
      revert h
      decide

theorem outputCrossOf2s_iff (p : Option String) :
    outputCrossOf2s p = true ↔ ∃ s, p = some s ∧
      (includes s "cross" = true ∨
       (includes s "2" = true ∧
         (includes s "cardinal" = true ∨ includes s "center" = true))) := by
  cases p with
  | none => simp [outputCrossOf2s]
  | some s =>
    simp only [outputCrossOf2s, Bool.and_eq_true, Bool.or_eq_true, bne_iff_ne,
      Option.some.injEq, exists_eq_left']
    constructor
    · exact fun h => h.2
    · intro h
      refine ⟨?_, h⟩
      rintro rfl
      revert h
      decide

theorem legacyBaseline_eq (grid : Grid) (b : Bool) :
    legacyBaseline grid b
      = if b then grid
        else List.replicate grid.length (List.replicate (grid.headD []).length 0) := by
  cases b <;> simp [legacyBaseline]

theorem recognize_no_legacy (c : Collaborators) (grid : Grid) (st : StructureType) :
    ∀ e ∈ (recognize c grid st).trace, e.isLegacy = false := by
  intro e he
  have := recognize_trace_isRecognition c grid st e he
  cases e <;> simp_all [Event.isRecognition, Event.isLegacy]

theorem recognize_no_log (c : Collaborators) (grid : Grid) (st : StructureType) :
    ∀ e ∈ (recognize c grid st).trace, e.isLog = false := by
  intro e he
  have := recognize_trace_isRecognition c grid st e he
  cases e <;> simp_all [Event.isRecognition, Event.isLog]

theorem zeroInstances_exclusive (c : Collaborators) (grid : Grid) (st : StructureType)
    (hzero : ZeroInstances c grid st) :
    (∀ e, (recognize c grid st).outcome ≠ .error e) ∧
    ∀ instances, (recognize c grid st).outcome = .ok (some instances) → instances = [] := by
  obtain ⟨found, hf, hn⟩ := hzero
  refine ⟨fun e h => (by rw [h] at hf; cases hf), fun instances h => ?_⟩
  rw [h] at hf
  cases hf
  cases instances with
  | nil => rfl
  | cons a l => cases hn

/-! ## Properties of the specification -/

/-- C1: the documented plus block is rewritten to the documented cross from either baseline,
hence by `structureSubstitution` on the zero-instance path with matching descriptions. -/
theorem legacy_fallback_concrete_case :
    replacePlusWithCross [[1, 1, 1], [1, 0, 1], [1, 1, 1]]
        (legacyBaseline [[1, 1, 1], [1, 0, 1], [1, 1, 1]] true)
      = .ok [[0, 2, 0], [2, 2, 2], [0, 2, 0]] ∧
    replacePlusWithCross [[1, 1, 1], [1, 0, 1], [1, 1, 1]]
        (legacyBaseline [[1, 1, 1], [1, 0, 1], [1, 1, 1]] false)
      = .ok [[0, 2, 0], [2, 2, 2], [0, 2, 0]] ∧
    ∀ (c : Collaborators) (params : Params) (st : StructureType) (rule : SubstitutionRule)
      (input output : String),
      params.inputStructure = some input → params.outputStructure = some output →
      (includes input "3x3 block" = true ∨ includes input "plus" = true) →
      includes output "cross" = true →
      Classifies c params st rule → ZeroInstances c [[1, 1, 1], [1, 0, 1], [1, 1, 1]] st →
      (structureSubstitution c [[1, 1, 1], [1, 0, 1], [1, 1, 1]] params).outcome
        = .ok [[0, 2, 0], [2, 2, 2], [0, 2, 0]] := by
  have ha : ∀ b, replacePlusWithCross [[1, 1, 1], [1, 0, 1], [1, 1, 1]]
      (legacyBaseline [[1, 1, 1], [1, 0, 1], [1, 1, 1]] b)
        = .ok [[0, 2, 0], [2, 2, 2], [0, 2, 0]] := by decide
  refine ⟨ha true, ha false, ?_⟩
  intro c params st rule input output hin hout hi ho hcls hzero
  have hi1 : input3x3Block params.inputStructure = true := by
    have hne : input ≠ "" := by
      rintro rfl
      rcases hi with h | h <;> exact absurd h (by decide)
    have : (includes input "3" = true ∧ includes input "block" = true) ∨
        includes input "plus" = true := by
      rcases hi with h | h
      · exact Or.inl ⟨includes_trans _ _ _ h (by decide), includes_trans _ _ _ h (by decide)⟩
      · exact Or.inr h
    rw [hin]
    simp only [input3x3Block, Bool.and_eq_true, Bool.or_eq_true, bne_iff_ne]
    refine ⟨hne, ?_⟩
    rcases this with h | h
    · exact Or.inl (Or.inl (Or.inl h))
    · exact Or.inl (Or.inr h)
  have ho1 : outputCrossOf2s params.outputStructure = true := by
    have hne : output ≠ "" := by
      rintro rfl
      exact absurd ho (by decide)
    rw [hout]
    simp only [outputCrossOf2s, Bool.and_eq_true, Bool.or_eq_true, bne_iff_ne]
    exact ⟨hne, Or.inl ho⟩
  rw [structureSubstitution_legacy c _ params st rule hcls hzero ⟨hi1, ho1⟩]
  simp [catchBlock, ha]

/-- Witness of C1: a run with matching descriptions and no instance recognized. -/
theorem legacy_fallback_concrete_case_witness :
    (structureSubstitution (stubCollaborators unclassified (some []))
      [[1, 1, 1], [1, 0, 1], [1, 1, 1]] legacyParams).outcome
      = .ok [[0, 2, 0], [2, 2, 2], [0, 2, 0]] :=
  legacy_fallback_concrete_case.2.2 (stubCollaborators unclassified (some [])) legacyParams
    unclassified stubRule "3x3 block of 1s" "cross of 2s" rfl rfl (Or.inl (by decide))
    (by decide) ⟨rfl, rfl, rfl, none, rfl⟩ ⟨some [], by decide, rfl⟩

/-- C2: on a rectangular grid, every grid that `structureSubstitution` returns (applied
result of a shape-preserving `applySubstitution`, legacy rewrite, or unchanged copy) has
the rows and row lengths of the input; and a grid is returned whenever the stages before
the `try` block complete and the tracker accepts its records. -/
theorem structureSubstitution_shape (c : Collaborators) (grid : Grid) (cols : Nat)
    (params : Params) (hrect : Rectangular grid cols)
    (happly : ∀ instances rule options out,
      c.applySubstitution grid instances rule options = .ok out → SameShape out grid cols) :
    (∀ out, (structureSubstitution c grid params).outcome = .ok out →
      SameShape out grid cols) ∧
    (∀ st rule, Classifies c params st rule → (∀ d, c.trackerLog d = .ok ()) →
      ∃ out, (structureSubstitution c grid params).outcome = .ok out) := by
  have hself : SameShape grid grid cols := ⟨rfl, hrect⟩
  constructor
  · intro out h
    cases h1 : c.identifyStructureType params.inputStructure with
    | error e => simp [structureSubstitution, h1] at h
    | ok st =>
      cases h2 : c.identifySubstitutionRule params.outputStructure st with
      | error e => simp [structureSubstitution, h1, h2] at h
      | ok rule =>
        cases h3 : st.confidence.isSome with
        | false => simp [structureSubstitution, h1, h2, h3] at h
        | true =>
          cases h4 : tryLearnedComposition st rule params with
          | error e => simp [structureSubstitution, h1, h2, h3, h4] at h
          | ok v =>
            rw [structureSubstitution_eq c grid params st rule ⟨h1, h2, h3, v, h4⟩] at h
            rcases catchBlock_outcome _ _ _ _ _ _ h with h | rfl
            · rcases tryBlock_outcome _ _ _ _ _ _ _ h with ⟨i, o, h⟩ | h | rfl
              · exact happly _ _ _ _ h
              · exact sameShape_legacy _ _ _ _ hrect h
              · exact hself
            · exact hself
  · intro st rule hcls hlog
    rw [structureSubstitution_eq c grid params st rule hcls]
    exact catchBlock_returns _ _ _ _ _ hlog

/-- Witness of C2: the legacy exit on a rectangular 4x5 grid. -/
theorem structureSubstitution_shape_witness :
    (∀ out, (structureSubstitution (stubCollaborators unclassified (some [])) overlapGrid
        legacyParams).outcome = .ok out → SameShape out overlapGrid 5) ∧
    (∀ st rule, Classifies (stubCollaborators unclassified (some [])) legacyParams st rule →
      (∀ d, (stubCollaborators unclassified (some [])).trackerLog d = .ok ()) →
      ∃ out, (structureSubstitution (stubCollaborators unclassified (some [])) overlapGrid
        legacyParams).outcome = .ok out) :=
  structureSubstitution_shape (stubCollaborators unclassified (some [])) overlapGrid 5
    legacyParams (by unfold Rectangular; decide)
    (fun _ _ _ out h => by
      cases h
      exact ⟨rfl, by decide⟩)

/-- C3: on the zero-instance path without a matching legacy pattern, every grid returned
equals the input grid cell for cell, whatever `preserveNonMatching` is, and the input grid
is returned whenever the tracker accepts the record. -/
theorem structureSubstitution_noop (c : Collaborators) (grid : Grid) (params : Params)
    (st : StructureType) (rule : SubstitutionRule) (hcls : Classifies c params st rule)
    (hzero : ZeroInstances c grid st)
    (hleg : ¬ (input3x3Block params.inputStructure = true ∧
      outputCrossOf2s params.outputStructure = true)) :
    (∀ out, (structureSubstitution c grid params).outcome = .ok out → out = grid) ∧
    (c.trackerLog (unknownStructureData params st) = .ok () →
      (structureSubstitution c grid params).outcome = .ok grid) := by
  rw [structureSubstitution_unrecognized c grid params st rule hcls hzero hleg]
  cases hlog : c.trackerLog (unknownStructureData params st) with
  | ok u => simp
  | error e => simp

/-- Witness of C3: descriptions that do not match the legacy pattern, flag `false`. -/
theorem structureSubstitution_noop_witness :
    (∀ out, (structureSubstitution (stubCollaborators unclassified (some []))
        [[1, 1, 1], [1, 0, 1], [1, 1, 1]] plainParams).outcome = .ok out →
      out = [[1, 1, 1], [1, 0, 1], [1, 1, 1]]) ∧
    ((stubCollaborators unclassified (some [])).trackerLog
        (unknownStructureData plainParams unclassified) = .ok () →
      (structureSubstitution (stubCollaborators unclassified (some []))
        [[1, 1, 1], [1, 0, 1], [1, 1, 1]] plainParams).outcome
        = .ok [[1, 1, 1], [1, 0, 1], [1, 1, 1]]) :=
  structureSubstitution_noop (stubCollaborators unclassified (some []))
    [[1, 1, 1], [1, 0, 1], [1, 1, 1]] plainParams
    unclassified stubRule ⟨rfl, rfl, rfl, none, rfl⟩ ⟨some [], by decide, rfl⟩ (by decide)

/-- C4: in the grid returned by the legacy rewrite from the baseline of
`structureSubstitution`, a cell of the grid that lies in no matched 3x3 block keeps its
input value when `preserveNonMatching` is true and is 0 when it is false. -/
theorem legacy_rewrite_preservation (grid : Grid) (cols : Nat) (preserveNonMatching : Bool)
    (hne : grid ≠ []) (hrect : Rectangular grid cols) :
    ∃ out, replacePlusWithCross grid (legacyBaseline grid preserveNonMatching) = .ok out ∧
      ∀ x y, x < grid.length → y < cols →
        (∀ c ∈ rewriteCentres grid (legacyBaseline grid preserveNonMatching),
          (x, y) ∉ block c) →
        cell out x y = if preserveNonMatching then cell grid x y else some 0 := by
  refine ⟨_, replacePlusWithCross_eq _ _ hne, ?_⟩
  intro x y hx hy hout
  rw [cell_foldl_stamp_of_not_mem _ _ x y hout]
  cases preserveNonMatching with
  | true => simp [legacyBaseline]
  | false =>
    cases grid with
    | nil => exact absurd rfl hne
    | cons row0 rest =>
      have h0 : row0.length = cols := hrect row0 (List.mem_cons_self _ _)
      simp only [legacyBaseline, Bool.false_eq_true, if_false, List.headD_cons, cell, h0]
      simp only [List.length_cons] at hx
      simp [List.getD_eq_getElem?_getD, List.getElem?_replicate, hx, hy]

/-- Witness of C4: a 4x5 grid with cells outside the matched blocks. -/
theorem legacy_rewrite_preservation_witness :
    ∃ out, replacePlusWithCross overlapGrid (legacyBaseline overlapGrid false) = .ok out ∧
      ∀ x y, x < overlapGrid.length → y < 5 →
        (∀ c ∈ rewriteCentres overlapGrid (legacyBaseline overlapGrid false),
          (x, y) ∉ block c) →
        cell out x y = if false then cell overlapGrid x y else some 0 :=
  legacy_rewrite_preservation overlapGrid 5 false (by decide) (by unfold Rectangular; decide)

/-- Counterexample to C6: in `overlapGrid` the centre `(1,1)` is matched, yet in the
returned grid its right neighbour `(1,2)` is 0 and its corner `(2,2)` is 2, both
overwritten by the rewrite at the later centre `(2,3)`. -/
theorem per_match_cross_counterexample :
    Rectangular overlapGrid 5 ∧
    is3x3Plus overlapGrid 1 1 = true ∧ is3x3Plus overlapGrid 2 3 = true ∧
    (1, 1) ∈ rewriteCentres overlapGrid (legacyBaseline overlapGrid true) ∧
    ∃ out, replacePlusWithCross overlapGrid (legacyBaseline overlapGrid true) = .ok out ∧
      cell out 1 2 = some 0 ∧ cell out 2 2 = some 2 := by
  refine ⟨by unfold Rectangular; decide, by decide, by decide, by decide, _, rfl,
    by decide, by decide⟩

/-- C6 (amended): for a match centre whose 3x3 block shares no cell with the block of
another match centre, the returned grid has 2 at the centre and its 4 orthogonal
neighbours and 0 at the 4 corners of the block. -/
theorem per_match_cross_isolated (grid result : Grid) (i j : Nat) (hne : grid ≠ [])
    (hshape : shape result = shape grid)
    (hc : (i, j) ∈ rewriteCentres grid result)
    (hiso : ∀ c ∈ rewriteCentres grid result, c ≠ (i, j) →
      ∀ k ∈ block (i, j), k ∉ block c) :
    ∃ out, replacePlusWithCross grid result = .ok out ∧
      cell out i j = some 2 ∧
      cell out (i-1) j = some 2 ∧ cell out i (j-1) = some 2 ∧
      cell out i (j+1) = some 2 ∧ cell out (i+1) j = some 2 ∧
      cell out (i-1) (j-1) = some 0 ∧ cell out (i-1) (j+1) = some 0 ∧
      cell out (i+1) (j-1) = some 0 ∧ cell out (i+1) (j+1) = some 0 := by
  have hmem := (mem_rewriteCentres grid result (i, j)).mp hc
  obtain ⟨hi, -, hj, -⟩ := hmem.1
  dsimp only at hi hj
  have key : ∀ k ∈ block (i, j),
      cell ((rewriteCentres grid result).foldl stamp result) k.1 k.2
        = some (crossValue (i, j) k) := by
    intro k hk
    obtain ⟨out, h1, h2⟩ := cell_rewrite_of_isolated grid result (i, j) k hne hshape hc hk
      (fun c hc' hne' => hiso c hc' hne' k hk)
    rw [replacePlusWithCross_eq _ _ hne] at h1
    cases h1
    exact h2
  refine ⟨_, replacePlusWithCross_eq _ _ hne, ?_, ?_, ?_, ?_, ?_, ?_, ?_, ?_, ?_⟩
  · have := key (i, j) (by simp [block]); simpa [crossValue] using this
  · have := key (i-1, j) (by simp [block]); simpa [crossValue] using this
  · have := key (i, j-1) (by simp [block]); simpa [crossValue] using this
  · have := key (i, j+1) (by simp [block]); simpa [crossValue] using this
  · have := key (i+1, j) (by simp [block]); simpa [crossValue] using this
  · have := key (i-1, j-1) (by simp [block])
    rw [this]; simp only [crossValue]; rw [if_neg (by omega)]
  · have := key (i-1, j+1) (by simp [block])
    rw [this]; simp only [crossValue]; rw [if_neg (by omega)]
  · have := key (i+1, j-1) (by simp [block])
    rw [this]; simp only [crossValue]; rw [if_neg (by omega)]
  · have := key (i+1, j+1) (by simp [block])
    rw [this]; simp only [crossValue]; rw [if_neg (by omega)]

/-- Witness of C6 (amended): the documented plus block, centre `(1,1)`. -/
theorem per_match_cross_isolated_witness :
    ∃ out, replacePlusWithCross [[1, 1, 1], [1, 0, 1], [1, 1, 1]]
        [[1, 1, 1], [1, 0, 1], [1, 1, 1]] = .ok out ∧
      cell out 1 1 = some 2 ∧
      cell out (1-1) 1 = some 2 ∧ cell out 1 (1-1) = some 2 ∧
      cell out 1 (1+1) = some 2 ∧ cell out (1+1) 1 = some 2 ∧
      cell out (1-1) (1-1) = some 0 ∧ cell out (1-1) (1+1) = some 0 ∧
      cell out (1+1) (1-1) = some 0 ∧ cell out (1+1) (1+1) = some 0 :=
  per_match_cross_isolated [[1, 1, 1], [1, 0, 1], [1, 1, 1]] [[1, 1, 1], [1, 0, 1], [1, 1, 1]]
    1 1 (by decide) (by decide) (by decide) (by decide)

/-- C7: when a value-based type carries a path condition (and an adjacency condition) and
a defined target value, the only recognizer call is `recognizeValueRegions` with the
path-based condition, which has no `adjacentTo` field. A landmark set, like every array,
is truthy; connectivity and path length are absent (`undefined`) or truthy (4, 8, a
positive length). -/
theorem dispatch_path_over_adjacency (c : Collaborators) (grid : Grid) (params : Params)
    (st : StructureType) (rule : SubstitutionRule) (hcls : Classifies c params st rule)
    (htype : st.type = "value" ∨ st.type = "valueWithAdjacency" ∨
      st.type = "connectedRegions")
    (hpath : st.params.pathToLandmarks.truthy = true)
    (hadj : st.params.adjacentTo.truthy = true)
    (htv : st.params.targetValue ≠ .undefined)
    (hconn : st.params.connectivity = .undefined ∨ st.params.connectivity.truthy = true)
    (hmax : st.params.maxPathLength = .undefined ∨ st.params.maxPathLength.truthy = true) :
    (structureSubstitution c grid params).trace.filter Event.isRecognition
      = [.recognizeValueRegions grid st.params.targetValue
          { pathToLandmarks := some st.params.pathToLandmarks,
            adjacentTo := none,
            connectivity := some (if st.params.connectivity = .undefined then .num 4
              else st.params.connectivity),
            connected := some (.bool true),
            maxPathLength := if st.params.maxPathLength = .undefined then none
              else some st.params.maxPathLength }] := by
  rw [recognition_calls c grid params st rule hcls]
  have hcond : (st.type = "value" ∨ st.type = "valueWithAdjacency" ∨
      (st.type = "connectedRegions" ∧
        (st.params.adjacentTo.truthy = true ∨ st.params.pathToLandmarks.truthy = true))) := by
    rcases htype with h | h | h
    · exact Or.inl h
    · exact Or.inr (Or.inl h)
    · exact Or.inr (Or.inr ⟨h, Or.inl hadj⟩)
  have h2 : (if st.params.maxPathLength.truthy = true then some st.params.maxPathLength
      else none)
      = if st.params.maxPathLength = .undefined then none
        else some st.params.maxPathLength := by
    rcases hmax with h | h
    · rw [h]; rfl
    · have : st.params.maxPathLength ≠ .undefined := by
        intro h'; rw [h'] at h; exact absurd h (by decide)
      simp [h, this]
  rw [recognize_value c grid st hcond htv]
  have hp : st.params.pathToLandmarks.orElse st.params.adjacentTo
      = st.params.pathToLandmarks := by
    simp [JsVal.orElse, hpath]
  simp only [buildCondition, hpath, true_or, if_true, orElse_default _ _ hconn, h2, hp]

/-- Witness of C7: `pathType` carries `pathToLandmarks`, `adjacentTo`, a target value
and a path length. -/
theorem dispatch_path_over_adjacency_witness :
    (structureSubstitution (stubCollaborators pathType (some [])) overlapGrid
        plainParams).trace.filter Event.isRecognition
      = [.recognizeValueRegions overlapGrid pathType.params.targetValue
          { pathToLandmarks := some pathType.params.pathToLandmarks,
            adjacentTo := none,
            connectivity := some (if pathType.params.connectivity = .undefined then .num 4
              else pathType.params.connectivity),
            connected := some (.bool true),
            maxPathLength := if pathType.params.maxPathLength = .undefined then none
              else some pathType.params.maxPathLength }] :=
  dispatch_path_over_adjacency (stubCollaborators pathType (some [])) overlapGrid plainParams
    pathType stubRule ⟨rfl, rfl, rfl, none, by decide⟩ (by decide) (by decide) (by decide)
    (by decide) (by decide) (by decide)

/-- C8: a `connectedRegions` type with a defined target value is sent to the plain
flood-fill `recognizeConnectedRegions` (connectivity 4 when absent) exactly when neither
`adjacentTo` nor `pathToLandmarks` is attached (truthy, as every landmark set is); with
either attached the only recognizer call is `recognizeValueRegions`. -/
theorem dispatch_connectedRegions (c : Collaborators) (grid : Grid) (params : Params)
    (st : StructureType) (rule : SubstitutionRule) (hcls : Classifies c params st rule)
    (htype : st.type = "connectedRegions")
    (htv : st.params.targetValue ≠ .undefined)
    (hconn : st.params.connectivity = .undefined ∨ st.params.connectivity.truthy = true) :
    ((structureSubstitution c grid params).trace.filter Event.isRecognition
        = [.recognizeConnectedRegions grid st.params.targetValue
            (if st.params.connectivity = .undefined then .num 4 else st.params.connectivity)]
      ↔ (st.params.adjacentTo.truthy = false ∧ st.params.pathToLandmarks.truthy = false)) ∧
    ((st.params.adjacentTo.truthy = true ∨ st.params.pathToLandmarks.truthy = true) →
      ∃ condition, (structureSubstitution c grid params).trace.filter Event.isRecognition
        = [.recognizeValueRegions grid st.params.targetValue condition]) := by
  rw [recognition_calls c grid params st rule hcls]
  by_cases hatt : st.params.adjacentTo.truthy = true ∨ st.params.pathToLandmarks.truthy = true
  · rw [recognize_value c grid st (Or.inr (Or.inr ⟨htype, hatt⟩)) htv]
    refine ⟨⟨fun h => by simp at h, fun h => ?_⟩, fun _ => ⟨_, rfl⟩⟩
    rcases hatt with h' | h'
    · rw [h.1] at h'; cases h'
    · rw [h.2] at h'; cases h'
  · have hnone : st.params.adjacentTo.truthy = false ∧
        st.params.pathToLandmarks.truthy = false := by
      simpa [not_or] using hatt
    rw [recognize_connected c grid st htype hnone htv, orElse_default _ _ hconn]
    exact ⟨⟨fun _ => hnone, fun _ => rfl⟩, fun h => absurd h hatt⟩

/-- Witness of C8: `regionType` has target value 0 and no relational condition. -/
theorem dispatch_connectedRegions_witness :
    ((structureSubstitution (stubCollaborators regionType (some [])) overlapGrid
          plainParams).trace.filter Event.isRecognition
        = [.recognizeConnectedRegions overlapGrid regionType.params.targetValue
            (if regionType.params.connectivity = .undefined then .num 4
              else regionType.params.connectivity)]
      ↔ (regionType.params.adjacentTo.truthy = false ∧
          regionType.params.pathToLandmarks.truthy = false)) ∧
    ((regionType.params.adjacentTo.truthy = true ∨
        regionType.params.pathToLandmarks.truthy = true) →
      ∃ condition, (structureSubstitution (stubCollaborators regionType (some [])) overlapGrid
          plainParams).trace.filter Event.isRecognition
        = [.recognizeValueRegions overlapGrid regionType.params.targetValue condition]) :=
  dispatch_connectedRegions (stubCollaborators regionType (some [])) overlapGrid plainParams
    regionType stubRule ⟨rfl, rfl, rfl, none, by decide⟩ (by decide) (by decide) (by decide)

/-- Counterexample to C9: for the type names `columnPattern`, `rowPattern` and
`rectangularPattern` no recognizer is called (the source tests the lower-case substring
`pattern`), although the spatial recognizer would return an instance; the run logs an
unknown structure and returns the grid unchanged. -/
theorem pattern_dispatch_counterexample :
    (structureSubstitution (stubCollaborators columnPatternType (some oneInstance))
      overlapGrid plainParams).trace.filter Event.isRecognition = [] ∧
    (structureSubstitution (stubCollaborators columnPatternType (some oneInstance))
      overlapGrid plainParams).outcome = .ok overlapGrid ∧
    (structureSubstitution
      (stubCollaborators { columnPatternType with type := "rowPattern" } (some oneInstance))
      overlapGrid plainParams).trace.filter Event.isRecognition = [] ∧
    (structureSubstitution
      (stubCollaborators { columnPatternType with type := "rectangularPattern" }
        (some oneInstance))
      overlapGrid plainParams).trace.filter Event.isRecognition = [] := by
  decide

/-- C9 (amended): a type named `boundary`, or whose name contains the lower-case substring
`pattern`, is routed to `recognizeSpatialConfigurations` and to no other recognizer. -/
theorem dispatch_boundary_and_pattern (c : Collaborators) (grid : Grid) (params : Params)
    (st : StructureType) (rule : SubstitutionRule) (hcls : Classifies c params st rule)
    (htype : st.type = "boundary" ∨ includes st.type "pattern" = true) :
    (structureSubstitution c grid params).trace.filter Event.isRecognition
      = [.recognizeSpatialConfigurations grid (buildConfigDescription st.params)] := by
  rw [recognition_calls c grid params st rule hcls, recognize_spatial c grid st htype]

/-- Witness of C9 (amended): the type `boundary`. -/
theorem dispatch_boundary_and_pattern_witness :
    (structureSubstitution (stubCollaborators boundaryType (some [])) overlapGrid
        plainParams).trace.filter Event.isRecognition
      = [.recognizeSpatialConfigurations overlapGrid
          (buildConfigDescription boundaryType.params)] :=
  dispatch_boundary_and_pattern (stubCollaborators boundaryType (some [])) overlapGrid
    plainParams boundaryType stubRule ⟨rfl, rfl, rfl, none, by decide⟩ (Or.inl (by decide))

/-- C10: when the dispatched recognizer returns a non-empty sequence of instances, the
run calls `applySubstitution(grid, instances, substitutionRule, options)` once, with
`options.preserveNonMatching` the resolved flag (default true) and the other parameters
spread in, and never the legacy rewrite; when that call returns, its result is the result
of the run and the run consists of the recognizer call and this call only (no legacy
rewrite, no unknown-structure log). Conversely, with zero instances recognized
`applySubstitution` is not called. -/
theorem apply_sole_success_exit (c : Collaborators) (grid : Grid) (params : Params)
    (st : StructureType) (rule : SubstitutionRule) (hcls : Classifies c params st rule) :
    (∀ instances, (recognize c grid st).outcome = .ok (some instances) → instances ≠ [] →
      ∃ options : Options,
        options.preserveNonMatching = params.preserveNonMatching.getD true ∧
        options.inputStructure = params.inputStructure ∧
        options.outputStructure = params.outputStructure ∧
        options.problemId = params.problemId ∧
        (structureSubstitution c grid params).trace.filter Event.isApply
          = [.applySubstitution grid instances rule options] ∧
        (∀ e ∈ (structureSubstitution c grid params).trace, e.isLegacy = false) ∧
        ∀ out, c.applySubstitution grid instances rule options = .ok out →
          (structureSubstitution c grid params).outcome = .ok out ∧
          (structureSubstitution c grid params).trace
            = (recognize c grid st).trace ++
                [.applySubstitution grid instances rule options] ∧
          ∀ e ∈ (structureSubstitution c grid params).trace,
            e.isLegacy = false ∧ e.isLog = false) ∧
    (ZeroInstances c grid st →
      ∀ e ∈ (structureSubstitution c grid params).trace, e.isApply = false) := by
  have hrec := recognize_trace_isRecognition c grid st
  have hrecA : ∀ e ∈ (recognize c grid st).trace, e.isApply = false := by
    intro e he; have := hrec e he; cases e <;> simp_all [Event.isRecognition, Event.isApply]
  have hrecL : ∀ e ∈ (recognize c grid st).trace, e.isLegacy = false := by
    intro e he; have := hrec e he; cases e <;> simp_all [Event.isRecognition, Event.isLegacy]
  have hrecG : ∀ e ∈ (recognize c grid st).trace, e.isLog = false := by
    intro e he; have := hrec e he; cases e <;> simp_all [Event.isRecognition, Event.isLog]
  have hfil : (recognize c grid st).trace.filter Event.isApply = [] :=
    List.filter_eq_nil_iff.mpr (fun e he => by rw [hrecA e he]; decide)
  constructor
  · intro instances hr hne
    refine ⟨{ preserveNonMatching :=
                params.preserveNonMatching.getD (params.preserveNonMatching.getD true),
              inputStructure := params.inputStructure,
              outputStructure := params.outputStructure,
              problemId := params.problemId }, ?_, rfl, rfl, rfl, ?_, ?_, ?_⟩
    · cases params.preserveNonMatching <;> rfl
    · rw [structureSubstitution_apply c grid params st rule hcls instances hr hne]
      rcases catchBlock_trace_cases c grid params st _ with h | h <;> rw [h] <;>
        simp [List.filter_append, hfil, Event.isApply]
    · rw [structureSubstitution_apply c grid params st rule hcls instances hr hne]
      rcases catchBlock_trace_cases c grid params st _ with h | h <;> rw [h] <;>
        intro e he <;> simp only [List.mem_append, List.mem_singleton] at he
      · rcases he with he | rfl
        · exact hrecL e he
        · rfl
      · rcases he with (he | rfl) | rfl
        · exact hrecL e he
        · rfl
        · rfl
    · intro out hout
      rw [structureSubstitution_apply c grid params st rule hcls instances hr hne, hout,
        catchBlock_ok]
      refine ⟨rfl, rfl, ?_⟩
      intro e he
      simp only [List.mem_append, List.mem_singleton] at he
      rcases he with he | rfl
      · exact ⟨hrecL e he, hrecG e he⟩
      · exact ⟨rfl, rfl⟩
  · intro hzero e he
    by_cases hleg : input3x3Block params.inputStructure = true ∧
        outputCrossOf2s params.outputStructure = true
    · rw [structureSubstitution_legacy c grid params st rule hcls hzero hleg] at he
      rcases catchBlock_trace_cases c grid params st
        ⟨(recognize c grid st).trace ++
            [.replacePlusWithCross grid
              (legacyBaseline grid (params.preserveNonMatching.getD true))],
          replacePlusWithCross grid
            (legacyBaseline grid (params.preserveNonMatching.getD true))⟩ with h | h <;>
        rw [h] at he <;> simp only [List.mem_append, List.mem_singleton] at he
      · rcases he with he | rfl
        · exact hrecA e he
        · rfl
      · rcases he with (he | rfl) | rfl
        · exact hrecA e he
        · rfl
        · rfl
    · rw [structureSubstitution_unrecognized c grid params st rule hcls hzero hleg] at he
      split at he <;>
        simp only [List.mem_append, List.mem_singleton, List.mem_cons, List.not_mem_nil,
          or_false] at he
      · rcases he with he | rfl
        · exact hrecA e he
        · rfl
      · rcases he with he | rfl | rfl
        · exact hrecA e he
        · rfl
        · rfl

/-- Witness of C10: the flood-fill returns one instance for `regionType`. -/
theorem apply_sole_success_exit_witness :
    (∀ instances,
      (recognize (stubCollaborators regionType (some oneInstance)) overlapGrid
        regionType).outcome = .ok (some instances) → instances ≠ [] →
      ∃ options : Options,
        options.preserveNonMatching = plainParams.preserveNonMatching.getD true ∧
        options.inputStructure = plainParams.inputStructure ∧
        options.outputStructure = plainParams.outputStructure ∧
        options.problemId = plainParams.problemId ∧
        (structureSubstitution (stubCollaborators regionType (some oneInstance)) overlapGrid
            plainParams).trace.filter Event.isApply
          = [.applySubstitution overlapGrid instances stubRule options] ∧
        (∀ e ∈ (structureSubstitution (stubCollaborators regionType (some oneInstance))
            overlapGrid plainParams).trace, e.isLegacy = false) ∧
        ∀ out, (stubCollaborators regionType (some oneInstance)).applySubstitution overlapGrid
            instances stubRule options = .ok out →
          (structureSubstitution (stubCollaborators regionType (some oneInstance)) overlapGrid
            plainParams).outcome = .ok out ∧
          (structureSubstitution (stubCollaborators regionType (some oneInstance)) overlapGrid
            plainParams).trace
            = (recognize (stubCollaborators regionType (some oneInstance)) overlapGrid
                regionType).trace ++
                [.applySubstitution overlapGrid instances stubRule options] ∧
          ∀ e ∈ (structureSubstitution (stubCollaborators regionType (some oneInstance))
              overlapGrid plainParams).trace,
            e.isLegacy = false ∧ e.isLog = false) ∧
    (ZeroInstances (stubCollaborators regionType (some oneInstance)) overlapGrid regionType →
      ∀ e ∈ (structureSubstitution (stubCollaborators regionType (some oneInstance))
        overlapGrid plainParams).trace, e.isApply = false) :=
  apply_sole_success_exit (stubCollaborators regionType (some oneInstance)) overlapGrid
    plainParams regionType stubRule ⟨rfl, rfl, rfl, none, by decide⟩

/-- C11: the legacy rewrite is called exactly when recognition yields zero instances and
the raw descriptions match the legacy pattern (input contains `3` and `block`, or `3` and
`1s`, or `plus`, or `cardinal`; output contains `cross`, or `2` and `cardinal` or
`center`); it is then called once, on the grid and the baseline (the grid itself when the
resolved flag is true, the all-zero grid of its shape otherwise), and on a grid with a row
its result is the result of the run. -/
theorem legacy_fallback_gating (c : Collaborators) (grid : Grid) (params : Params)
    (st : StructureType) (rule : SubstitutionRule) (hcls : Classifies c params st rule) :
    ((∃ e ∈ (structureSubstitution c grid params).trace, e.isLegacy = true) ↔
      (ZeroInstances c grid st ∧
        ∃ input output, params.inputStructure = some input ∧
          params.outputStructure = some output ∧
          ((includes input "3" = true ∧ includes input "block" = true) ∨
           (includes input "3" = true ∧ includes input "1s" = true) ∨
           includes input "plus" = true ∨ includes input "cardinal" = true) ∧
          (includes output "cross" = true ∨
           (includes output "2" = true ∧
             (includes output "cardinal" = true ∨ includes output "center" = true))))) ∧
    ((∃ e ∈ (structureSubstitution c grid params).trace, e.isLegacy = true) →
      (structureSubstitution c grid params).trace.filter Event.isLegacy
        = [.replacePlusWithCross grid
            (if params.preserveNonMatching.getD true then grid
             else List.replicate grid.length
               (List.replicate (grid.headD []).length 0))] ∧
      (grid ≠ [] →
        ∃ out, replacePlusWithCross grid
            (if params.preserveNonMatching.getD true then grid
             else List.replicate grid.length
               (List.replicate (grid.headD []).length 0)) = .ok out ∧
          (structureSubstitution c grid params).outcome = .ok out)) := by
  have hpat : (input3x3Block params.inputStructure = true ∧
      outputCrossOf2s params.outputStructure = true) ↔
      ∃ input output, params.inputStructure = some input ∧
          params.outputStructure = some output ∧
          ((includes input "3" = true ∧ includes input "block" = true) ∨
           (includes input "3" = true ∧ includes input "1s" = true) ∨
           includes input "plus" = true ∨ includes input "cardinal" = true) ∧
          (includes output "cross" = true ∨
           (includes output "2" = true ∧
             (includes output "cardinal" = true ∨ includes output "center" = true))) := by
    rw [input3x3Block_iff, outputCrossOf2s_iff]
    constructor
    · rintro ⟨⟨s, hs, h1⟩, ⟨o, ho, h2⟩⟩
      exact ⟨s, o, hs, ho, h1, h2⟩
    · rintro ⟨s, o, hs, ho, h1, h2⟩
      exact ⟨⟨s, hs, h1⟩, ⟨o, ho, h2⟩⟩
  rw [← hpat]
  have hrl := recognize_no_legacy c grid st
  have hfil : (recognize c grid st).trace.filter Event.isLegacy = [] :=
    List.filter_eq_nil_iff.mpr (fun e he => by rw [hrl e he]; decide)
  have hnone : ∀ extra : List Event, (∀ e ∈ extra, e.isLegacy = false) →
      ¬ ∃ e ∈ (recognize c grid st).trace ++ extra, e.isLegacy = true := by
    rintro extra hex ⟨e, he, hl⟩
    rcases List.mem_append.mp he with h | h
    · rw [hrl e h] at hl; cases hl
    · rw [hex e h] at hl; cases hl
  rcases recognize_outcome_cases c grid st with ⟨e, hr⟩ | hzero | ⟨instances, hr, hne⟩
  · -- the recognizer raises
    have hnz : ¬ ZeroInstances c grid st := fun hz => (zeroInstances_exclusive c grid st hz).1 e hr
    have hno : ¬ ∃ e ∈ (structureSubstitution c grid params).trace, e.isLegacy = true := by
      rw [structureSubstitution_raise c grid params st rule hcls e hr, catchBlock_error_trace]
      exact hnone _ (by simp [Event.isLegacy])
    exact ⟨⟨fun h => absurd h hno, fun h => absurd h.1 hnz⟩, fun h => absurd h hno⟩
  · by_cases hleg : input3x3Block params.inputStructure = true ∧
        outputCrossOf2s params.outputStructure = true
    · -- the legacy path
      have hrun := structureSubstitution_legacy c grid params st rule hcls hzero hleg
      rw [legacyBaseline_eq] at hrun
      have htr : (structureSubstitution c grid params).trace.filter Event.isLegacy
          = [.replacePlusWithCross grid
              (if params.preserveNonMatching.getD true then grid
               else List.replicate grid.length
                 (List.replicate (grid.headD []).length 0))] := by
        rw [hrun]
        rcases catchBlock_trace_cases c grid params st _ with h | h <;> rw [h] <;>
          simp [List.filter_append, hfil, Event.isLegacy]
      have hex : ∃ e ∈ (structureSubstitution c grid params).trace, e.isLegacy = true := by
        have : Event.replacePlusWithCross grid
            (if params.preserveNonMatching.getD true then grid
             else List.replicate grid.length
               (List.replicate (grid.headD []).length 0))
            ∈ (structureSubstitution c grid params).trace.filter Event.isLegacy := by
          rw [htr]; exact List.mem_singleton_self _
        exact ⟨_, (List.mem_filter.mp this).1, rfl⟩
      refine ⟨⟨fun _ => ⟨hzero, hleg⟩, fun _ => hex⟩, fun _ => ⟨htr, fun hne => ?_⟩⟩
      refine ⟨_, replacePlusWithCross_eq _ _ hne, ?_⟩
      rw [hrun, replacePlusWithCross_eq _ _ hne, catchBlock_ok]
    · -- the unrecognized path
      have hno : ¬ ∃ e ∈ (structureSubstitution c grid params).trace, e.isLegacy = true := by
        rw [structureSubstitution_unrecognized c grid params st rule hcls hzero hleg]
        split
        · exact hnone _ (by simp [Event.isLegacy])
        · exact hnone _ (by simp [Event.isLegacy])
      exact ⟨⟨fun h => absurd h hno, fun h => absurd h.2 hleg⟩, fun h => absurd h hno⟩
  · -- instances were recognized
    have hnz : ¬ ZeroInstances c grid st :=
      fun hz => hne ((zeroInstances_exclusive c grid st hz).2 instances hr)
    have hno : ¬ ∃ e ∈ (structureSubstitution c grid params).trace, e.isLegacy = true := by
      rw [structureSubstitution_apply c grid params st rule hcls instances hr hne]
      rcases catchBlock_trace_cases c grid params st _ with h | h <;> rw [h]
      · exact hnone _ (by simp [Event.isLegacy])
      · rw [List.append_assoc]
        exact hnone _ (by simp [Event.isLegacy])
    exact ⟨⟨fun h => absurd h hno, fun h => absurd h.1 hnz⟩, fun h => absurd h hno⟩

/-- Witness of C11: zero instances and descriptions that match the legacy pattern. -/
theorem legacy_fallback_gating_witness :
    ((∃ e ∈ (structureSubstitution (stubCollaborators unclassified (some [])) overlapGrid
        legacyParams).trace, e.isLegacy = true) ↔
      (ZeroInstances (stubCollaborators unclassified (some [])) overlapGrid unclassified ∧
        ∃ input output, legacyParams.inputStructure = some input ∧
          legacyParams.outputStructure = some output ∧
          ((includes input "3" = true ∧ includes input "block" = true) ∨
           (includes input "3" = true ∧ includes input "1s" = true) ∨
           includes input "plus" = true ∨ includes input "cardinal" = true) ∧
          (includes output "cross" = true ∨
           (includes output "2" = true ∧
             (includes output "cardinal" = true ∨ includes output "center" = true))))) ∧
    ((∃ e ∈ (structureSubstitution (stubCollaborators unclassified (some [])) overlapGrid
        legacyParams).trace, e.isLegacy = true) →
      (structureSubstitution (stubCollaborators unclassified (some [])) overlapGrid
          legacyParams).trace.filter Event.isLegacy
        = [.replacePlusWithCross overlapGrid
            (if legacyParams.preserveNonMatching.getD true then overlapGrid
             else List.replicate overlapGrid.length
               (List.replicate (overlapGrid.headD []).length 0))] ∧
      (overlapGrid ≠ [] →
        ∃ out, replacePlusWithCross overlapGrid
            (if legacyParams.preserveNonMatching.getD true then overlapGrid
             else List.replicate overlapGrid.length
               (List.replicate (overlapGrid.headD []).length 0)) = .ok out ∧
          (structureSubstitution (stubCollaborators unclassified (some [])) overlapGrid
            legacyParams).outcome = .ok out)) :=
  legacy_fallback_gating (stubCollaborators unclassified (some [])) overlapGrid legacyParams
    unclassified stubRule ⟨rfl, rfl, rfl, none, rfl⟩

/-- Counterexample to C12: without a problem identifier in the parameters the record
logged carries the identifier `unknown`. -/
theorem unknown_logging_counterexample :
    anonymousParams.problemId = none ∧
    (structureSubstitution (stubCollaborators regionType (some [])) overlapGrid
        anonymousParams).trace.filter Event.isLog
      = [.logUnknownStructure
          { problemId := "unknown", constraintDescription := "rings",
            structureType := "connectedRegions", detectionAttempted := true,
            structuresFound := 0 }] := by
  decide

/-- C12 (amended): when recognition yields zero instances, the legacy pattern does not
apply and the tracker call returns, the logger is called exactly once, with the problem
identifier of the parameters (or `unknown` when it is absent or empty), the raw input
description and the classified type name (or `unknown` when the name is empty). -/
theorem unknown_logging_once (c : Collaborators) (grid : Grid) (params : Params)
    (st : StructureType) (rule : SubstitutionRule) (hcls : Classifies c params st rule)
    (hzero : ZeroInstances c grid st)
    (hleg : ¬ (input3x3Block params.inputStructure = true ∧
      outputCrossOf2s params.outputStructure = true))
    (hlog : c.trackerLog (unknownStructureData params st) = .ok ()) :
    ∃ data, (structureSubstitution c grid params).trace.filter Event.isLog
        = [.logUnknownStructure data] ∧
      (∀ id, params.problemId = some id → id ≠ "" → data.problemId = id) ∧
      (params.problemId = none ∨ params.problemId = some "" → data.problemId = "unknown") ∧
      data.constraintDescription = params.inputStructure.getD "" ∧
      (st.type ≠ "" → data.structureType = st.type) ∧
      (st.type = "" → data.structureType = "unknown") := by
  have hfil : (recognize c grid st).trace.filter Event.isLog = [] :=
    List.filter_eq_nil_iff.mpr (fun e he => by
      have := recognize_trace_isRecognition c grid st e he
      cases e <;> simp_all [Event.isRecognition, Event.isLog])
  refine ⟨unknownStructureData params st, ?_, ?_, ?_, rfl, ?_, ?_⟩
  · rw [structureSubstitution_unrecognized c grid params st rule hcls hzero hleg, hlog]
    simp [List.filter_append, hfil, Event.isLog]
  · intro id h hne
    simp [unknownStructureData, h, hne]
  · rintro (h | h) <;> simp [unknownStructureData, h]
  · intro h; simp [unknownStructureData, h]
  · intro h; simp [unknownStructureData, h]

/-- Witness of C12 (amended): the identifier `p1` and the type `connectedRegions`. -/
theorem unknown_logging_once_witness :
    ∃ data, (structureSubstitution (stubCollaborators regionType (some [])) overlapGrid
          plainParams).trace.filter Event.isLog
        = [.logUnknownStructure data] ∧
      (∀ id, plainParams.problemId = some id → id ≠ "" → data.problemId = id) ∧
      (plainParams.problemId = none ∨ plainParams.problemId = some "" →
        data.problemId = "unknown") ∧
      data.constraintDescription = plainParams.inputStructure.getD "" ∧
      (regionType.type ≠ "" → data.structureType = regionType.type) ∧
      (regionType.type = "" → data.structureType = "unknown") :=
  unknown_logging_once (stubCollaborators regionType (some [])) overlapGrid plainParams
    regionType stubRule ⟨rfl, rfl, rfl, none, by decide⟩ ⟨some [], by decide, rfl⟩
    (by decide) rfl

/-- Counterexample to C13: an exception of the type identification, of the rule
identification or of the shortcut lookup leaves `structureSubstitution` as an exception;
no grid is returned and nothing is logged. -/
theorem failure_containment_counterexample :
    structureSubstitution failingTypeIdentifier overlapGrid plainParams
      = ⟨[], .error "type identification failed"⟩ ∧
    structureSubstitution failingRuleIdentifier overlapGrid plainParams
      = ⟨[], .error "rule identification failed"⟩ ∧
    structureSubstitution untaggedRuleIdentifier overlapGrid plainParams
      = ⟨[], .error "TypeError"⟩ := by
  refine ⟨rfl, rfl, ?_⟩
  simp [structureSubstitution, untaggedRuleIdentifier, stubCollaborators, regionType,
    tryLearnedComposition]

/-- C13 (amended): an exception of the recognition or of the substitution application,
the stages inside the `try` block, is contained when the tracker call returns: nothing is
raised and the grid is returned unchanged. An exception of the type identification, of
the rule identification or of the shortcut lookup, which run before the `try` block,
is raised to the caller. -/
theorem failure_containment_inside_try (c : Collaborators) (grid : Grid) (params : Params) :
    (∀ (st : StructureType) (rule : SubstitutionRule), Classifies c params st rule →
      c.trackerLog (unknownStructureData params st) = .ok () →
      (∀ e, (recognize c grid st).outcome = .error e →
        (structureSubstitution c grid params).outcome = .ok grid) ∧
      (∀ instances e, (recognize c grid st).outcome = .ok (some instances) →
        instances ≠ [] →
        c.applySubstitution grid instances rule
          { preserveNonMatching := params.preserveNonMatching.getD true,
            inputStructure := params.inputStructure,
            outputStructure := params.outputStructure,
            problemId := params.problemId } = .error e →
        (structureSubstitution c grid params).outcome = .ok grid)) ∧
    (∀ e, c.identifyStructureType params.inputStructure = .error e →
      (structureSubstitution c grid params).outcome = .error e) ∧
    (∀ st e, c.identifyStructureType params.inputStructure = .ok st →
      c.identifySubstitutionRule params.outputStructure st = .error e →
      (structureSubstitution c grid params).outcome = .error e) ∧
    (∀ st rule e, c.identifyStructureType params.inputStructure = .ok st →
      c.identifySubstitutionRule params.outputStructure st = .ok rule →
      st.confidence.isSome = true → tryLearnedComposition st rule params = .error e →
      (structureSubstitution c grid params).outcome = .error e) := by
  refine ⟨?_, ?_, ?_, ?_⟩
  · intro st rule hcls hlog
    constructor
    · intro e hr
      rw [structureSubstitution_raise c grid params st rule hcls e hr]
      simp [catchBlock, logUnknownStructure_eq, hlog]
    · intro instances e hr hne happ
      have hopt : params.preserveNonMatching.getD (params.preserveNonMatching.getD true)
          = params.preserveNonMatching.getD true := by
        cases params.preserveNonMatching <;> rfl
      rw [structureSubstitution_apply c grid params st rule hcls instances hr hne, hopt,
        happ]
      simp [catchBlock, logUnknownStructure_eq, hlog]
  · intro e h
    simp [structureSubstitution, h]
  · intro st e h1 h2
    simp [structureSubstitution, h1, h2]
  · intro st rule e h1 h2 h3 h4
    simp [structureSubstitution, h1, h2, h3, h4]

/-- Witness of C13 (amended): a raising recognizer and a raising `applySubstitution`. -/
theorem failure_containment_inside_try_witness :
    (structureSubstitution raisingRecognizer overlapGrid plainParams).outcome
      = .ok overlapGrid ∧
    (structureSubstitution raisingApplier overlapGrid plainParams).outcome
      = .ok overlapGrid :=
  ⟨((failure_containment_inside_try raisingRecognizer overlapGrid plainParams).1
      regionType stubRule ⟨rfl, rfl, rfl, none, by decide⟩ rfl).1
      "recognition failed" (by decide),
   ((failure_containment_inside_try raisingApplier overlapGrid plainParams).1
      regionType stubRule ⟨rfl, rfl, rfl, none, by decide⟩ rfl).2
      oneInstance "substitution failed" (by decide) (by decide) rfl⟩

/-- Counterexample to C14: with descriptions that match the legacy pattern, the run whose
recognizer raises returns the plus block unchanged, the run whose recognizer returns the
empty sequence returns the cross. -/
theorem raising_recognizer_counterexample :
    (structureSubstitution raisingRecognizer [[1, 1, 1], [1, 0, 1], [1, 1, 1]]
        legacyParams).outcome = .ok [[1, 1, 1], [1, 0, 1], [1, 1, 1]] ∧
    (structureSubstitution (stubCollaborators regionType (some []))
        [[1, 1, 1], [1, 0, 1], [1, 1, 1]] legacyParams).outcome
      = .ok [[0, 2, 0], [2, 2, 2], [0, 2, 0]] := by
  decide

/-- C14 (amended): when the dispatched recognition call raises and the tracker call
returns, the run logs an unknown structure, never calls the legacy rewrite and returns the
grid unchanged; this is the grid returned when the same call returns an empty sequence
provided the descriptions do not match the legacy pattern. -/
theorem raising_recognizer_returns_input (c c' : Collaborators) (grid : Grid)
    (params : Params) (st : StructureType) (rule : SubstitutionRule) (e : String)
    (hcls : Classifies c params st rule) (hcls' : Classifies c' params st rule)
    (hraise : (recognize c grid st).outcome = .error e)
    (hzero : ZeroInstances c' grid st)
    (hlog : c.trackerLog (unknownStructureData params st) = .ok ())
    (hlog' : c'.trackerLog (unknownStructureData params st) = .ok ()) :
    (structureSubstitution c grid params).outcome = .ok grid ∧
    (structureSubstitution c grid params).trace
      = (recognize c grid st).trace ++
          [.logUnknownStructure (unknownStructureData params st)] ∧
    (¬ (input3x3Block params.inputStructure = true ∧
        outputCrossOf2s params.outputStructure = true) →
      (structureSubstitution c' grid params).outcome
        = (structureSubstitution c grid params).outcome) := by
  have hrun := structureSubstitution_raise c grid params st rule hcls e hraise
  have hout : (structureSubstitution c grid params).outcome = .ok grid := by
    rw [hrun]
    simp [catchBlock, logUnknownStructure_eq, hlog]
  refine ⟨hout, ?_, fun hleg => ?_⟩
  · rw [hrun, catchBlock_error_trace]
  · rw [hout, structureSubstitution_unrecognized c' grid params st rule hcls' hzero hleg,
      hlog']

/-- Witness of C14 (amended): descriptions outside the legacy pattern. -/
theorem raising_recognizer_returns_input_witness :
    (structureSubstitution raisingRecognizer overlapGrid plainParams).outcome
      = .ok overlapGrid ∧
    (structureSubstitution raisingRecognizer overlapGrid plainParams).trace
      = (recognize raisingRecognizer overlapGrid regionType).trace ++
          [.logUnknownStructure (unknownStructureData plainParams regionType)] ∧
    (¬ (input3x3Block plainParams.inputStructure = true ∧
        outputCrossOf2s plainParams.outputStructure = true) →
      (structureSubstitution (stubCollaborators regionType (some [])) overlapGrid
          plainParams).outcome
        = (structureSubstitution raisingRecognizer overlapGrid plainParams).outcome) :=
  raising_recognizer_returns_input raisingRecognizer (stubCollaborators regionType (some []))
    overlapGrid plainParams regionType stubRule "recognition failed"
    ⟨rfl, rfl, rfl, none, by decide⟩ ⟨rfl, rfl, rfl, none, by decide⟩ (by decide)
    ⟨some [], by decide, rfl⟩ rfl rfl

/-- C15 (failing input): with a tracker that raises, the run on the unrecognized path
calls the logger twice (in the `try` block and again in the `catch` clause) and raises the
tracker's exception, where the run with a working tracker returns the grid. -/
theorem tracker_fault_propagates :
    structureSubstitution failingTracker overlapGrid plainParams
      = ⟨[.logUnknownStructure (unknownStructureData plainParams unclassified),
          .logUnknownStructure (unknownStructureData plainParams unclassified)],
         .error "tracker failed"⟩ ∧
    structureSubstitution (stubCollaborators unclassified (some [])) overlapGrid plainParams
      = ⟨[.logUnknownStructure (unknownStructureData plainParams unclassified)],
         .ok overlapGrid⟩ := by
  constructor
  · rw [structureSubstitution_unrecognized failingTracker overlapGrid plainParams
      unclassified stubRule ⟨rfl, rfl, rfl, none, rfl⟩ ⟨some [], by decide, rfl⟩ (by decide)]
    rfl
  · rw [structureSubstitution_unrecognized (stubCollaborators unclassified (some []))
      overlapGrid plainParams unclassified stubRule ⟨rfl, rfl, rfl, none, rfl⟩
      ⟨some [], by decide, rfl⟩ (by decide)]
    rfl

/-- C16: for a rule whose `changes` and `preserves` are tag lists the shortcut lookup
returns `null`; it never returns a grid; so after a completed classification
`structureSubstitution` always goes on to the `try` block. -/
theorem learned_shortcut_always_misses :
    (∀ (st : StructureType) (rule : SubstitutionRule) (params : Params)
      (changes preserves : List String),
      rule.changes = some changes → rule.preserves = some preserves →
      tryLearnedComposition st rule params = .ok none) ∧
    (∀ (st : StructureType) (rule : SubstitutionRule) (params : Params) (shortcut : Grid),
      tryLearnedComposition st rule params ≠ .ok (some shortcut)) ∧
    (∀ (c : Collaborators) (grid : Grid) (params : Params) (st : StructureType)
      (rule : SubstitutionRule) (changes preserves : List String),
      c.identifyStructureType params.inputStructure = .ok st →
      c.identifySubstitutionRule params.outputStructure st = .ok rule →
      st.confidence.isSome = true →
      rule.changes = some changes → rule.preserves = some preserves →
      structureSubstitution c grid params
        = catchBlock c grid params st
            (tryBlock c grid params st rule (params.preserveNonMatching.getD true))) := by
  have h1 : ∀ (st : StructureType) (rule : SubstitutionRule) (params : Params)
      (changes preserves : List String),
      rule.changes = some changes → rule.preserves = some preserves →
      tryLearnedComposition st rule params = .ok none := by
    intro st rule params changes preserves hc hp
    simp only [tryLearnedComposition, hc, hp]
    split_ifs <;> rfl
  refine ⟨h1, ?_, ?_⟩
  · intro st rule params shortcut h
    cases tryLearnedComposition_none st rule params _ h
  · intro c grid params st rule changes preserves hst hrule hconf hc hp
    exact structureSubstitution_eq c grid params st rule
      ⟨hst, hrule, hconf, none, h1 st rule params changes preserves hc hp⟩

/-- Witness of C16: a `connectedRegions` type and a rule that changes `position` and
preserves `structure_integrity`. -/
theorem learned_shortcut_always_misses_witness :
    tryLearnedComposition regionType
      { operator := "compact", preserves := some ["structure_integrity"],
        changes := some ["position"] } plainParams = .ok none :=
  learned_shortcut_always_misses.1 regionType
    { operator := "compact", preserves := some ["structure_integrity"],
      changes := some ["position"] } plainParams ["position"] ["structure_integrity"] rfl rfl

/-! ## The legacy rewrite as a last-write-wins stamping -/

theorem cell_foldl_stamp (l : List Coord) (r : Grid) (x y : Nat)
    (hl : ∀ m ∈ l, 1 ≤ m.1 ∧ 1 ≤ m.2) :
    cell (l.foldl stamp r) x y
      = match (l.filter (fun m => (block m).contains (x, y))).getLast? with
        | none => cell r x y
        | some m => (cell r x y).map (fun _ => crossValue m (x, y)) := by
  induction l using List.reverseRecOn with
  | nil => rfl
  | append_singleton l m ih =>
    have ih' := ih (fun m' hm' => hl m' (List.mem_append_left _ hm'))
    rw [List.foldl_append, List.foldl_cons, List.foldl_nil, List.filter_append]
    by_cases hm : (block m).contains (x, y) = true
    · have hmem : (x, y) ∈ block m := by simpa using hm
      obtain ⟨h1, h2⟩ := hl m (List.mem_append_right _ (List.mem_singleton_self m))
      obtain ⟨i, j⟩ := m
      obtain ⟨i', rfl⟩ : ∃ i', i = i' + 1 := ⟨i - 1, by dsimp only at h1; omega⟩
      obtain ⟨j', rfl⟩ : ∃ j', j = j' + 1 := ⟨j - 1, by dsimp only at h2; omega⟩
      have hf : [(i' + 1, j' + 1)].filter (fun m => (block m).contains (x, y))
          = [(i' + 1, j' + 1)] := by
        simp only [List.filter_cons, hm, if_true, List.filter_nil]
      rw [cell_stamp_of_mem_block _ i' j' x y hmem, ih', hf, List.getLast?_concat]
      dsimp only
      split <;> simp [Function.comp_def]
    · have hmem : (x, y) ∉ block m := by simpa using hm
      have hf : [m].filter (fun m => (block m).contains (x, y)) = [] := by
        simp only [List.filter_cons, hm, List.filter_nil]; rfl
      rw [cell_stamp_of_not_mem_block _ _ _ _ hmem, ih', hf, List.append_nil]

theorem shape_getD_of_rectangular (grid : Grid) (cols x : Nat) (hrect : Rectangular grid cols)
    (hx : x < grid.length) : (shape grid).getD x 0 = cols := by
  unfold shape
  rw [List.getD_eq_getElem?_getD, List.getElem?_map, List.getElem?_eq_getElem hx]
  exact hrect _ (List.getElem_mem _)

theorem headD_length_of_rectangular (grid : Grid) (cols : Nat) (hne : grid ≠ [])
    (hrect : Rectangular grid cols) : (grid.headD []).length = cols := by
  cases grid with
  | nil => exact absurd rfl hne
  | cons row0 rest => exact hrect row0 (List.mem_cons_self _ _)

theorem block_bounds (c k : Coord) (rows cols : Nat) (hc : c ∈ scanCoords rows cols)
    (hk : k ∈ block c) : k.1 < rows ∧ k.2 < cols := by
  rw [mem_scanCoords] at hc
  obtain ⟨i, j⟩ := c
  obtain ⟨x, y⟩ := k
  simp only [block, List.mem_cons, Prod.mk.injEq, List.mem_singleton, List.not_mem_nil,
    or_false] at hk
  dsimp only at hc ⊢
  omega

theorem crossValue_eq_words (m k : Coord) (h1 : 1 ≤ m.1) (h2 : 1 ≤ m.2) (hk : k ∈ block m) :
    some (crossValue m k)
      = if k = m ∨ k = (m.1 - 1, m.2) ∨ k = (m.1 + 1, m.2) ∨
          k = (m.1, m.2 - 1) ∨ k = (m.1, m.2 + 1) then some (2 : Int)
        else some 0 := by
  obtain ⟨i, j⟩ := m
  obtain ⟨x, y⟩ := k
  simp only [block, List.mem_cons, Prod.mk.injEq, List.mem_singleton, List.not_mem_nil,
    or_false] at hk
  dsimp only at h1 h2 hk
  have hiff : (x = i ∨ y = j) ↔
      ((x = i ∧ y = j) ∨ (x = i - 1 ∧ y = j) ∨ (x = i + 1 ∧ y = j) ∨
        (x = i ∧ y = j - 1) ∨ (x = i ∧ y = j + 1)) := by omega
  simp only [crossValue, Prod.mk.injEq]
  by_cases h : x = i ∨ y = j
  · rw [if_pos h, if_pos (hiff.mp h)]
  · rw [if_neg h, if_neg (fun h' => h (hiff.mpr h'))]

/-- C24 (failing input): in `overlapGrid` the rewrite is performed at `(1,1)` and at
`(2,3)`; the cells `(1,2)` and `(2,2)` lie in both 3x3 blocks and were marked processed by
the first rewrite, yet they are rewritten again by the second: `(1,2)` holds 2 after the
first rewrite and 0 in the returned grid. -/
theorem double_processing_in_overlap :
    rewriteCentres overlapGrid (legacyBaseline overlapGrid true) = [(1, 1), (2, 3)] ∧
    (1, 2) ∈ block (1, 1) ∧ (1, 2) ∈ block (2, 3) ∧
    (2, 2) ∈ block (1, 1) ∧ (2, 2) ∈ block (2, 3) ∧
    (1, 2) ∈ (scanStep overlapGrid
      { result := legacyBaseline overlapGrid true, processed := [], rewrites := [] }
      (1, 1)).processed ∧
    cell (stamp (legacyBaseline overlapGrid true) (1, 1)) 1 2 = some 2 ∧
    replacePlusWithCross overlapGrid (legacyBaseline overlapGrid true)
      = .ok [[0, 2, 0, 1, 1], [2, 2, 0, 2, 0], [0, 2, 2, 2, 2], [1, 1, 0, 2, 0]] := by
  decide

/-- C25: for a grid with a row and a baseline of its shape, every cell of the grid
returned by `replacePlusWithCross` is the cell given by the last-write-wins reference
definition. -/
theorem replacePlusWithCross_refines_lastWriteWins (grid baseline : Grid) (hne : grid ≠ [])
    (hshape : shape baseline = shape grid) :
    ∃ out, replacePlusWithCross grid baseline = .ok out ∧
      ∀ x y, cell out x y = lastWriteWins grid baseline x y := by
  refine ⟨_, replacePlusWithCross_eq grid baseline hne, ?_⟩
  intro x y
  have hl : ∀ m ∈ rewriteCentres grid baseline, 1 ≤ m.1 ∧ 1 ≤ m.2 := by
    intro m hm
    have := ((mem_rewriteCentres grid baseline m).mp hm).1
    exact ⟨this.1, this.2.2.1⟩
  rw [cell_foldl_stamp _ _ x y hl, rewriteCentres_eq, List.filter_filter]
  unfold lastWriteWins
  have hfun : (fun m : Coord => (block m).contains (x, y) && is3x3Plus grid m.1 m.2)
      = (fun m : Coord => is3x3Plus grid m.1 m.2 && (block m).contains (x, y)) := by
    funext m; exact Bool.and_comm _ _
  rw [hfun]
  cases hlast : ((scanCoords grid.length (grid.headD []).length).filter
      (fun m => is3x3Plus grid m.1 m.2 && (block m).contains (x, y))).getLast? with
  | none => rfl
  | some m =>
    have hm := List.mem_filter.mp (List.mem_of_getLast?_eq_some hlast)
    simp only [Bool.and_eq_true] at hm
    obtain ⟨hscan, hplus, hblock'⟩ := hm
    have hblock : (x, y) ∈ block m := by simpa using hblock'
    have hpos := (mem_scanCoords _ _ m).mp hscan
    have hsome : (cell baseline x y).isSome = true := by
      rw [cell_isSome_of_shape baseline grid x y hshape]
      exact cell_block_isSome grid m (x, y) hplus hblock
    obtain ⟨v, hv⟩ := Option.isSome_iff_exists.mp hsome
    dsimp only
    rw [hv, Option.map_some']
    exact crossValue_eq_words m (x, y) hpos.1 hpos.2.2.1 hblock

/-- Witness of C25: `overlapGrid` with the all-zero baseline. -/
theorem replacePlusWithCross_refines_lastWriteWins_witness :
    ∃ out, replacePlusWithCross overlapGrid (legacyBaseline overlapGrid false) = .ok out ∧
      ∀ x y, cell out x y = lastWriteWins overlapGrid (legacyBaseline overlapGrid false) x y :=
  replacePlusWithCross_refines_lastWriteWins overlapGrid (legacyBaseline overlapGrid false)
    (by decide) (by decide)

theorem is3x3Plus_neighbours (grid : Grid) (i j : Nat) (h : is3x3Plus grid i j = true) :
    ∀ n ∈ [(i-1, j-1), (i-1, j), (i-1, j+1), (i, j-1), (i, j+1), (i+1, j-1), (i+1, j),
      (i+1, j+1)], cell grid n.1 n.2 = some 1 := by
  rw [is3x3Plus_iff] at h
  obtain ⟨-, h1, h2, h3, h4, h5, h6, h7, h8⟩ := h
  intro n hn
  simp only [List.mem_cons, List.mem_singleton, List.not_mem_nil, or_false] at hn
  rcases hn with rfl | rfl | rfl | rfl | rfl | rfl | rfl | rfl <;> assumption

/-- A cell of the block of `m` other than `m` has `m` among its eight neighbours. -/
theorem centre_mem_neighbours (i j : Nat) (m : Coord) (hi : 1 ≤ i) (hj : 1 ≤ j)
    (h : (i, j) ∈ block m) (hne : (i, j) ≠ m) :
    m ∈ [(i-1, j-1), (i-1, j), (i-1, j+1), (i, j-1), (i, j+1), (i+1, j-1), (i+1, j),
      (i+1, j+1)] := by
  obtain ⟨a, b⟩ := m
  simp only [block, List.mem_cons, Prod.mk.injEq, List.mem_singleton, List.not_mem_nil,
    or_false] at h
  simp only [ne_eq, Prod.mk.injEq] at hne
  simp only [List.mem_cons, Prod.mk.injEq, List.mem_singleton, List.not_mem_nil, or_false]
  rcases h with ⟨h1, h2⟩ | ⟨h1, h2⟩ | ⟨h1, h2⟩ | ⟨h1, h2⟩ | ⟨h1, h2⟩ | ⟨h1, h2⟩ | ⟨h1, h2⟩ |
    ⟨h1, h2⟩ | ⟨h1, h2⟩
  · exact Or.inr (Or.inr (Or.inr (Or.inr (Or.inr (Or.inr (Or.inr ⟨by omega, by omega⟩))))))
  · exact Or.inr (Or.inr (Or.inr (Or.inr (Or.inr (Or.inr (Or.inl ⟨by omega, by omega⟩))))))
  · exact Or.inr (Or.inr (Or.inr (Or.inr (Or.inr (Or.inl ⟨by omega, by omega⟩)))))
  · exact Or.inr (Or.inr (Or.inr (Or.inr (Or.inl ⟨by omega, by omega⟩))))
  · exact absurd ⟨h1, h2⟩ hne
  · exact Or.inr (Or.inr (Or.inr (Or.inl ⟨by omega, by omega⟩)))
  · exact Or.inr (Or.inr (Or.inl ⟨by omega, by omega⟩))
  · exact Or.inr (Or.inl ⟨by omega, by omega⟩)
  · exact Or.inl ⟨by omega, by omega⟩

/-- A cell in the block of a rewritten centre does not hold 1 in the returned grid. -/
theorem cell_rewritten_ne_one (grid baseline : Grid) (x y : Nat) (m : Coord)
    (hm : m ∈ rewriteCentres grid baseline) (hk : (x, y) ∈ block m) :
    cell ((rewriteCentres grid baseline).foldl stamp baseline) x y ≠ some 1 := by
  have hl : ∀ m ∈ rewriteCentres grid baseline, 1 ≤ m.1 ∧ 1 ≤ m.2 := by
    intro m hm
    have := ((mem_rewriteCentres grid baseline m).mp hm).1
    exact ⟨this.1, this.2.2.1⟩
  rw [cell_foldl_stamp _ _ x y hl]
  have hmem : m ∈ (rewriteCentres grid baseline).filter
      (fun m => (block m).contains (x, y)) :=
    List.mem_filter.mpr ⟨hm, by simpa using hk⟩
  cases hlast : ((rewriteCentres grid baseline).filter
      (fun m => (block m).contains (x, y))).getLast? with
  | none =>
    rw [List.getLast?_eq_none_iff] at hlast
    rw [hlast] at hmem
    cases hmem
  | some m' =>
    dsimp only
    cases cell baseline x y with
    | none => simp
    | some v =>
      simp only [Option.map_some', ne_eq, Option.some.injEq, crossValue]
      split_ifs <;> decide

/-- The grid returned from the copy baseline holds no match centre. -/
theorem no_match_after_rewrite (grid : Grid) (i j : Nat) (hi : 1 ≤ i) (hj : 1 ≤ j)
    (hrows : i + 2 ≤ grid.length) (hcols : j + 2 ≤ (grid.headD []).length) :
    is3x3Plus ((rewriteCentres grid grid).foldl stamp grid) i j = false := by
  by_contra hcon
  have hplus : is3x3Plus ((rewriteCentres grid grid).foldl stamp grid) i j = true := by
    simpa using hcon
  have hnb := is3x3Plus_neighbours _ i j hplus
  -- no neighbour lies in a rewritten block
  have hfree : ∀ n ∈ [(i-1, j-1), (i-1, j), (i-1, j+1), (i, j-1), (i, j+1), (i+1, j-1),
      (i+1, j), (i+1, j+1)], ∀ m ∈ rewriteCentres grid grid, n ∉ block m := by
    intro n hn m hm hmem
    exact cell_rewritten_ne_one grid grid n.1 n.2 m hm hmem (hnb n hn)
  have hsame : ∀ n ∈ [(i-1, j-1), (i-1, j), (i-1, j+1), (i, j-1), (i, j+1), (i+1, j-1),
      (i+1, j), (i+1, j+1)], cell grid n.1 n.2 = some 1 := by
    intro n hn
    rw [← cell_foldl_stamp_of_not_mem (rewriteCentres grid grid) grid n.1 n.2
      (fun c hc => hfree n hn c hc)]
    exact hnb n hn
  by_cases hc : ∃ m ∈ rewriteCentres grid grid, (i, j) ∈ block m
  · obtain ⟨m, hm, hmem⟩ := hc
    have hmpos := ((mem_rewriteCentres grid grid m).mp hm).1
    by_cases heq : (i, j) = m
    · subst heq
      exact hfree (i, j+1) (by simp) (i, j) hm (by simp [block])
    · have := centre_mem_neighbours i j m hi hj hmem heq
      exact hfree m this m hm (by simp [block])
  · have hcentre : cell grid i j = some 0 := by
      rw [← cell_foldl_stamp_of_not_mem (rewriteCentres grid grid) grid i j
        (fun c hc' hmem => hc ⟨c, hc', hmem⟩)]
      exact ((is3x3Plus_iff _ i j).mp hplus).1
    have hG : is3x3Plus grid i j = true := by
      rw [is3x3Plus_iff]
      exact ⟨hcentre, hsame (i-1, j-1) (by simp), hsame (i-1, j) (by simp),
        hsame (i-1, j+1) (by simp), hsame (i, j-1) (by simp), hsame (i, j+1) (by simp),
        hsame (i+1, j-1) (by simp), hsame (i+1, j) (by simp), hsame (i+1, j+1) (by simp)⟩
    have hin : (i, j) ∈ rewriteCentres grid grid :=
      (mem_rewriteCentres grid grid (i, j)).mpr ⟨⟨hi, hrows, hj, hcols⟩, hG⟩
    exact hc ⟨(i, j), hin, by simp [block]⟩

theorem is3x3Plus_interior (grid : Grid) (cols i j : Nat) (hrect : Rectangular grid cols)
    (h : is3x3Plus grid i j = true) :
    1 ≤ i ∧ i + 2 ≤ grid.length ∧ 1 ≤ j ∧ j + 2 ≤ cols := by
  rw [is3x3Plus_iff] at h
  obtain ⟨h0, -, h2, -, h4, -, -, -, h8⟩ := h
  have hi : 1 ≤ i := by
    by_contra hn
    have : i - 1 = i := by omega
    rw [this, h0] at h2
    cases h2
  have hj : 1 ≤ j := by
    by_contra hn
    have : j - 1 = j := by omega
    rw [this, h0] at h4
    cases h4
  have hsome : (cell grid (i+1) (j+1)).isSome = true := by rw [h8]; rfl
  rw [cell_isSome_iff_shape] at hsome
  have hlt : j + 1 < (shape grid).getD (i + 1) 0 := by simpa using hsome
  have hrow : i + 1 < grid.length := by
    by_contra hn
    have : (shape grid).getD (i + 1) 0 = 0 := by
      unfold shape
      rw [List.getD_eq_getElem?_getD, List.getElem?_eq_none (by simpa using Nat.le_of_not_lt hn)]
      rfl
    omega
  rw [shape_getD_of_rectangular grid cols (i+1) hrect hrow] at hlt
  omega

theorem legacyBaseline_true (grid : Grid) : legacyBaseline grid true = grid := by
  simp [legacyBaseline]

/-- C26: for a rectangular grid with a row, the grid `R` returned by the legacy rewrite
from the copy baseline holds no match centre, and the rewrite of `R` from a copy of `R`
returns `R`. -/
theorem legacy_rewrite_idempotent (grid : Grid) (cols : Nat) (hne : grid ≠ [])
    (hrect : Rectangular grid cols) :
    ∃ R, replacePlusWithCross grid (legacyBaseline grid true) = .ok R ∧
      (∀ i j, is3x3Plus R i j = false) ∧
      replacePlusWithCross R (legacyBaseline R true) = .ok R := by
  rw [legacyBaseline_true]
  refine ⟨_, replacePlusWithCross_eq grid grid hne, ?_⟩
  have hshape : shape ((rewriteCentres grid grid).foldl stamp grid) = shape grid :=
    shape_foldl_stamp _ _
  have hrectR : Rectangular ((rewriteCentres grid grid).foldl stamp grid) cols :=
    (sameShape_of_shape _ grid cols hrect hshape).2
  have hlen : ((rewriteCentres grid grid).foldl stamp grid).length = grid.length := by
    simpa [shape] using congrArg List.length hshape
  have hneR : (rewriteCentres grid grid).foldl stamp grid ≠ [] := by
    intro h
    rw [h] at hlen
    exact hne (List.length_eq_zero.mp hlen.symm)
  have hnone : ∀ i j, is3x3Plus ((rewriteCentres grid grid).foldl stamp grid) i j = false := by
    intro i j
    by_contra hcon
    have hplus : is3x3Plus ((rewriteCentres grid grid).foldl stamp grid) i j = true := by
      simpa using hcon
    obtain ⟨hi, hrows, hj, hcols⟩ := is3x3Plus_interior _ cols i j hrectR hplus
    rw [hlen] at hrows
    rw [← headD_length_of_rectangular grid cols hne hrect] at hcols
    rw [no_match_after_rewrite grid i j hi hj hrows hcols] at hplus
    cases hplus
  refine ⟨hnone, ?_⟩
  have hcent : ∀ R : Grid, (∀ i j, is3x3Plus R i j = false) → rewriteCentres R R = [] := by
    intro R hR
    rw [rewriteCentres_eq]
    exact List.filter_eq_nil_iff.mpr (fun c _ => by simp [hR c.1 c.2])
  rw [legacyBaseline_true, replacePlusWithCross_eq _ _ hneR, hcent _ hnone]
  rfl

/-- Witness of C26: `overlapGrid`. -/
theorem legacy_rewrite_idempotent_witness :
    ∃ R, replacePlusWithCross overlapGrid (legacyBaseline overlapGrid true) = .ok R ∧
      (∀ i j, is3x3Plus R i j = false) ∧
      replacePlusWithCross R (legacyBaseline R true) = .ok R :=
  legacy_rewrite_idempotent overlapGrid 5 (by decide) (by unfold Rectangular; decide)

/-! ## The scan with its array accesses -/

theorem readCell_eq (grid : Grid) (i j : Nat) (hi : i < grid.length) :
    readCell grid i j = .ok (cell grid i j) := by
  unfold readCell cell
  rw [List.getElem?_eq_getElem hi]
  simp [List.getD_eq_getElem?_getD, List.getElem?_eq_getElem hi]

theorem writeCell_eq (result : Grid) (i j : Nat) (v : Int)
    (h : (cell result i j).isSome = true) :
    writeCell result i j v = .ok (setCell result i j v) := by
  unfold cell at h
  unfold writeCell setCell
  by_cases hi : i < result.length
  · rw [List.getElem?_eq_getElem hi]
    simp only [List.getD_eq_getElem?_getD, List.getElem?_eq_getElem hi, Option.getD_some] at h ⊢
    have hj : j < result[i].length := by
      by_contra hn
      simp [List.getElem?_eq_none (Nat.le_of_not_lt hn)] at h
    simp [hj]
  · simp [List.getD_eq_getElem?_getD, List.getElem?_eq_none (Nat.le_of_not_lt hi)] at h

theorem testPlus_eq (grid : Grid) (ps : List (Coord × Int))
    (hrows : ∀ p ∈ ps, p.1.1 < grid.length) :
    (testPlus grid ps).outcome
        = .ok (ps.all (fun p => cell grid p.1.1 p.1.2 == some p.2)) ∧
      ∀ a ∈ (testPlus grid ps).accesses, ∃ p ∈ ps, a = .read p.1.1 p.1.2 := by
  induction ps with
  | nil => exact ⟨rfl, fun a ha => by simp [testPlus] at ha⟩
  | cons p rest ih =>
    obtain ⟨k, v⟩ := p
    have hk := hrows (k, v) (List.mem_cons_self _ _)
    obtain ⟨ih1, ih2⟩ := ih (fun p hp => hrows p (List.mem_cons_of_mem _ hp))
    simp only [testPlus, readCell_eq grid k.1 k.2 hk]
    by_cases hx : cell grid k.1 k.2 = some v
    · simp only [hx, if_true, ih1, List.all_cons, beq_self_eq_true, Bool.true_and, true_and]
      intro a ha
      rcases List.mem_cons.mp ha with rfl | ha
      · exact ⟨(k, v), List.mem_cons_self _ _, rfl⟩
      · obtain ⟨p, hp, rfl⟩ := ih2 a ha
        exact ⟨p, List.mem_cons_of_mem _ hp, rfl⟩
    · simp only [hx, if_false, List.all_cons]
      refine ⟨?_, ?_⟩
      · have : (cell grid k.1 k.2 == some v) = false := by simpa using hx
        rw [this, Bool.false_and]
      · intro a ha
        rw [List.mem_singleton] at ha
        exact ⟨(k, v), List.mem_cons_self _ _, ha⟩

theorem is3x3Plus_eq_all (grid : Grid) (i j : Nat) :
    is3x3Plus grid i j
      = (plusPattern i j).all (fun p => cell grid p.1.1 p.1.2 == some p.2) := by
  simp only [is3x3Plus, plusPattern, List.all_cons, List.all_nil, Bool.and_true,
    Bool.and_assoc]

theorem writeAll_eq (ws : List (Coord × Int)) (result : Grid)
    (h : ∀ w ∈ ws, (cell result w.1.1 w.1.2).isSome = true) :
    (writeAll result ws).outcome
        = .ok (ws.foldl (fun r w => setCell r w.1.1 w.1.2 w.2) result) ∧
      (writeAll result ws).accesses = ws.map (fun w => .write w.1.1 w.1.2 w.2) := by
  induction ws generalizing result with
  | nil => exact ⟨rfl, rfl⟩
  | cons w rest ih =>
    obtain ⟨k, v⟩ := w
    have hk := h (k, v) (List.mem_cons_self _ _)
    have hrest : ∀ w ∈ rest, (cell (setCell result k.1 k.2 v) w.1.1 w.1.2).isSome = true := by
      intro w hw
      rw [cell_isSome_of_shape _ result _ _ (shape_setCell _ _ _ _)]
      exact h w (List.mem_cons_of_mem _ hw)
    obtain ⟨ih1, ih2⟩ := ih _ hrest
    simp only [writeAll, writeCell_eq result k.1 k.2 v hk, ih1, ih2, List.foldl_cons,
      List.map_cons, and_self]

theorem stamp_eq_writes (result : Grid) (c : Coord) :
    stamp result c = (stampWrites c).foldl (fun r w => setCell r w.1.1 w.1.2 w.2) result := by
  simp only [stamp, drawCross, clearBlock, stampWrites, block, List.map_cons, List.map_nil,
    List.cons_append, List.nil_append, List.foldl_cons, List.foldl_nil]

theorem mem_stampWrites (c : Coord) (w : Coord × Int) (hw : w ∈ stampWrites c) :
    w.1 ∈ block c := by
  simp only [stampWrites, block, List.map_cons, List.map_nil, List.cons_append,
    List.nil_append, List.mem_cons, List.mem_singleton, List.not_mem_nil, or_false] at hw ⊢
  rcases hw with rfl | rfl | rfl | rfl | rfl | rfl | rfl | rfl | rfl | rfl | rfl | rfl |
    rfl | rfl <;> simp

theorem mem_plusPattern (i j : Nat) (p : Coord × Int) (hp : p ∈ plusPattern i j) :
    p.1 ∈ block (i, j) := by
  simp only [plusPattern, block, List.mem_cons, List.mem_singleton, List.not_mem_nil,
    or_false] at hp ⊢
  rcases hp with rfl | rfl | rfl | rfl | rfl | rfl | rfl | rfl | rfl <;> simp

theorem tracedScan_eq_foldl (grid result : Grid) (row0 : List Int) (rest : List (List Int))
    (h : grid = row0 :: rest) :
    replacePlusWithCrossTraced grid result
      = (scanCoords grid.length row0.length).foldl (tracedStep grid)
          { accesses := [], processed := [], outcome := .ok result } := by
  subst h
  unfold replacePlusWithCrossTraced scanCoords
  generalize (TracedScan.mk [] [] (.ok result)) = st
  induction (List.range' 1 ((row0 :: rest).length - 2)) generalizing st with
  | nil => rfl
  | cons i is ih =>
    simp only [List.foldl_cons, List.flatMap_cons, List.foldl_append, List.foldl_map]
    exact ih _

/-- Inside the grid's shape the recorded scan follows the scan of `plusScan`, and all its
accesses lie inside the arrays. -/
theorem foldl_tracedStep (grid : Grid) (cols : Nat) (l : List Coord) (hl : ∀ c ∈ l, c ∈ scanCoords grid.length cols)
    (st : TracedScan) (ps : ScanState)
    (hout : st.outcome = .ok ps.result) (hproc : st.processed = ps.processed)
    (hshape : shape ps.result = shape grid)
    (hacc : ∀ a ∈ st.accesses, ∃ c ∈ scanCoords grid.length cols, ∃ k ∈ block c, ∃ v,
      a = .read k.1 k.2 ∨ a = .write k.1 k.2 v) :
    (l.foldl (tracedStep grid) st).outcome = .ok (l.foldl (scanStep grid) ps).result ∧
    (∀ a ∈ (l.foldl (tracedStep grid) st).accesses,
      ∃ c ∈ scanCoords grid.length cols, ∃ k ∈ block c, ∃ v,
        a = .read k.1 k.2 ∨ a = .write k.1 k.2 v) := by
  induction l generalizing st ps with
  | nil => exact ⟨hout, hacc⟩
  | cons c cs ih =>
    have hc := hl c (List.mem_cons_self _ _)
    have hcs : ∀ c' ∈ cs, c' ∈ scanCoords grid.length cols :=
      fun c' h' => hl c' (List.mem_cons_of_mem _ h')
    rw [List.foldl_cons, List.foldl_cons]
    have hrows : ∀ p ∈ plusPattern c.1 c.2, p.1.1 < grid.length := by
      intro p hp
      exact (block_bounds c p.1 _ _ hc (mem_plusPattern c.1 c.2 p hp)).1
    obtain ⟨ht1, ht2⟩ := testPlus_eq grid (plusPattern c.1 c.2) hrows
    rw [← is3x3Plus_eq_all] at ht1
    have hreads : ∀ a ∈ (testPlus grid (plusPattern c.1 c.2)).accesses,
        ∃ c ∈ scanCoords grid.length cols, ∃ k ∈ block c, ∃ v,
          a = .read k.1 k.2 ∨ a = .write k.1 k.2 v := by
      intro a ha
      obtain ⟨p, hp, rfl⟩ := ht2 a ha
      exact ⟨c, hc, p.1, mem_plusPattern c.1 c.2 p hp, 0, Or.inl rfl⟩
    by_cases hpr : c ∈ st.processed
    · have h1 : tracedStep grid st c = st := by
        unfold tracedStep
        rw [hout]
        simp only [hpr, if_true]
      have h2 : scanStep grid ps c = ps := by
        unfold scanStep
        rw [← hproc]
        simp only [hpr, if_true]
      rw [h1, h2]
      exact ih hcs st ps hout hproc hshape hacc
    · by_cases hm : is3x3Plus grid c.1 c.2 = true
      · have hw : ∀ w ∈ stampWrites c, (cell ps.result w.1.1 w.1.2).isSome = true := by
          intro w hw
          rw [cell_isSome_of_shape _ grid _ _ hshape]
          exact cell_block_isSome grid c w.1 hm (mem_stampWrites c w hw)
        obtain ⟨hw1, hw2⟩ := writeAll_eq (stampWrites c) ps.result hw
        rw [← stamp_eq_writes] at hw1
        have h2 : scanStep grid ps c
            = { result := stamp ps.result c, processed := ps.processed ++ block c,
                rewrites := ps.rewrites ++ [c] } := by
          unfold scanStep
          rw [← hproc]
          simp only [hpr, if_false, hm, if_true]
        have h1 : tracedStep grid st c
            = { accesses := st.accesses ++ (testPlus grid (plusPattern c.1 c.2)).accesses ++
                  (writeAll ps.result (stampWrites c)).accesses,
                processed := st.processed ++ block c,
                outcome := (writeAll ps.result (stampWrites c)).outcome } := by
          unfold tracedStep
          rw [hout]
          simp only [hpr, if_false, ht1, hm]
        rw [h1, h2]
        apply ih hcs
        · exact hw1
        · simp only [hproc]
        · simp only [shape_stamp, hshape]
        · intro a ha
          simp only [List.mem_append] at ha
          rcases ha with (ha | ha) | ha
          · exact hacc a ha
          · exact hreads a ha
          · rw [hw2, List.mem_map] at ha
            obtain ⟨w, hw', rfl⟩ := ha
            exact ⟨c, hc, w.1, mem_stampWrites c w hw', w.2, Or.inr rfl⟩
      · have hm' : is3x3Plus grid c.1 c.2 = false := by simpa using hm
        have h2 : scanStep grid ps c = ps := by
          unfold scanStep
          rw [← hproc]
          simp only [hpr, if_false, hm', Bool.false_eq_true]
        have h1 : tracedStep grid st c
            = { accesses := st.accesses ++ (testPlus grid (plusPattern c.1 c.2)).accesses,
                processed := st.processed, outcome := .ok ps.result } := by
          unfold tracedStep
          rw [hout]
          simp only [hpr, if_false, ht1, hm']
        rw [h1, h2]
        apply ih hcs
        · rfl
        · exact hproc
        · exact hshape
        · intro a ha
          simp only [List.mem_append] at ha
          rcases ha with ha | ha
          · exact hacc a ha
          · exact hreads a ha

/-- For a result grid with the row lengths of the grid, the recorded scan ends as
`replacePlusWithCross` does, and each of its accesses is to a cell of the block around a
scanned coordinate. -/
theorem replacePlusWithCrossTraced_spec (grid result : Grid) (hne : grid ≠ [])
    (hshape : shape result = shape grid) :
    (replacePlusWithCrossTraced grid result).outcome = replacePlusWithCross grid result ∧
    ∀ a ∈ (replacePlusWithCrossTraced grid result).accesses,
      ∃ c ∈ scanCoords grid.length (grid.headD []).length, ∃ k ∈ block c, ∃ v,
        a = .read k.1 k.2 ∨ a = .write k.1 k.2 v := by
  obtain ⟨row0, rest, hgrid⟩ : ∃ row0 rest, grid = row0 :: rest := by
    cases grid with
    | nil => exact absurd rfl hne
    | cons row0 rest => exact ⟨row0, rest, rfl⟩
  have hrow0 : (grid.headD []).length = row0.length := by rw [hgrid]; rfl
  have htr := tracedScan_eq_foldl grid result row0 rest hgrid
  have hplain : replacePlusWithCross grid result
      = .ok ((scanCoords grid.length row0.length).foldl (scanStep grid)
          { result := result, processed := [], rewrites := [] }).result := by
    rw [← plusScan_eq_foldl]
    subst hgrid
    simp only [replacePlusWithCross]
  obtain ⟨h1, h2⟩ := foldl_tracedStep grid row0.length (scanCoords grid.length row0.length)
    (fun c hc => hc) { accesses := [], processed := [], outcome := .ok result }
    { result := result, processed := [], rewrites := [] } rfl rfl hshape
    (fun a ha => by simp at ha)
  rw [← htr] at h1 h2
  rw [hrow0, hplain]
  exact ⟨h1, h2⟩

/-- C27: for a rectangular grid with a row and a result grid of its shape, the scan with
its accesses recorded ends without an exception and returns the grid that
`replacePlusWithCross` returns; every read it makes lies inside the grid and every write
inside the result; on a grid with fewer than 3 rows or fewer than 3 columns it accesses
no cell and returns the result grid unchanged. -/
theorem replacePlusWithCross_safe (grid result : Grid) (cols : Nat) (hne : grid ≠ [])
    (hrect : Rectangular grid cols) (hshape : shape result = shape grid) :
    ∃ out, (replacePlusWithCrossTraced grid result).outcome = .ok out ∧
      replacePlusWithCross grid result = .ok out ∧
      (∀ i j, Access.read i j ∈ (replacePlusWithCrossTraced grid result).accesses →
        i < grid.length ∧ j < cols ∧ (cell grid i j).isSome = true) ∧
      (∀ i j v, Access.write i j v ∈ (replacePlusWithCrossTraced grid result).accesses →
        i < result.length ∧ j < cols ∧ (cell result i j).isSome = true) ∧
      (grid.length < 3 ∨ cols < 3 →
        out = result ∧ (replacePlusWithCrossTraced grid result).accesses = []) := by
  have hcols := headD_length_of_rectangular grid cols hne hrect
  have hlen : result.length = grid.length := by
    simpa [shape] using congrArg List.length hshape
  obtain ⟨h1, h2⟩ := replacePlusWithCrossTraced_spec grid result hne hshape
  rw [hcols] at h2
  have hin : ∀ c ∈ scanCoords grid.length cols, ∀ k ∈ block c,
      k.1 < grid.length ∧ k.2 < cols ∧ (cell grid k.1 k.2).isSome = true := by
    intro c hc k hk
    obtain ⟨hk1, hk2⟩ := block_bounds c k _ _ hc hk
    refine ⟨hk1, hk2, ?_⟩
    rw [cell_isSome_iff_shape, shape_getD_of_rectangular grid cols k.1 hrect hk1]
    exact decide_eq_true hk2
  have hsmall : grid.length < 3 ∨ cols < 3 → scanCoords grid.length cols = [] := by
    intro hs
    apply List.eq_nil_iff_forall_not_mem.mpr
    intro c hc
    rw [mem_scanCoords] at hc
    omega
  refine ⟨_, h1.trans (replacePlusWithCross_eq grid result hne),
    replacePlusWithCross_eq grid result hne, ?_, ?_, ?_⟩
  · intro i j ha
    obtain ⟨c, hc, k, hk, v, hkv | hkv⟩ := h2 _ ha
    · cases hkv
      exact hin c hc k hk
    · cases hkv
  · intro i j v ha
    obtain ⟨c, hc, k, hk, v', hkv | hkv⟩ := h2 _ ha
    · cases hkv
    · cases hkv
      obtain ⟨a1, a2, a3⟩ := hin c hc k hk
      exact ⟨hlen ▸ a1, a2, by rw [cell_isSome_of_shape result grid _ _ hshape]; exact a3⟩
  · intro hs
    refine ⟨?_, ?_⟩
    · rw [rewriteCentres_eq, hcols, hsmall hs]
      rfl
    · apply List.eq_nil_iff_forall_not_mem.mpr
      intro a ha
      obtain ⟨c, hc, -⟩ := h2 a ha
      rw [hsmall hs] at hc
      cases hc

/-- Witness of C27: on `overlapGrid` with the copy baseline the recorded scan returns the
rewritten grid after 47 accesses (9 reads and 14 writes at `(1,1)`, one read at `(1,3)`,
9 reads and 14 writes at `(2,3)`; the three other coordinates are skipped as processed);
a grid of two rows is not accessed, and a result grid with one row raises a `TypeError`. -/
theorem replacePlusWithCross_safe_witness :
    (∃ out, (replacePlusWithCrossTraced overlapGrid (legacyBaseline overlapGrid true)).outcome
        = .ok out ∧
      replacePlusWithCross overlapGrid (legacyBaseline overlapGrid true) = .ok out ∧
      (∀ i j, Access.read i j ∈
          (replacePlusWithCrossTraced overlapGrid (legacyBaseline overlapGrid true)).accesses →
        i < overlapGrid.length ∧ j < 5 ∧ (cell overlapGrid i j).isSome = true) ∧
      (∀ i j v, Access.write i j v ∈
          (replacePlusWithCrossTraced overlapGrid (legacyBaseline overlapGrid true)).accesses →
        i < (legacyBaseline overlapGrid true).length ∧ j < 5 ∧
          (cell (legacyBaseline overlapGrid true) i j).isSome = true) ∧
      (overlapGrid.length < 3 ∨ 5 < 3 →
        out = legacyBaseline overlapGrid true ∧
          (replacePlusWithCrossTraced overlapGrid
            (legacyBaseline overlapGrid true)).accesses = [])) ∧
    (replacePlusWithCrossTraced overlapGrid (legacyBaseline overlapGrid true)).outcome
      = .ok [[0, 2, 0, 1, 1], [2, 2, 0, 2, 0], [0, 2, 2, 2, 2], [1, 1, 0, 2, 0]] ∧
    (replacePlusWithCrossTraced overlapGrid (legacyBaseline overlapGrid true)).accesses.length
      = 47 ∧
    (replacePlusWithCrossTraced [[1, 1], [1, 1]] [[1, 1], [1, 1]]).accesses = [] ∧
    (replacePlusWithCrossTraced overlapGrid [[1, 1, 1, 1, 1]]).outcome = .error "TypeError" :=
  ⟨replacePlusWithCross_safe overlapGrid (legacyBaseline overlapGrid true) 5 (by decide)
    (by unfold Rectangular; decide) (by decide), by decide, by decide, by decide, by decide⟩

/-- C5: for a grid with a row and a result array of its own with the grid's row lengths,
the rewrite is performed at `(i,j)` exactly when `(i,j)` is an interior coordinate whose
cell is 0 and whose 8 neighbours are 1 in the input grid (the skip of processed
coordinates suppresses none of them, and the cells tested are those of the input grid);
the scan raises no exception, the grid returned is the result grid rewritten at these
centres in scan order, and it holds 2 at each of them. -/
theorem rewrite_iff_match_centre (grid result : Grid) (i j : Nat) (hne : grid ≠ [])
    (hshape : shape result = shape grid) :
    ((i, j) ∈ rewriteCentres grid result ↔
      (1 ≤ i ∧ i + 2 ≤ grid.length ∧ 1 ≤ j ∧ j + 2 ≤ (grid.headD []).length) ∧
      cell grid i j = some 0 ∧
      cell grid (i-1) (j-1) = some 1 ∧ cell grid (i-1) j = some 1 ∧
      cell grid (i-1) (j+1) = some 1 ∧
      cell grid i (j-1) = some 1 ∧ cell grid i (j+1) = some 1 ∧
      cell grid (i+1) (j-1) = some 1 ∧ cell grid (i+1) j = some 1 ∧
      cell grid (i+1) (j+1) = some 1) ∧
    ∃ out, (replacePlusWithCrossTraced grid result).outcome = .ok out ∧
      replacePlusWithCross grid result = .ok out ∧
      out = ((scanCoords grid.length (grid.headD []).length).filter
        (fun c => is3x3Plus grid c.1 c.2)).foldl stamp result ∧
      ((i, j) ∈ rewriteCentres grid result → cell out i j = some 2) := by
  refine ⟨by rw [mem_rewriteCentres, is3x3Plus_iff], ?_⟩
  have heq := replacePlusWithCross_eq grid result hne
  refine ⟨_, (replacePlusWithCrossTraced_spec grid result hne hshape).1.trans heq, heq,
    by rw [rewriteCentres_eq], ?_⟩
  intro hc
  have hm := ((mem_rewriteCentres grid result (i, j)).mp hc).2
  obtain ⟨out, hout, hcell⟩ := cell_rewrite_of_isolated grid result (i, j) (i, j) hne hshape hc
    (by simp [block]) (fun c' hc' hne' hmem =>
      hne' (plus_centre_unique grid (i, j) c' hm
        ((mem_rewriteCentres grid result c').mp hc').2 hmem).symm)
  rw [heq] at hout
  cases hout
  rw [hcell]
  simp [crossValue]

/-- Witness of C5: in `overlapGrid` with the copy baseline the rewrite is performed at
`(2,3)`, which holds 2 in the grid returned; it is not performed at `(1,2)`, a cell of
value 1, nor at `(1,1)` of the grid `[[1,1,1],[1,0,1],[1,1,0]]`, whose corner is 0. -/
theorem rewrite_iff_match_centre_witness :
    (((2, 3) ∈ rewriteCentres overlapGrid (legacyBaseline overlapGrid true) ↔
      (1 ≤ 2 ∧ 2 + 2 ≤ overlapGrid.length ∧ 1 ≤ 3 ∧ 3 + 2 ≤ (overlapGrid.headD []).length) ∧
      cell overlapGrid 2 3 = some 0 ∧
      cell overlapGrid (2-1) (3-1) = some 1 ∧ cell overlapGrid (2-1) 3 = some 1 ∧
      cell overlapGrid (2-1) (3+1) = some 1 ∧
      cell overlapGrid 2 (3-1) = some 1 ∧ cell overlapGrid 2 (3+1) = some 1 ∧
      cell overlapGrid (2+1) (3-1) = some 1 ∧ cell overlapGrid (2+1) 3 = some 1 ∧
      cell overlapGrid (2+1) (3+1) = some 1) ∧
    ∃ out,
      (replacePlusWithCrossTraced overlapGrid (legacyBaseline overlapGrid true)).outcome
        = .ok out ∧
      replacePlusWithCross overlapGrid (legacyBaseline overlapGrid true) = .ok out ∧
      out = ((scanCoords overlapGrid.length (overlapGrid.headD []).length).filter
        (fun c => is3x3Plus overlapGrid c.1 c.2)).foldl stamp
          (legacyBaseline overlapGrid true) ∧
      ((2, 3) ∈ rewriteCentres overlapGrid (legacyBaseline overlapGrid true) →
        cell out 2 3 = some 2)) ∧
    rewriteCentres overlapGrid (legacyBaseline overlapGrid true) = [(1, 1), (2, 3)] ∧
    replacePlusWithCross overlapGrid (legacyBaseline overlapGrid true)
      = .ok [[0, 2, 0, 1, 1], [2, 2, 0, 2, 0], [0, 2, 2, 2, 2], [1, 1, 0, 2, 0]] ∧
    rewriteCentres [[1, 1, 1], [1, 0, 1], [1, 1, 0]] [[1, 1, 1], [1, 0, 1], [1, 1, 0]] = [] :=
  ⟨rewrite_iff_match_centre overlapGrid (legacyBaseline overlapGrid true) 2 3 (by decide)
    (by decide), by decide, by decide, by decide⟩

/-! ## The description of spatial configurations -/

theorem truthy_number (v : JsVal) (h : v = .undefined ∨ ∃ n, v = .num n) :
    v.truthy = true ↔ (v ≠ .undefined ∧ v ≠ .num 0) := by
  rcases h with h | ⟨n, h⟩
  · subst h; simp [JsVal.truthy]
  · subst h
    simp [JsVal.truthy]

/-- C28: for a type routed to `recognizeSpatialConfigurations` (named `boundary` or
containing `pattern`), with a target value that is absent or a number and counts that are
absent or truthy, the only recognizer call carries a description whose `columnPattern` is
present exactly for pattern type `column` or `both`, with `minColumns` the column count or
3 when it is absent, whose `rowPattern` is present exactly for `row` or `both`, with
`minRows` the row count or 3 when absent, and whose `rectangularBlock` is present exactly
when the target value is defined and not 0. A type `value` or `connectedRegions` with
target value 0 still has its recognizer called with target 0. -/
theorem spatial_configuration_description (c : Collaborators) (grid : Grid) (params : Params)
    (st : StructureType) (rule : SubstitutionRule) (hcls : Classifies c params st rule)
    (htype : st.type = "boundary" ∨ includes st.type "pattern" = true)
    (htv : st.params.targetValue = .undefined ∨ ∃ n, st.params.targetValue = .num n)
    (hcc : st.params.columnCount = .undefined ∨ st.params.columnCount.truthy = true)
    (hrc : st.params.rowCount = .undefined ∨ st.params.rowCount.truthy = true)
    (c0 : Collaborators) (params0 : Params) (st0 : StructureType) (rule0 : SubstitutionRule)
    (hcls0 : Classifies c0 params0 st0 rule0)
    (htype0 : st0.type = "value" ∨ st0.type = "connectedRegions")
    (htv0 : st0.params.targetValue = .num 0) :
    (∃ configDescription,
      (structureSubstitution c grid params).trace.filter Event.isRecognition
        = [.recognizeSpatialConfigurations grid configDescription] ∧
      configDescription.columnPattern =
        (if st.params.patternType = .str "column" ∨ st.params.patternType = .str "both" then
          some { targetValue := st.params.targetValue,
                 minColumns := if st.params.columnCount = .undefined then .num 3
                   else st.params.columnCount }
        else none) ∧
      configDescription.rowPattern =
        (if st.params.patternType = .str "row" ∨ st.params.patternType = .str "both" then
          some { targetValue := st.params.targetValue,
                 minRows := if st.params.rowCount = .undefined then .num 3
                   else st.params.rowCount }
        else none) ∧
      configDescription.rectangularBlock =
        (if st.params.targetValue ≠ .undefined ∧ st.params.targetValue ≠ .num 0 then
          some st.params.targetValue
        else none)) ∧
    ((∃ condition, (structureSubstitution c0 grid params0).trace.filter Event.isRecognition
        = [.recognizeValueRegions grid (.num 0) condition]) ∨
     (∃ connectivity,
      (structureSubstitution c0 grid params0).trace.filter Event.isRecognition
        = [.recognizeConnectedRegions grid (.num 0) connectivity])) := by
  constructor
  · refine ⟨buildConfigDescription st.params, ?_, ?_, ?_, ?_⟩
    · rw [recognition_calls c grid params st rule hcls, recognize_spatial c grid st htype]
    · simp only [buildConfigDescription, orElse_default _ _ hcc]
    · simp only [buildConfigDescription, orElse_default _ _ hrc]
    · simp only [buildConfigDescription]
      by_cases ht : st.params.targetValue.truthy = true
      · rw [if_pos ht, if_pos ((truthy_number _ htv).mp ht)]
      · rw [if_neg ht, if_neg (fun h => ht ((truthy_number _ htv).mpr h))]
  · rw [recognition_calls c0 grid params0 st0 rule0 hcls0]
    have hdef : st0.params.targetValue ≠ .undefined := by rw [htv0]; decide
    by_cases hval : st0.type = "value" ∨ st0.type = "valueWithAdjacency" ∨
        (st0.type = "connectedRegions" ∧
          (st0.params.adjacentTo.truthy = true ∨ st0.params.pathToLandmarks.truthy = true))
    · left
      rw [recognize_value c0 grid st0 hval hdef, htv0]
      exact ⟨_, rfl⟩
    · right
      have hconn : st0.type = "connectedRegions" := by
        rcases htype0 with h | h
        · exact absurd (Or.inl h) hval
        · exact h
      have hnone : st0.params.adjacentTo.truthy = false ∧
          st0.params.pathToLandmarks.truthy = false := by
        constructor
        · by_contra h
          exact hval (Or.inr (Or.inr ⟨hconn, Or.inl (by simpa using h)⟩))
        · by_contra h
          exact hval (Or.inr (Or.inr ⟨hconn, Or.inr (by simpa using h)⟩))
      rw [recognize_connected c0 grid st0 hconn hnone hdef, htv0]
      exact ⟨_, rfl⟩

/-- Witness of C28: the type `pattern` with target value 0, pattern type `both` and column
count 5, and the type `connectedRegions` with target value 0. -/
theorem spatial_configuration_description_witness :
    (∃ configDescription,
      (structureSubstitution (stubCollaborators bothPatternType (some [])) overlapGrid
          plainParams).trace.filter Event.isRecognition
        = [.recognizeSpatialConfigurations overlapGrid configDescription] ∧
      configDescription.columnPattern = some { targetValue := .num 0, minColumns := .num 5 } ∧
      configDescription.rowPattern = some { targetValue := .num 0, minRows := .num 3 } ∧
      configDescription.rectangularBlock = none) ∧
    ((∃ condition,
      (structureSubstitution (stubCollaborators regionType (some [])) overlapGrid
          plainParams).trace.filter Event.isRecognition
        = [.recognizeValueRegions overlapGrid (.num 0) condition]) ∨
     (∃ connectivity,
      (structureSubstitution (stubCollaborators regionType (some [])) overlapGrid
          plainParams).trace.filter Event.isRecognition
        = [.recognizeConnectedRegions overlapGrid (.num 0) connectivity])) :=
  spatial_configuration_description (stubCollaborators bothPatternType (some [])) overlapGrid
    plainParams bothPatternType stubRule ⟨rfl, rfl, rfl, none, by decide⟩
    (Or.inr (by decide)) (Or.inr ⟨0, rfl⟩) (Or.inr (by decide)) (Or.inl rfl)
    (stubCollaborators regionType (some [])) plainParams regionType stubRule
    ⟨rfl, rfl, rfl, none, by decide⟩ (Or.inr rfl) rfl

end ConstraintResolution

namespace StructureRecognition

open ConstraintResolution

/-! ## Lemmas on the flood-fill -/

theorem mem_targetCells (grid : Grid) (v : Int) (x y : Nat) :
    (x, y) ∈ targetCells grid (.num v) ↔ cell grid x y = some v := by
  simp only [targetCells, List.mem_flatMap, List.mem_map, List.mem_filter, List.mem_range,
    Prod.mk.injEq, cellIs, beq_iff_eq]
  constructor
  · rintro ⟨i, _, j, ⟨_, h⟩, rfl, rfl⟩
    exact h
  · intro h
    have h' := h
    unfold cell at h'
    have hy : y < (grid.getD x []).length := by
      by_contra hn
      rw [List.get?_eq_getElem?, List.getElem?_eq_none (Nat.le_of_not_lt hn)] at h'
      cases h'
    have hx : x < grid.length := by
      by_contra hn
      rw [List.getD_eq_getElem?_getD, List.getElem?_eq_none (Nat.le_of_not_lt hn)] at hy
      simp at hy
    exact ⟨x, hx, y, ⟨hy, h⟩, rfl, rfl⟩

theorem targetCells_pairwise (grid : Grid) (targetValue : JsVal) :
    (targetCells grid targetValue).Pairwise rowMajorLt := by
  unfold targetCells
  rw [List.pairwise_flatMap]
  constructor
  · intro i _
    rw [List.pairwise_map]
    exact ((List.pairwise_lt_range _).filter _).imp (fun h => Or.inr ⟨rfl, h⟩)
  · refine (List.pairwise_lt_range _).imp ?_
    intro a b hab x hx y hy
    simp only [List.mem_map] at hx hy
    obtain ⟨_, _, rfl⟩ := hx
    obtain ⟨_, _, rfl⟩ := hy
    exact Or.inl hab

theorem rowMajorLt_irrefl (a : Coord) : ¬ rowMajorLt a a := by
  unfold rowMajorLt; omega

theorem rowMajorLt_asymm (a b : Coord) (h : rowMajorLt a b) : ¬ rowMajorLt b a := by
  unfold rowMajorLt at *; omega

theorem targetCells_nodup (grid : Grid) (targetValue : JsVal) :
    (targetCells grid targetValue).Nodup := by
  unfold List.Nodup
  refine (targetCells_pairwise grid targetValue).imp ?_
  intro a b h heq
  subst heq
  exact rowMajorLt_irrefl a h

/-- A grid whose cells of value `v` are exactly `a` and `b`, with `a` first in row-major
order, has the target cells `[a, b]`. -/
theorem targetCells_eq_pair (grid : Grid) (v : Int) (a b : Coord) (hab : rowMajorLt a b)
    (h : ∀ x y, cell grid x y = some v ↔ (x, y) = a ∨ (x, y) = b) :
    targetCells grid (.num v) = [a, b] := by
  haveI : IsAntisymm Coord rowMajorLt :=
    ⟨fun x y h1 h2 => absurd h2 (rowMajorLt_asymm x y h1)⟩
  have hne : a ≠ b := fun heq => rowMajorLt_irrefl b (heq ▸ hab)
  apply List.eq_of_perm_of_sorted (r := rowMajorLt) _ (targetCells_pairwise grid (.num v))
  · simp [List.Sorted, hab]
  · rw [List.perm_ext_iff_of_nodup (targetCells_nodup grid (.num v)) (by simp [hne])]
    rintro ⟨x, y⟩
    rw [mem_targetCells, h]
    simp

theorem flood_subset (connectivity : JsVal) (fuel : Nat) (region pool : List Coord) :
    ∀ c ∈ flood connectivity fuel region pool, c ∈ region ∨ c ∈ pool := by
  induction fuel generalizing region pool with
  | zero => intro c hc; exact Or.inl hc
  | succ n ih =>
    intro c hc
    simp only [flood] at hc
    split_ifs at hc
    · exact Or.inl hc
    · rcases ih _ _ c hc with h | h
      · rcases List.mem_append.mp h with h | h
        · exact Or.inl h
        · exact Or.inr (List.mem_filter.mp h).1
      · exact Or.inr (List.mem_filter.mp h).1

theorem regionsFrom_subset (connectivity : JsVal) (fuel : Nat) (cells : List Coord) :
    ∀ region ∈ regionsFrom connectivity fuel cells, ∀ c ∈ region, c ∈ cells := by
  induction fuel generalizing cells with
  | zero => intro region h; simp [regionsFrom] at h
  | succ n ih =>
    cases cells with
    | nil => intro region h; simp [regionsFrom] at h
    | cons seed rest =>
      intro region h c hc
      simp only [regionsFrom, List.mem_cons] at h
      rcases h with rfl | h
      · rcases flood_subset _ _ _ _ c hc with h | h
        · exact List.mem_cons.mpr (Or.inl (List.mem_singleton.mp h))
        · exact List.mem_cons_of_mem _ h
      · exact List.mem_cons_of_mem _ (List.mem_filter.mp (ih _ region h c hc)).1

theorem regionsFrom_pairwise (connectivity : JsVal) (fuel : Nat) (cells : List Coord) :
    (regionsFrom connectivity fuel cells).Pairwise (fun r s => ∀ c ∈ r, c ∉ s) := by
  induction fuel generalizing cells with
  | zero => simp [regionsFrom]
  | succ n ih =>
    cases cells with
    | nil => simp [regionsFrom]
    | cons seed rest =>
      simp only [regionsFrom, List.pairwise_cons]
      refine ⟨?_, ih _⟩
      intro s hs c hc hcs
      have := (List.mem_filter.mp (regionsFrom_subset _ _ _ s hs c hcs)).2
      simp [hc] at this

theorem flood_superset (connectivity : JsVal) (fuel : Nat) (region pool : List Coord) :
    ∀ c ∈ region, c ∈ flood connectivity fuel region pool := by
  induction fuel generalizing region pool with
  | zero => intro c hc; exact hc
  | succ n ih =>
    intro c hc
    simp only [flood]
    split_ifs
    · exact hc
    · exact ih _ _ c (List.mem_append_left _ hc)

/-- With one round per pool cell the flood-fill is complete: a pool cell left outside the
filled region is adjacent to none of its cells. -/
theorem flood_closed (connectivity : JsVal) (fuel : Nat) (region pool : List Coord)
    (hfuel : pool.length ≤ fuel) :
    ∀ c ∈ pool, c ∉ flood connectivity fuel region pool →
      ∀ r ∈ flood connectivity fuel region pool, adjacent connectivity r c = false := by
  induction fuel generalizing region pool with
  | zero =>
    intro c hc
    have : pool = [] := List.length_eq_zero.mp (Nat.le_zero.mp hfuel)
    rw [this] at hc
    cases hc
  | succ n ih =>
    intro c hc hnot r hr
    simp only [flood] at hnot hr
    split_ifs at hnot hr with hempty
    · have : c ∉ pool.filter (fun c => region.any (fun r => adjacent connectivity r c)) := by
        rw [List.isEmpty_iff.mp hempty]; simp
      rw [List.mem_filter, not_and] at this
      have := this hc
      simp only [List.any_eq_true, not_exists, not_and, Bool.not_eq_true] at this
      exact this r hr
    · have hcr : c ∉ region ++ pool.filter
          (fun c => region.any (fun r => adjacent connectivity r c)) :=
        fun h => hnot (flood_superset _ _ _ _ c h)
      have hc' : c ∈ pool.filter
          (fun c => !(region.any (fun r => adjacent connectivity r c))) := by
        rw [List.mem_filter]
        refine ⟨hc, ?_⟩
        by_contra hadj
        apply hcr
        apply List.mem_append_right
        rw [List.mem_filter]
        exact ⟨hc, by simpa using hadj⟩
      have hlen : (pool.filter
          (fun c => !(region.any (fun r => adjacent connectivity r c)))).length ≤ n := by
        obtain ⟨d, hd⟩ := List.exists_mem_of_ne_nil
          (pool.filter (fun c => region.any (fun r => adjacent connectivity r c)))
          (fun h => hempty (by rw [h]; rfl))
        have hd' := List.mem_filter.mp hd
        have hlt : (pool.filter
            (fun c => !(region.any (fun r => adjacent connectivity r c)))).length
            < pool.length := by
          apply List.length_filter_lt_length_iff_exists.mpr
          exact ⟨d, hd'.1, by simpa using hd'.2⟩
        omega
      exact ih _ _ hlen c hc' hnot r hr

/-- With one round per cell every cell lies in a component. -/
theorem regionsFrom_covers (connectivity : JsVal) (fuel : Nat) (cells : List Coord)
    (hfuel : cells.length ≤ fuel) :
    ∀ c ∈ cells, ∃ region ∈ regionsFrom connectivity fuel cells, c ∈ region := by
  induction fuel generalizing cells with
  | zero =>
    intro c hc
    have : cells = [] := List.length_eq_zero.mp (Nat.le_zero.mp hfuel)
    rw [this] at hc
    cases hc
  | succ n ih =>
    cases cells with
    | nil => intro c hc; cases hc
    | cons seed rest =>
      intro c hc
      simp only [regionsFrom, List.mem_cons, exists_eq_or_imp]
      by_cases hin : c ∈ flood connectivity rest.length [seed] rest
      · exact Or.inl hin
      · right
        have hrest : c ∈ rest := by
          rcases List.mem_cons.mp hc with rfl | h
          · exact absurd (flood_superset _ _ _ _ c (List.mem_singleton_self c)) hin
          · exact h
        apply ih
        · have := List.length_filter_le
            (fun c => !((flood connectivity rest.length [seed] rest).contains c)) rest
          simp only [List.length_cons] at hfuel
          omega
        · rw [List.mem_filter]
          exact ⟨hrest, by simpa using hin⟩

/-- Every cell equal to the target value lies in an instance of the flood-fill. -/
theorem recognizeConnectedRegions_covers (grid : Grid) (v : Int) (connectivity : JsVal)
    (x y : Nat) (h : cell grid x y = some v) :
    ∃ r ∈ recognizeConnectedRegions grid (.num v) connectivity, (x, y) ∈ r.coordinates := by
  obtain ⟨region, hr, hc⟩ := regionsFrom_covers connectivity _ _ (Nat.le_refl _) (x, y)
    ((mem_targetCells grid v x y).mpr h)
  exact ⟨{ coordinates := region }, List.mem_map.mpr ⟨region, hr, rfl⟩, hc⟩

/-! ## Properties of the recognizers -/

theorem pairwise_disjoint_getElem (l : List RecognizedStructure)
    (h : l.Pairwise (fun r s => ∀ k ∈ r.coordinates, k ∉ s.coordinates))
    (a b : Nat) (r s : RecognizedStructure) (ha : l[a]? = some r) (hb : l[b]? = some s)
    (hab : a ≠ b) : ∀ k ∈ r.coordinates, k ∉ s.coordinates := by
  rw [List.pairwise_iff_getElem] at h
  obtain ⟨ha', rfl⟩ := List.getElem?_eq_some.mp ha
  obtain ⟨hb', rfl⟩ := List.getElem?_eq_some.mp hb
  rcases Nat.lt_or_gt_of_ne hab with hlt | hgt
  · exact h a b ha' hb' hlt
  · intro k hk hk'
    exact h b a hb' ha' hgt k hk' hk

theorem recognizeConnectedRegions_pairwise (grid : Grid) (targetValue connectivity : JsVal) :
    (recognizeConnectedRegions grid targetValue connectivity).Pairwise
      (fun r s => ∀ k ∈ r.coordinates, k ∉ s.coordinates) := by
  unfold recognizeConnectedRegions connectedComponents
  rw [List.pairwise_map]
  exact regionsFrom_pairwise _ _ _

theorem recognizeValueRegions_pairwise (satisfies : Grid → Condition → List Coord → Bool)
    (grid : Grid) (targetValue : JsVal) (condition : Condition) :
    (recognizeValueRegions satisfies grid targetValue condition).Pairwise
      (fun r s => ∀ k ∈ r.coordinates, k ∉ s.coordinates) := by
  unfold recognizeValueRegions
  dsimp only
  rw [List.pairwise_map]
  apply List.Pairwise.filter
  split_ifs
  · exact regionsFrom_pairwise _ _ _
  · rw [List.pairwise_map]
    refine (targetCells_nodup grid targetValue).imp ?_
    intro a b hab k hk hk'
    simp only [List.mem_singleton] at hk hk'
    exact hab (hk.symm.trans hk')

/-- C17: in a grid whose cells of value `v` are exactly two diagonally touching cells
(on a diagonal or an anti-diagonal), `recognizeConnectedRegions` returns the two cells as
two instances with 4-connectivity and as one instance with 8-connectivity. -/
theorem diagonal_cells_connectivity (grid : Grid) (v : Int) (i j : Nat) :
    ((∀ x y, cell grid x y = some v ↔ (x, y) = (i, j) ∨ (x, y) = (i + 1, j + 1)) →
      recognizeConnectedRegions grid (.num v) (.num 4)
        = [{ coordinates := [(i, j)] }, { coordinates := [(i + 1, j + 1)] }] ∧
      recognizeConnectedRegions grid (.num v) (.num 8)
        = [{ coordinates := [(i, j), (i + 1, j + 1)] }]) ∧
    ((∀ x y, cell grid x y = some v ↔ (x, y) = (i, j + 1) ∨ (x, y) = (i + 1, j)) →
      recognizeConnectedRegions grid (.num v) (.num 4)
        = [{ coordinates := [(i, j + 1)] }, { coordinates := [(i + 1, j)] }] ∧
      recognizeConnectedRegions grid (.num v) (.num 8)
        = [{ coordinates := [(i, j + 1), (i + 1, j)] }]) := by
  constructor
  · intro h
    have ht := targetCells_eq_pair grid v (i, j) (i + 1, j + 1) (Or.inl (by simp)) h
    constructor
    · simp [recognizeConnectedRegions, connectedComponents, regionsFrom, flood, adjacent, ht]
    · simp [recognizeConnectedRegions, connectedComponents, regionsFrom, flood, adjacent, ht]
  · intro h
    have ht := targetCells_eq_pair grid v (i, j + 1) (i + 1, j) (Or.inl (by simp)) h
    constructor
    · simp [recognizeConnectedRegions, connectedComponents, regionsFrom, flood, adjacent, ht]
    · simp [recognizeConnectedRegions, connectedComponents, regionsFrom, flood, adjacent, ht]

/-- Witness of C17: the grid `[[5, 0], [0, 5]]`. -/
theorem diagonal_cells_connectivity_witness :
    recognizeConnectedRegions [[5, 0], [0, 5]] (.num 5) (.num 4)
      = [{ coordinates := [(0, 0)] }, { coordinates := [(0 + 1, 0 + 1)] }] ∧
    recognizeConnectedRegions [[5, 0], [0, 5]] (.num 5) (.num 8)
      = [{ coordinates := [(0, 0), (0 + 1, 0 + 1)] }] :=
  (diagonal_cells_connectivity [[5, 0], [0, 5]] 5 0 0).1 (by
    intro x y
    rcases x with _ | _ | x <;> rcases y with _ | _ | y <;> simp [cell])

/-- C18: two instances at different positions of the sequence returned by one call of
`recognizeConnectedRegions` or of `recognizeValueRegions` share no coordinate. -/
theorem recognized_instances_disjoint :
    (∀ (grid : Grid) (targetValue connectivity : JsVal) (a b : Nat)
      (r s : RecognizedStructure),
      (recognizeConnectedRegions grid targetValue connectivity)[a]? = some r →
      (recognizeConnectedRegions grid targetValue connectivity)[b]? = some s →
      a ≠ b → ∀ k ∈ r.coordinates, k ∉ s.coordinates) ∧
    (∀ (satisfies : Grid → Condition → List Coord → Bool) (grid : Grid)
      (targetValue : JsVal) (condition : Condition) (a b : Nat)
      (r s : RecognizedStructure),
      (recognizeValueRegions satisfies grid targetValue condition)[a]? = some r →
      (recognizeValueRegions satisfies grid targetValue condition)[b]? = some s →
      a ≠ b → ∀ k ∈ r.coordinates, k ∉ s.coordinates) :=
  ⟨fun grid targetValue connectivity a b r s ha hb hab =>
      pairwise_disjoint_getElem _
        (recognizeConnectedRegions_pairwise grid targetValue connectivity) a b r s ha hb hab,
    fun satisfies grid targetValue condition a b r s ha hb hab =>
      pairwise_disjoint_getElem _
        (recognizeValueRegions_pairwise satisfies grid targetValue condition)
        a b r s ha hb hab⟩

/-- Witness of C18: the first two regions of value 5 in a 3x3 grid, 4-connectivity. -/
theorem recognized_instances_disjoint_witness :
    (recognizeConnectedRegions [[0, 5, 0], [5, 0, 0], [5, 5, 5]] (.num 5) (.num 4))[0]?
      = some { coordinates := [(0, 1)] } ∧
    (recognizeConnectedRegions [[0, 5, 0], [5, 0, 0], [5, 5, 5]] (.num 5) (.num 4))[1]?
      = some { coordinates := [(1, 0), (2, 0), (2, 1), (2, 2)] } ∧
    ∀ k ∈ [((0, 1) : Coord)], k ∉ [((1, 0) : Coord), (2, 0), (2, 1), (2, 2)] :=
  ⟨by decide, by decide,
    recognized_instances_disjoint.1 [[0, 5, 0], [5, 0, 0], [5, 5, 5]] (.num 5) (.num 4) 0 1
      { coordinates := [(0, 1)] } { coordinates := [(1, 0), (2, 0), (2, 1), (2, 2)] }
      (by decide) (by decide) (by decide)⟩

end StructureRecognition

namespace IdentityEvolution

/-! ## Lemmas on the size limit -/

theorem sortDescending_perm {α : Type} (key : α → Rat) (l : List α) :
    (sortDescending key l).Perm l :=
  List.perm_insertionSort _ l

theorem sortDescending_sorted {α : Type} (key : α → Rat) (l : List α) :
    (sortDescending key l).Pairwise (fun a b => key b ≤ key a) := by
  haveI : IsTotal α (fun a b => key b ≤ key a) := ⟨fun a b => le_total (key b) (key a)⟩
  haveI : IsTrans α (fun a b => key b ≤ key a) := ⟨fun a b c h1 h2 => le_trans h2 h1⟩
  exact List.sorted_insertionSort (fun a b => key b ≤ key a) l

theorem orderedInsert_append_lowest {α : Type} (key : α → Rat) (a new : α) (l : List α)
    (h : key new ≤ key a) :
    List.orderedInsert (fun a b => key b ≤ key a) a (l ++ [new])
      = List.orderedInsert (fun a b => key b ≤ key a) a l ++ [new] := by
  induction l with
  | nil => simp [List.orderedInsert, h]
  | cons b l ih =>
    simp only [List.cons_append, List.orderedInsert, List.append_eq]
    split_ifs
    · rfl
    · rw [ih]; rfl

/-- Sorting a list whose last entry has the lowest key leaves that entry last. -/
theorem sortDescending_append_lowest {α : Type} (key : α → Rat) (new : α) (l : List α)
    (h : ∀ a ∈ l, key new ≤ key a) :
    sortDescending key (l ++ [new]) = sortDescending key l ++ [new] := by
  induction l with
  | nil => rfl
  | cons a l ih =>
    simp only [sortDescending, List.cons_append, List.insertionSort, List.append_eq] at ih ⊢
    rw [ih (fun b hb => h b (List.mem_cons_of_mem _ hb)),
      orderedInsert_append_lowest key a new _ (h a (List.mem_cons_self _ _))]

theorem keepHighest_length {α : Type} (key : α → Rat) (limit : Nat) (l : List α) :
    (keepHighest key limit l).length = min l.length limit := by
  unfold keepHighest
  split_ifs with h
  · rw [List.length_take, (sortDescending_perm key l).length_eq, Nat.min_comm]
  · omega

/-- The entries kept and the entries dropped by the size limit. -/
theorem keepHighest_spec {α : Type} (key : α → Rat) (limit : Nat) (l : List α)
    (h : limit < l.length) :
    ∃ dropped, (keepHighest key limit l ++ dropped).Perm l ∧
      (keepHighest key limit l).length = limit ∧
      ∀ k ∈ keepHighest key limit l, ∀ d ∈ dropped, key d ≤ key k := by
  refine ⟨(sortDescending key l).drop limit, ?_, ?_, ?_⟩
  · simp only [keepHighest, h, gt_iff_lt, if_true, List.take_append_drop]
    exact sortDescending_perm key l
  · rw [keepHighest_length]; omega
  · have hs := sortDescending_sorted key l
    rw [← List.take_append_drop limit (sortDescending key l), List.pairwise_append] at hs
    simp only [keepHighest, h, gt_iff_lt, if_true]
    exact hs.2.2

theorem keepHighest_append_lowest {α : Type} (key : α → Rat) (limit : Nat) (new : α)
    (l : List α) (hlim : limit < (l ++ [new]).length) (h : ∀ a ∈ l, key new ≤ key a) :
    keepHighest key limit (l ++ [new]) = (sortDescending key l).take limit := by
  simp only [keepHighest, hlim, gt_iff_lt, if_true]
  rw [sortDescending_append_lowest key new l h, List.take_append_of_le_length]
  rw [(sortDescending_perm key l).length_eq]
  simp only [List.length_append, List.length_singleton] at hlim
  omega

theorem take_sortDescending_subperm {α : Type} (key : α → Rat) (limit : Nat) (l : List α) :
    ((sortDescending key l).take limit).Subperm l :=
  ((List.take_sublist _ _).subperm).trans (sortDescending_perm key l).subperm

/-! ## Properties of the identity store -/

/-- C19: the default write threshold is 0.7; `addGrowthVector` changes nothing when the
instance is not initialized or the score is below the write threshold; when initialized
with a score at or above the threshold, the new vector with that text and score is
appended and the size limit is applied to the list so extended, the other fields staying
as they were. -/
theorem write_threshold (self : State) (insightText : String) (score : Rat)
    (context id timestamp : String) :
    ({} : Constraints).writeThreshold = 7 / 10 ∧
    (self.isInitialized = false ∨ score < self.constraints.writeThreshold →
      addGrowthVector self insightText score context id timestamp = self) ∧
    (self.isInitialized = true → self.constraints.writeThreshold ≤ score →
      (addGrowthVector self insightText score context id timestamp).writableIdentity.growthVectors
        = keepHighest GrowthVector.score self.constraints.maxGrowthVectors
            (self.writableIdentity.growthVectors ++
              [{ id := id, text := insightText, score := score, context := context,
                 timestamp := timestamp, resolved := false }]) ∧
      (self.writableIdentity.growthVectors.length < self.constraints.maxGrowthVectors →
        (addGrowthVector self insightText score context id
            timestamp).writableIdentity.growthVectors
          = self.writableIdentity.growthVectors ++
              [{ id := id, text := insightText, score := score, context := context,
                 timestamp := timestamp, resolved := false }]) ∧
      (addGrowthVector self insightText score context id timestamp).writableIdentity.tensions
        = self.writableIdentity.tensions ∧
      (addGrowthVector self insightText score context id
          timestamp).writableIdentity.adaptations
        = self.writableIdentity.adaptations ∧
      (addGrowthVector self insightText score context id timestamp).writableIdentity.checksums
        = self.writableIdentity.checksums) := by
  refine ⟨rfl, ?_, ?_⟩
  · rintro (h | h)
    · simp [addGrowthVector, h]
    · simp [addGrowthVector, h]
  · intro hinit hscore
    have hnot : ¬ score < self.constraints.writeThreshold := not_lt.mpr hscore
    refine ⟨?_, ?_, ?_, ?_, ?_⟩
    · simp [addGrowthVector, hinit, hnot]
    · intro hlen
      simp only [addGrowthVector, hinit, hnot, Bool.true_eq_false, if_false, keepHighest]
      rw [if_neg]
      simp only [List.length_append, List.length_singleton]
      omega
    · simp [addGrowthVector, hinit, hnot]
    · simp [addGrowthVector, hinit, hnot]
    · simp [addGrowthVector, hinit, hnot]

/-- Witness of C19: a score of 0.9 on an initialized instance. -/
theorem write_threshold_witness :
    (addGrowthVector fullState "insight" (9 / 10) "" "g3" "2").writableIdentity.growthVectors
      = keepHighest GrowthVector.score fullState.constraints.maxGrowthVectors
          (fullState.writableIdentity.growthVectors ++
            [{ id := "g3", text := "insight", score := 9 / 10, context := "",
               timestamp := "2", resolved := false }]) :=
  ((write_threshold fullState "insight" (9 / 10) "" "g3" "2").2.2 rfl
    (by norm_num [fullState])).1

/-- C20: after a call of `addTension` (of `addGrowthVector`) that adds an entry the list
is no longer than `maxTensions` (`maxGrowthVectors`); when the extended list exceeds the
limit, exactly `limit` of its entries are kept, each of severity (score) at least that of
every entry dropped; and when the new entry has the lowest severity (score) of the list
the entries kept are all old ones. -/
theorem size_limits (self : State) :
    (∀ (tensionType description : String) (severity : Option Rat) (id timestamp : String),
      self.isInitialized = true →
      (addTension self tensionType description severity id
          timestamp).writableIdentity.tensions.length ≤ self.constraints.maxTensions ∧
      (self.constraints.maxTensions < self.writableIdentity.tensions.length + 1 →
        (addTension self tensionType description severity id
            timestamp).writableIdentity.tensions.length = self.constraints.maxTensions ∧
        (∃ dropped,
          ((addTension self tensionType description severity id
              timestamp).writableIdentity.tensions ++ dropped).Perm
            (self.writableIdentity.tensions ++
              [{ id := id, type := tensionType, description := description,
                 severity := severity.getD (1 / 2), timestamp := timestamp,
                 resolved := false }]) ∧
          ∀ k ∈ (addTension self tensionType description severity id
              timestamp).writableIdentity.tensions,
            ∀ d ∈ dropped, d.severity ≤ k.severity) ∧
        ((∀ t ∈ self.writableIdentity.tensions, severity.getD (1 / 2) ≤ t.severity) →
          ((addTension self tensionType description severity id
              timestamp).writableIdentity.tensions).Subperm
            self.writableIdentity.tensions))) ∧
    (∀ (insightText : String) (score : Rat) (context id timestamp : String),
      self.isInitialized = true → self.constraints.writeThreshold ≤ score →
      (addGrowthVector self insightText score context id
          timestamp).writableIdentity.growthVectors.length
        ≤ self.constraints.maxGrowthVectors ∧
      (self.constraints.maxGrowthVectors < self.writableIdentity.growthVectors.length + 1 →
        (addGrowthVector self insightText score context id
            timestamp).writableIdentity.growthVectors.length
          = self.constraints.maxGrowthVectors ∧
        (∃ dropped,
          ((addGrowthVector self insightText score context id
              timestamp).writableIdentity.growthVectors ++ dropped).Perm
            (self.writableIdentity.growthVectors ++
              [{ id := id, text := insightText, score := score, context := context,
                 timestamp := timestamp, resolved := false }]) ∧
          ∀ k ∈ (addGrowthVector self insightText score context id
              timestamp).writableIdentity.growthVectors,
            ∀ d ∈ dropped, d.score ≤ k.score) ∧
        ((∀ g ∈ self.writableIdentity.growthVectors, score ≤ g.score) →
          ((addGrowthVector self insightText score context id
              timestamp).writableIdentity.growthVectors).Subperm
            self.writableIdentity.growthVectors))) := by
  constructor
  · intro tensionType description severity id timestamp hinit
    have hout : (addTension self tensionType description severity id
        timestamp).writableIdentity.tensions
        = keepHighest Tension.severity self.constraints.maxTensions
            (self.writableIdentity.tensions ++
              [{ id := id, type := tensionType, description := description,
                 severity := severity.getD (1 / 2), timestamp := timestamp,
                 resolved := false }]) := by
      simp [addTension, hinit]
    rw [hout]
    refine ⟨?_, fun hlim => ?_⟩
    · rw [keepHighest_length]; exact Nat.min_le_right _ _
    · have hlim' : ∀ new : Tension, self.constraints.maxTensions
          < (self.writableIdentity.tensions ++ [new]).length :=
        fun new => by simpa using hlim
      obtain ⟨dropped, hperm, hlen, hord⟩ := keepHighest_spec Tension.severity _ _
        (hlim' { id := id, type := tensionType, description := description,
                 severity := severity.getD (1 / 2), timestamp := timestamp,
                 resolved := false })
      refine ⟨hlen, ⟨dropped, hperm, hord⟩, fun hlow => ?_⟩
      rw [keepHighest_append_lowest Tension.severity _ _ _ (hlim' _) hlow]
      exact take_sortDescending_subperm _ _ _
  · intro insightText score context id timestamp hinit hscore
    have hnot : ¬ score < self.constraints.writeThreshold := not_lt.mpr hscore
    have hout : (addGrowthVector self insightText score context id
        timestamp).writableIdentity.growthVectors
        = keepHighest GrowthVector.score self.constraints.maxGrowthVectors
            (self.writableIdentity.growthVectors ++
              [{ id := id, text := insightText, score := score, context := context,
                 timestamp := timestamp, resolved := false }]) := by
      simp [addGrowthVector, hinit, hnot]
    rw [hout]
    refine ⟨?_, fun hlim => ?_⟩
    · rw [keepHighest_length]; exact Nat.min_le_right _ _
    · have hlim' : ∀ new : GrowthVector, self.constraints.maxGrowthVectors
          < (self.writableIdentity.growthVectors ++ [new]).length :=
        fun new => by simpa using hlim
      obtain ⟨dropped, hperm, hlen, hord⟩ := keepHighest_spec GrowthVector.score _ _
        (hlim' { id := id, text := insightText, score := score, context := context,
                 timestamp := timestamp, resolved := false })
      refine ⟨hlen, ⟨dropped, hperm, hord⟩, fun hlow => ?_⟩
      rw [keepHighest_append_lowest GrowthVector.score _ _ _ (hlim' _) hlow]
      exact take_sortDescending_subperm _ _ _

/-- Witness of C20: a third tension of the default severity 0.5 on a full instance of
limit 2 is not kept. -/
theorem size_limits_witness :
    (addTension fullState "principle_drift" "third" none "t3"
        "2").writableIdentity.tensions.length ≤ fullState.constraints.maxTensions ∧
    ((addTension fullState "principle_drift" "third" none "t3"
        "2").writableIdentity.tensions).Subperm fullState.writableIdentity.tensions :=
  ⟨((size_limits fullState).1 "principle_drift" "third" none "t3" "2" rfl).1,
    (((size_limits fullState).1 "principle_drift" "third" none "t3" "2" rfl).2
      (by decide)).2.2 (by
        intro t ht
        simp only [fullState, List.mem_cons, List.mem_singleton, List.not_mem_nil,
          or_false] at ht
        rcases ht with rfl | rfl <;> norm_num)⟩


/-! ## The drift check -/

theorem driftScore_gt_iff (message response : String) :
    driftScore message response > 3 / 10 ↔
      (wordContradiction message response = true ∨
        (courageContradiction message response = true ∧
          brandContradiction message response = true)) := by
  unfold driftScore
  cases courageContradiction message response <;> cases wordContradiction message response <;>
    cases brandContradiction message response <;> norm_num

theorem checkDrift_of_drift (self : State) (message response id timestamp : String)
    (saveIdentity : Except String Unit) (hinit : self.isInitialized = true)
    (h : driftScore message response > self.constraints.maxDrift) :
    (checkDrift self message response id timestamp saveIdentity).2 =
      addTension self "principle_drift" (driftDescription response)
        (some (driftScore message response)) id timestamp ∧
    (saveIdentity = .ok () →
      (checkDrift self message response id timestamp saveIdentity).1 =
        .ok { hasDrift := true, severity := driftScore message response }) ∧
    (∀ e, saveIdentity = .error e →
      (checkDrift self message response id timestamp saveIdentity).1 = .error e) := by
  unfold checkDrift
  rw [if_neg (by simp [hinit]), if_pos h]
  refine ⟨rfl, ?_, ?_⟩
  · intro hs
    rw [hs]
  · intro e hs
    rw [hs]

theorem checkDrift_of_no_drift (self : State) (message response id timestamp : String)
    (saveIdentity : Except String Unit) (hinit : self.isInitialized = true)
    (h : ¬ driftScore message response > self.constraints.maxDrift) :
    checkDrift self message response id timestamp saveIdentity =
      (.ok { hasDrift := false, severity := 0 }, self) := by
  unfold checkDrift
  rw [if_neg (by simp [hinit]), if_neg h]

theorem addTension_tensions (self : State) (tensionType description id timestamp : String)
    (severity : Rat) (hinit : self.isInitialized = true) :
    (addTension self tensionType description (some severity) id
        timestamp).writableIdentity.tensions =
      keepHighest Tension.severity self.constraints.maxTensions
        (self.writableIdentity.tensions ++
          [{ id := id, type := tensionType, description := description, severity := severity,
             timestamp := timestamp, resolved := false }]) := by
  simp [addTension, hinit]

/-- With a full list, a new entry is kept when an old entry has a lower key. -/
theorem mem_keepHighest_of_lower {α : Type} (key : α → Rat) (new : α) (l : List α)
    (old : α) (hold : old ∈ l) (hlow : key old < key new) :
    new ∈ keepHighest key l.length (l ++ [new]) := by
  obtain ⟨dropped, hperm, hlen, hord⟩ := keepHighest_spec key l.length (l ++ [new]) (by simp)
  by_contra hnot
  have hdl : dropped.length = 1 := by
    have := hperm.length_eq
    simp only [List.length_append, List.length_singleton, hlen] at this
    omega
  obtain ⟨d, rfl⟩ := List.length_eq_one.mp hdl
  have hnew : new ∈ keepHighest key l.length (l ++ [new]) ++ [d] :=
    hperm.symm.subset (by simp)
  have hd : d = new := by
    rcases List.mem_append.mp hnew with h | h
    · exact absurd h hnot
    · exact (List.mem_singleton.mp h).symm
  subst hd
  have hkept : (keepHighest key l.length (l ++ [d])).Perm l :=
    (List.perm_append_right_iff [d]).mp hperm
  have := hord old (hkept.symm.subset hold) d (List.mem_singleton_self d)
  exact absurd hlow (not_lt.mpr this)

theorem driftScore_truth_lie : driftScore "truth" "lie" = 4 / 10 := by
  unfold driftScore
  rw [show courageContradiction "truth" "lie" = false from by decide,
    show wordContradiction "truth" "lie" = true from by decide,
    show brandContradiction "truth" "lie" = false from by decide]
  norm_num

theorem sortDescending_replicate {α : Type} (key : α → Rat) (n : Nat) (a : α) :
    sortDescending key (List.replicate n a) = List.replicate n a := by
  unfold sortDescending
  apply List.Sorted.insertionSort_eq
  unfold List.Sorted
  rw [List.pairwise_replicate]
  exact Or.inr (le_refl _)

/-- Counterexample to C29: on an initialized instance with the constraints of the
constructor whose store holds 50 tensions of severity 0.5, the message `truth` answered
with `lie` has drift score 0.4 and `checkDrift` reports drift, yet the store is the same
afterwards and holds no tension of type `principle_drift`: the new tension has the lowest
severity of the 51 and is cut by the size limit at once. -/
theorem drift_without_tension_counterexample :
    crowdedState.isInitialized = true ∧ crowdedState.constraints.maxDrift = 3 / 10 ∧
    crowdedState.constraints.maxTensions = 50 ∧
    wordContradiction "truth" "lie" = true ∧
    checkDrift crowdedState "truth" "lie" "new" "1" (.ok ())
      = (.ok { hasDrift := true, severity := 4 / 10 }, crowdedState) ∧
    ∀ t ∈ (checkDrift crowdedState "truth" "lie" "new" "1"
        (.ok ())).2.writableIdentity.tensions, t.type ≠ "principle_drift" := by
  have hstate : addTension crowdedState "principle_drift" (driftDescription "lie")
      (some (4 / 10)) "new" "1" = crowdedState := by
    have ht := addTension_tensions crowdedState "principle_drift" (driftDescription "lie")
      "new" "1" (4 / 10) rfl
    have hk : keepHighest Tension.severity crowdedState.constraints.maxTensions
        (crowdedState.writableIdentity.tensions ++
          [{ id := "new", type := "principle_drift", description := driftDescription "lie",
             severity := 4 / 10, timestamp := "1", resolved := false }])
        = crowdedState.writableIdentity.tensions := by
      rw [keepHighest_append_lowest]
      · show (sortDescending Tension.severity (List.replicate 50 heldTension)).take 50
            = List.replicate 50 heldTension
        rw [sortDescending_replicate]
        exact List.take_of_length_le (by simp)
      · show 50 < (List.replicate 50 heldTension ++ _).length
        simp
      · intro a ha
        have : a = heldTension := List.eq_of_mem_replicate ha
        subst this
        show (4 / 10 : Rat) ≤ 1 / 2
        norm_num
    rw [hk] at ht
    simp only [addTension] at ht ⊢
    simp only [show crowdedState.isInitialized = true from rfl, Bool.true_eq_false, if_false,
      Option.getD_some] at ht ⊢
    rw [ht]
    rfl
  have hgt : driftScore "truth" "lie" > crowdedState.constraints.maxDrift := by
    rw [driftScore_truth_lie]
    show (4 / 10 : Rat) > 3 / 10
    norm_num
  obtain ⟨h2, h1, -⟩ := checkDrift_of_drift crowdedState "truth" "lie" "new" "1" (.ok ()) rfl hgt
  rw [driftScore_truth_lie] at h1 h2
  rw [hstate] at h2
  have hcheck : checkDrift crowdedState "truth" "lie" "new" "1" (.ok ())
      = (.ok { hasDrift := true, severity := 4 / 10 }, crowdedState) :=
    Prod.ext (h1 rfl) h2
  refine ⟨rfl, rfl, rfl, by decide, hcheck, ?_⟩
  rw [hcheck]
  intro t ht
  have : t = heldTension := List.eq_of_mem_replicate ht
  subst this
  decide

/-- C29 (amended): for an initialized instance with `maxDrift` 0.3 and texts of ASCII
characters, the drift score exceeds 0.3 exactly when the contradiction on the words of
truth fires or both the courage and the brand contradiction fire. In that case
`checkDrift` calls `addTension` with type `principle_drift` and the score as severity,
which appends the tension and applies the size limit: the tension is the last of the
store when the store held fewer than `maxTensions` tensions, it is in the store when the
store held `maxTensions` tensions one of which had a lower severity, and it is cut at
once when the store held `maxTensions` tensions or more, all of severity at least the
score; the call reports drift with the score as severity when the identity file is
written, and raises the error of the write otherwise. When the score does not exceed 0.3,
in particular for a lone courage or a lone brand contradiction, whose score is exactly
0.3, the call reports no drift with severity 0 and leaves the instance unchanged. -/
theorem drift_threshold (self : State) (message response id timestamp : String)
    (saveIdentity : Except String Unit)
    (hinit : self.isInitialized = true) (hmax : self.constraints.maxDrift = 3 / 10)
    (_hmessage : JavaScript.isAscii message = true)
    (_hresponse : JavaScript.isAscii response = true) :
    (driftScore message response > 3 / 10 ↔
      (wordContradiction message response = true ∨
        (courageContradiction message response = true ∧
          brandContradiction message response = true))) ∧
    (driftScore message response > 3 / 10 →
      (checkDrift self message response id timestamp saveIdentity).2 =
        addTension self "principle_drift" (driftDescription response)
          (some (driftScore message response)) id timestamp ∧
      (saveIdentity = .ok () →
        (checkDrift self message response id timestamp saveIdentity).1 =
          .ok { hasDrift := true, severity := driftScore message response }) ∧
      (∀ e, saveIdentity = .error e →
        (checkDrift self message response id timestamp saveIdentity).1 = .error e) ∧
      (checkDrift self message response id timestamp saveIdentity).2.writableIdentity.tensions =
        keepHighest Tension.severity self.constraints.maxTensions
          (self.writableIdentity.tensions ++ [driftTension message response id timestamp]) ∧
      (self.writableIdentity.tensions.length < self.constraints.maxTensions →
        (checkDrift self message response id timestamp
            saveIdentity).2.writableIdentity.tensions =
          self.writableIdentity.tensions ++ [driftTension message response id timestamp]) ∧
      (self.writableIdentity.tensions.length = self.constraints.maxTensions →
        (∃ t ∈ self.writableIdentity.tensions, t.severity < driftScore message response) →
        driftTension message response id timestamp ∈
          (checkDrift self message response id timestamp
            saveIdentity).2.writableIdentity.tensions) ∧
      (self.constraints.maxTensions ≤ self.writableIdentity.tensions.length →
        (∀ t ∈ self.writableIdentity.tensions, driftScore message response ≤ t.severity) →
        (checkDrift self message response id timestamp
            saveIdentity).2.writableIdentity.tensions =
          (sortDescending Tension.severity self.writableIdentity.tensions).take
            self.constraints.maxTensions)) ∧
    (¬ driftScore message response > 3 / 10 →
      checkDrift self message response id timestamp saveIdentity =
        (.ok { hasDrift := false, severity := 0 }, self)) ∧
    (wordContradiction message response = false →
      (courageContradiction message response = true ∧
          brandContradiction message response = false) ∨
        (courageContradiction message response = false ∧
          brandContradiction message response = true) →
      driftScore message response = 3 / 10 ∧
      checkDrift self message response id timestamp saveIdentity =
        (.ok { hasDrift := false, severity := 0 }, self)) := by
  have hneg : ¬ driftScore message response > 3 / 10 →
      checkDrift self message response id timestamp saveIdentity =
        (.ok { hasDrift := false, severity := 0 }, self) := by
    intro h
    exact checkDrift_of_no_drift self message response id timestamp saveIdentity hinit
      (by rw [hmax]; exact h)
  refine ⟨driftScore_gt_iff message response, fun h => ?_, hneg, ?_⟩
  · obtain ⟨h2, h1, h1e⟩ := checkDrift_of_drift self message response id timestamp
      saveIdentity hinit (by rw [hmax]; exact h)
    have ht : (checkDrift self message response id timestamp
        saveIdentity).2.writableIdentity.tensions =
        keepHighest Tension.severity self.constraints.maxTensions
          (self.writableIdentity.tensions ++ [driftTension message response id timestamp]) := by
      rw [h2, addTension_tensions _ _ _ _ _ _ hinit]
      rfl
    refine ⟨h2, h1, h1e, ht, ?_, ?_, ?_⟩
    · intro hlen
      rw [ht]
      unfold keepHighest
      rw [if_neg (by rw [List.length_append, List.length_singleton]; omega)]
    · rintro hlen ⟨t, htmem, hlow⟩
      rw [ht, ← hlen]
      exact mem_keepHighest_of_lower Tension.severity _ _ t htmem hlow
    · intro hlen hall
      rw [ht]
      exact keepHighest_append_lowest Tension.severity _ _ _
        (by rw [List.length_append, List.length_singleton]; omega) hall
  · intro hw hlone
    have hscore : driftScore message response = 3 / 10 := by
      unfold driftScore
      rcases hlone with ⟨h1, h2⟩ | ⟨h1, h2⟩ <;> rw [h1, hw, h2] <;> norm_num
    refine ⟨hscore, hneg ?_⟩
    rw [hscore]
    exact lt_irrefl _

/-- Witness of C29 (amended): on a fresh initialized instance whose identity file is
written, a message about truth answered with `deceive` fires the contradiction on the
words of truth: the score is 0.4, drift is reported and the tension is the only entry of
the store. A message about fear answered with `safe` fires the courage contradiction
alone: the score is 0.3, no drift is reported and the instance is unchanged. -/
theorem drift_threshold_witness :
    wordContradiction "Is honest work a promise" "Sometimes you deceive" = true ∧
    driftScore "Is honest work a promise" "Sometimes you deceive" = 4 / 10 ∧
    (checkDrift freshState "Is honest work a promise" "Sometimes you deceive" "t1" "0"
        (.ok ())).1 =
      .ok { hasDrift := true,
            severity := driftScore "Is honest work a promise" "Sometimes you deceive" } ∧
    (checkDrift freshState "Is honest work a promise" "Sometimes you deceive" "t1" "0"
        (.ok ())).2.writableIdentity.tensions =
      [] ++ [driftTension "Is honest work a promise" "Sometimes you deceive" "t1" "0"] ∧
    (driftTension "Is honest work a promise" "Sometimes you deceive" "t1" "0").description
      = "Detected drift in response: Sometimes you deceive" ∧
    courageContradiction "Do you FEAR the  risk" "better to stay safe" = true ∧
    driftScore "Do you FEAR the  risk" "better to stay safe" = 3 / 10 ∧
    checkDrift freshState "Do you FEAR the  risk" "better to stay safe" "t1" "0" (.ok ()) =
      (.ok { hasDrift := false, severity := 0 }, freshState) :=
  ⟨by decide,
    by
      unfold driftScore
      rw [show courageContradiction "Is honest work a promise" "Sometimes you deceive"
          = false from by decide,
        show wordContradiction "Is honest work a promise" "Sometimes you deceive"
          = true from by decide,
        show brandContradiction "Is honest work a promise" "Sometimes you deceive"
          = false from by decide]
      norm_num,
    ((drift_threshold freshState "Is honest work a promise" "Sometimes you deceive" "t1" "0"
      (.ok ()) rfl rfl (by decide) (by decide)).2.1
        ((drift_threshold freshState "Is honest work a promise" "Sometimes you deceive" "t1"
          "0" (.ok ()) rfl rfl (by decide) (by decide)).1.mpr (Or.inl (by decide)))).2.1 rfl,
    ((drift_threshold freshState "Is honest work a promise" "Sometimes you deceive" "t1" "0"
      (.ok ()) rfl rfl (by decide) (by decide)).2.1
        ((drift_threshold freshState "Is honest work a promise" "Sometimes you deceive" "t1"
          "0" (.ok ()) rfl rfl (by decide) (by decide)).1.mpr
            (Or.inl (by decide)))).2.2.2.2.1 (by decide),
    by decide,
    by decide,
    ((drift_threshold freshState "Do you FEAR the  risk" "better to stay safe" "t1" "0"
      (.ok ()) rfl rfl (by decide) (by decide)).2.2.2 (by decide)
        (Or.inl ⟨by decide, by decide⟩)).1,
    ((drift_threshold freshState "Do you FEAR the  risk" "better to stay safe" "t1" "0"
      (.ok ()) rfl rfl (by decide) (by decide)).2.2.2 (by decide)
        (Or.inl ⟨by decide, by decide⟩)).2⟩

end IdentityEvolution

namespace ContemplativeInquiry

/-! ## The language test -/

theorem isNonLatin_eq (u : Nat) : isNonLatin u = (isChinese u || isJapanese u || isKorean u) := by
  simp [isNonLatin, isChinese, isJapanese, isKorean, Bool.or_assoc]

theorem isNonLatin_not_whiteSpace (u : Nat) (h : isNonLatin u = true) :
    JavaScript.isWhiteSpace u = false := by
  simp only [isNonLatin, Bool.or_eq_true, Bool.and_eq_true, decide_eq_true_eq] at h
  simp only [JavaScript.isWhiteSpace, Bool.or_eq_false_iff, Bool.and_eq_false_iff,
    decide_eq_false_iff_not]
  omega

theorem nonLatinCount_le_totalChars (content : List Nat) :
    nonLatinCount content ≤ totalChars content := by
  unfold nonLatinCount totalChars
  rw [← List.countP_eq_length_filter, ← List.countP_eq_length_filter]
  apply List.countP_mono_left
  intro u _ h
  simp [isNonLatin_not_whiteSpace u h]

theorem hasNonLatin_iff (content : List Nat) :
    (content.any isChinese || content.any isJapanese || content.any isKorean) = true ↔
      0 < nonLatinCount content := by
  unfold nonLatinCount
  rw [List.length_pos, Ne, List.filter_eq_nil_iff]
  simp only [Bool.or_eq_true, List.any_eq_true, isNonLatin_eq, not_forall, Classical.not_not,
    exists_prop]
  constructor
  · rintro ((⟨u, hu, h⟩ | ⟨u, hu, h⟩) | ⟨u, hu, h⟩)
    · exact ⟨u, hu, Or.inl (Or.inl h)⟩
    · exact ⟨u, hu, Or.inl (Or.inr h)⟩
    · exact ⟨u, hu, Or.inr h⟩
  · rintro ⟨u, hu, (h | h) | h⟩
    · exact Or.inl (Or.inl ⟨u, hu, h⟩)
    · exact Or.inl (Or.inr ⟨u, hu, h⟩)
    · exact Or.inr ⟨u, hu, h⟩


theorem isNonEnglish_iff_ratio (content : List Nat) (hlen : 10 ≤ content.length) :
    isNonEnglish (some content) = true ↔
      (totalChars content : Rat) * (20 / 100) < (nonLatinCount content : Rat) := by
  have hne : content.isEmpty = false := by
    cases content with
    | nil => simp at hlen
    | cons a l => rfl
  have hnot : ¬ content.length < 10 := by omega
  simp only [isNonEnglish, hne, hnot, Bool.false_or, decide_False, Bool.false_eq_true,
    if_false]
  by_cases hhas : (content.any isChinese || content.any isJapanese ||
      content.any isKorean) = true
  · have hpos := (hasNonLatin_iff content).mp hhas
    have htot : (0 : Rat) < (totalChars content : Rat) := by
      have := nonLatinCount_le_totalChars content
      exact_mod_cast Nat.lt_of_lt_of_le hpos this
    simp only [hhas, Bool.not_true, Bool.false_eq_true, if_false, decide_eq_true_eq, gt_iff_lt]
    rw [lt_div_iff₀ htot]
    constructor <;> intro h <;> linarith
  · have hzero : nonLatinCount content = 0 := by
      by_contra hn
      exact hhas ((hasNonLatin_iff content).mpr (Nat.pos_of_ne_zero hn))
    have hhas' : (content.any isChinese || content.any isJapanese ||
        content.any isKorean) = false := by simpa using hhas
    simp only [hhas', Bool.not_false, if_true, Bool.false_eq_true, false_iff, not_lt, hzero,
      Nat.cast_zero]
    positivity

theorem nonLatinCount_eq (content : List Nat) :
    nonLatinCount content
      = content.countP (fun u => decide ((0x4E00 ≤ u ∧ u ≤ 0x9FFF) ∨
          (0x3040 ≤ u ∧ u ≤ 0x309F) ∨ (0x30A0 ≤ u ∧ u ≤ 0x30FF) ∨
          (0xAC00 ≤ u ∧ u ≤ 0xD7A3))) := by
  unfold nonLatinCount
  rw [← List.countP_eq_length_filter]
  congr 1
  funext u
  simp only [isNonLatin, Bool.decide_or, Bool.decide_and, Bool.or_assoc]

theorem totalChars_eq (content : List Nat) :
    totalChars content
      = content.countP (fun u => decide (¬ (u ∈ [0x09, 0x0A, 0x0B, 0x0C, 0x0D, 0x20, 0xA0,
          0x1680, 0x2028, 0x2029, 0x202F, 0x205F, 0x3000, 0xFEFF] ∨
          (0x2000 ≤ u ∧ u ≤ 0x200A)))) := by
  unfold totalChars
  rw [← List.countP_eq_length_filter]
  congr 1
  funext u
  simp only [JavaScript.isWhiteSpace, List.mem_cons, List.mem_singleton, List.not_mem_nil,
    or_false]
  rw [Bool.eq_iff_iff]
  simp only [Bool.not_eq_true', Bool.or_eq_false_iff, Bool.and_eq_false_iff,
    decide_eq_false_iff_not, decide_eq_true_eq, not_or, not_and, not_le]
  omega

/-- C21: for a string of at least 10 code units `isNonEnglish` is true exactly when the
Chinese, kana and Korean code units (U+4E00-9FFF, U+3040-309F, U+30A0-30FF, U+AC00-D7A3)
are strictly more than 20% of the code units that are not white space, which is to say
that five times their number exceeds the number of the latter; for a shorter string and
for absent content it is false. -/
theorem isNonEnglish_threshold :
    (∀ content : List Nat, 10 ≤ content.length →
      (isNonEnglish (some content) = true ↔
        content.countP (fun u => decide (¬ (u ∈ [0x09, 0x0A, 0x0B, 0x0C, 0x0D, 0x20, 0xA0,
            0x1680, 0x2028, 0x2029, 0x202F, 0x205F, 0x3000, 0xFEFF] ∨
            (0x2000 ≤ u ∧ u ≤ 0x200A))))
          < 5 * content.countP (fun u => decide ((0x4E00 ≤ u ∧ u ≤ 0x9FFF) ∨
            (0x3040 ≤ u ∧ u ≤ 0x309F) ∨ (0x30A0 ≤ u ∧ u ≤ 0x30FF) ∨
            (0xAC00 ≤ u ∧ u ≤ 0xD7A3))))) ∧
    (∀ content : List Nat, content.length < 10 → isNonEnglish (some content) = false) ∧
    isNonEnglish none = false := by
  refine ⟨?_, ?_, rfl⟩
  · intro content hlen
    rw [isNonEnglish_iff_ratio content hlen, ← nonLatinCount_eq, ← totalChars_eq]
    constructor
    · intro h
      have h' : (totalChars content : Rat) < 5 * (nonLatinCount content : Rat) := by linarith
      exact_mod_cast h'
    · intro h
      have h' : (totalChars content : Rat) < 5 * (nonLatinCount content : Rat) := by
        exact_mod_cast h
      linarith
  · intro content hlen
    simp [isNonEnglish, hlen]

/-- Witness of C21: of ten code units without white space, three Chinese ones (30%) give
true and two (exactly 20%) give false; two Chinese units among nine letters and one space
(2 of 9) give true; nine Chinese units alone are too short and give false. -/
theorem isNonEnglish_threshold_witness :
    isNonEnglish (some [0x4E2D, 0x6587, 0x5B57, 97, 98, 99, 100, 101, 102, 103]) = true ∧
    isNonEnglish (some [0x4E2D, 0x6587, 97, 98, 99, 100, 101, 102, 103, 104]) = false ∧
    isNonEnglish (some [0x4E2D, 0x6587, 0x20, 98, 99, 100, 101, 102, 103, 104]) = true ∧
    isNonEnglish (some [0x4E2D, 0x6587, 0x5B57, 0x4E2D, 0x6587, 0x5B57, 0x4E2D, 0x6587,
      0x5B57]) = false :=
  ⟨(isNonEnglish_threshold.1 [0x4E2D, 0x6587, 0x5B57, 97, 98, 99, 100, 101, 102, 103]
      (by decide)).mpr (by decide),
    Bool.eq_false_iff.mpr (fun h =>
      absurd ((isNonEnglish_threshold.1 [0x4E2D, 0x6587, 97, 98, 99, 100, 101, 102, 103, 104]
        (by decide)).mp h) (by decide)),
    (isNonEnglish_threshold.1 [0x4E2D, 0x6587, 0x20, 98, 99, 100, 101, 102, 103, 104]
      (by decide)).mpr (by decide),
    isNonEnglish_threshold.2.1 [0x4E2D, 0x6587, 0x5B57, 0x4E2D, 0x6587, 0x5B57, 0x4E2D, 0x6587,
      0x5B57] (by decide)⟩

end ContemplativeInquiry

namespace EntropyMonitoring

open ConstraintResolution JavaScript

/-! ## Patterns with capital letters against lower-cased text -/

theorem toLower_not_upper (c : Char) :
    ¬ (65 ≤ (Char.toLower c).toNat ∧ (Char.toLower c).toNat ≤ 90) := by
  unfold Char.toLower
  dsimp only
  split_ifs with h
  · obtain ⟨h1, h2⟩ := h
    generalize c.toNat = n at h1 h2 ⊢
    interval_cases n <;> decide
  · exact h

/-- A pattern with an upper-case letter occurs in no lower-cased text. -/
theorem includes_toLowerCase_upper (s p : String) (c : Char) (hc : c ∈ p.data)
    (hup : 65 ≤ c.toNat ∧ c.toNat ≤ 90) : includes (toLowerCase s) p = false := by
  by_contra hcon
  have hinc : includes (toLowerCase s) p = true := by simpa using hcon
  unfold includes at hinc
  rw [includesChars_iff] at hinc
  have hmem : c ∈ (toLowerCase s).data := hinc.subset hc
  simp only [toLowerCase, List.mem_map] at hmem
  obtain ⟨d, _, rfl⟩ := hmem
  exact toLower_not_upper d hup

theorem foldl_count (p : String → Bool) (l : List String) (n : Nat) :
    l.foldl (fun count concept => if p concept then count + 1 else count) n =
      n + (l.filter p).length := by
  induction l generalizing n with
  | nil => simp
  | cons c cs ih =>
    rw [List.foldl_cons, ih, List.filter_cons]
    split
    · simp only [List.length_cons]
      omega
    · rfl

theorem breakdownMetacognitive_eq_zero (responseText : Option String) :
    breakdownMetacognitive responseText = 0 := by
  unfold breakdownMetacognitive
  have h1 := includes_toLowerCase_upper (responseText.getD "") "I realize" (Char.ofNat 73)
    (by decide) (by decide)
  have h2 := includes_toLowerCase_upper (responseText.getD "") "I understand now"
    (Char.ofNat 73) (by decide) (by decide)
  simp [h1, h2]

/-- C22 (failing input): the concept `RFC-T` is never counted. On the message `RFC-T` the
count is 0, and on a text that contains `RFC-T` and `recursive` it is 1, not 2; for all texts
the concept `RFC-T` is not found in the lower-cased text, so the count is the number of the
other eleven concepts that occur in it. -/
theorem countMetaConcepts_misses_upper_case_concept :
    countMetaConcepts "RFC-T" "" = 0 ∧
    countMetaConcepts "the RFC-T theory" "is recursive" = 1 ∧
    (∀ userMessage responseText : String,
      includes (toLowerCase (userMessage ++ responseText)) "RFC-T" = false ∧
      countMetaConcepts userMessage responseText =
        ((metaConcepts.filter (fun concept => concept != "RFC-T")).filter
          (fun concept => includes (toLowerCase (userMessage ++ responseText)) concept)).length) := by
  refine ⟨by decide, by decide, fun userMessage responseText => ?_⟩
  have h := includes_toLowerCase_upper (userMessage ++ responseText) "RFC-T" (Char.ofNat 82)
    (by decide) (by decide)
  refine ⟨h, ?_⟩
  unfold countMetaConcepts
  dsimp only
  rw [foldl_count, Nat.zero_add, List.filter_filter]
  congr 1
  apply List.filter_congr
  intro c _
  by_cases hc : c = "RFC-T"
  · subst hc
    simp [h]
  · simp [hc]

/-- C23 (failing input): the phrases written with a capital `I` never match the lower-cased
response. For the responses `I realize the point` and `I understand now` the component
`metacognitive` of the breakdown is 0 (it is 0 for every response), and the score adds
nothing for `I realize`, `I see now` and `I understand now`, while it adds 0.2 for
`a revelation`. -/
theorem metacognitive_capital_phrases_never_match :
    breakdownMetacognitive (some "I realize the point") = 0 ∧
    breakdownMetacognitive (some "I understand now") = 0 ∧
    metacognitiveShift (some "I realize the point") = 0 ∧
    metacognitiveShift (some "I see now") = 0 ∧
    metacognitiveShift (some "I understand now") = 0 ∧
    metacognitiveShift (some "a revelation") = 2 / 10 ∧
    metacognitiveShift (some "nothing listed") = 0 ∧
    (∀ responseText : Option String, breakdownMetacognitive responseText = 0) := by
  refine ⟨by decide, by decide, by decide, by decide, by decide, ?_, by decide,
    breakdownMetacognitive_eq_zero⟩
  unfold metacognitiveShift
  rw [if_pos (by decide)]

end EntropyMonitoring
